import Mathlib

/-!
# Otter: region stacks, parallel-region reference counts and the OMPT callbacks

A shallow embedding of

* `src/otter-datatypes/dt-stack.c` (the LIFO stack),
* `src/otter-trace/trace-core.c` (`trace_event_thread_begin`, `trace_event_thread_end`,
  `trace_event_enter`, `trace_event_leave`, the functions that add the attributes of an
  event, `get_unique_uint64_ref`, `get_unique_uint32_ref`),
* `src/otter-core/otter.c` (the OMPT callbacks that record trace events, `get_unique_id`,
  `destroy_graph_node_data`),
* `include/otter-task-graph/task-graph.h` (the types of the nodes of the task graph),
* `src/otter-core/ompt-core-callbacks.c` (the OMPT callbacks that build the task graph),

followed by the properties proved about them.

Conventions of the embedding.

* A pointer is a natural number, `0` is `NULL`.  A heap is a function from addresses to
  `Option` of the object stored there; `none` means that no live object is at the address.
* A `stack_t *` held in a field is an `Option stack_t`: `none` is the `NULL` stack.
* Unsigned machine integers are natural numbers reduced modulo `2 ^ w` at every update.
* The outcome of `malloc` inside a function is an explicit argument of its embedding.
* The pointer `self` of a call is the address of a location: every address holds a location
  record.  Event records go to a log, tagged with the address of the writing location.
* Calls are atomic: the statements of one call are not interleaved with another call.
-/

namespace Otter

/-! ## dt-stack.c -/

/-- The union `data_item_t` (a pointer or a 64-bit value), as its 64-bit value. -/
abbrev data_item_t := Nat

/-- Number of values of a `size_t` and of a `uint64_t`. -/
def SIZE_MOD : Nat := 2 ^ 64

/-- Number of values of an `unsigned int`. -/
def UINT_MOD : Nat := 2 ^ 32

/-- The struct `stack_t`: `head` lists the data of the nodes reached from `head` through
`next` (`[]` when `head == NULL`), `size` is the `size_t` field. -/
structure stack_t where
  head : List data_item_t
  size : Nat
deriving DecidableEq, Repr

/-- The function `stack_create`; `mem` tells whether `malloc` returned a block. -/
def stack_create (mem : Bool) : Option stack_t :=
  if mem then some { head := [], size := 0 } else none

/-- The function `stack_push`; `mem` tells whether the `malloc` of the node returned a
block.  The result is the returned `bool` and the stack afterwards. -/
def stack_push (s : Option stack_t) (item : data_item_t) (mem : Bool) :
    Bool × Option stack_t :=
  match s with
  | none => (false, none)
  | some st =>
    if mem then
      (true, some { head := item :: st.head, size := (st.size + 1) % SIZE_MOD })
    else
      (false, some st)

/-- The function `stack_pop`.  The argument `dest` is `none` for a `NULL` destination and
`some v` for a destination that holds `v`; the result is the returned `bool`, the stack
afterwards and the destination afterwards. -/
def stack_pop (s : Option stack_t) (dest : Option data_item_t) :
    Bool × Option stack_t × Option data_item_t :=
  match s with
  | none => (false, none, dest)
  | some st =>
    match st.head with
    | [] => (false, some st, dest)
    | x :: rest =>
      (true,
       some { head := rest, size := (st.size + SIZE_MOD - 1) % SIZE_MOD },
       dest.map (fun _ => x))

/-- The function `stack_peek`: the returned `bool` and the destination afterwards (the
stack is not written). -/
def stack_peek (s : Option stack_t) (dest : Option data_item_t) :
    Bool × Option data_item_t :=
  match s, dest with
  | some st, some d =>
    match st.head with
    | [] => (false, some d)
    | x :: _ => (true, some x)
  | _, d => (false, d)

/-- The function `stack_size`. -/
def stack_size (s : Option stack_t) : Nat :=
  match s with
  | none => 0
  | some st => st.size

/-- The function `stack_is_empty`. -/
def stack_is_empty (s : Option stack_t) : Bool :=
  match s with
  | none => true
  | some st => if st.size = 0 then true else false

/-- Pushes the items of `xs` in order, all node allocations succeeding; the result is the
conjunction of the returned values and the stack afterwards. -/
def push_all (s : Option stack_t) : List data_item_t → Bool × Option stack_t
  | [] => (true, s)
  | x :: xs =>
    let r := stack_push s x true
    let q := push_all r.2 xs
    (r.1 && q.1, q.2)

/-- Pops `n` times into a destination that holds `0` before each call; the result is the
list of (returned value, destination afterwards) in call order and the stack afterwards. -/
def pop_n (s : Option stack_t) : Nat → List (Bool × Option data_item_t) × Option stack_t
  | 0 => ([], s)
  | n + 1 =>
    let r := stack_pop s (some 0)
    let q := pop_n r.2.1 n
    ((r.1, r.2.2) :: q.1, q.2)

/-! ## trace-core.c

The structs `trace_region_def_t` and `trace_location_def_t` are declared in
`otter-trace/trace-structs.h`, which is not among the sources; their fields are taken from
the uses in `trace-core.c`.  The counters `ref_count` and `enter_count` are printed with
`%u` there and are taken to be `unsigned int`; `events` is passed as the 64-bit event count
of `OTF2_GlobalDefWriter_WriteLocation`. -/

/-- The enum `trace_region_type_t`: the five values `trace_event_enter` and
`trace_event_leave` switch on, and `trace_region_unhandled` for every other value (the
`default` branch of the switch). -/
inductive trace_region_type_t where
  | trace_region_parallel
  | trace_region_workshare
  | trace_region_synchronise
  | trace_region_task
  | trace_region_master
  | trace_region_unhandled
deriving DecidableEq, Repr

open trace_region_type_t

/-- The fields of `trace_region_def_t` that are only read when the attributes of an event
are written: `encountering_task_id` and, of the payload `attr` of each kind of region,
`attr.parallel.id` and `attr.parallel.is_league`, `attr.wshare.type` and
`attr.wshare.count`, `attr.sync.type`, `attr.master.thread`, and the fields of `attr.task`. -/
structure region_attr_t where
  encountering_task_id : Nat := 0
  parallel_id : Nat := 0
  is_league : Bool := false
  wshare_type : Nat := 0
  wshare_count : Nat := 0
  sync_type : Nat := 0
  master_thread : Nat := 0
  task_id : Nat := 0
  task_type : Nat := 0
  task_flags : Nat := 0
  parent_id : Nat := 0
  parent_type : Nat := 0
  has_dependences : Nat := 0
  task_status : Nat := 0
deriving DecidableEq, Repr

/-- The struct `trace_region_def_t`: `ref`, `type`, of `attr.parallel` the fields
`requested_parallelism`, `ref_count`, `enter_count` and `rgn_defs` (a `queue_t *`), and in
`attr` the fields read for the attributes of events. -/
structure trace_region_def_t where
  ref : Nat
  type : trace_region_type_t
  requested_parallelism : Nat
  ref_count : Nat
  enter_count : Nat
  rgn_defs : Nat
  attr : region_attr_t := {}
deriving DecidableEq, Repr

/-- The struct `trace_location_def_t`: the event counter, the region stack, the current
queue of region definitions (a `queue_t *`) and the stack of suspended queues. -/
structure trace_location_def_t where
  events : Nat
  rgn_stack : Option stack_t
  rgn_defs : Nat
  rgn_defs_stack : Option stack_t
deriving DecidableEq, Repr

/-- What a call does to the world outside the structs, in program order: the event
records written to the event writer of the location at address `loc`, the operations on
the mutex `attr.parallel.lock_rgn` of the region at address `region`, and the calls of
`trace_destroy_parallel_region` (with the contents of the region at that moment). -/
inductive Eff where
  | ThreadBegin (loc : Nat)
  | ThreadEnd (loc : Nat)
  | Enter (loc : Nat) (ref : Nat)
  | Leave (loc : Nat) (ref : Nat)
  | TaskCreate (loc : Nat)
  | lock (region : Nat)
  | unlock (region : Nat)
  | destroy (region : Nat) (r : trace_region_def_t)
deriving DecidableEq, Repr

/-- The memory the recorder works on: the locations, the regions and the queues by
address, the region definitions handed to the global definition writer `Defs`, and the
effects so far (oldest first). -/
structure World where
  locs : Nat → trace_location_def_t
  regions : Nat → Option trace_region_def_t
  queues : Nat → Option (List data_item_t)
  Defs : List data_item_t
  log : List Eff

/-- How a call ends: it returns, it reaches `abort()` (in the given state), or it
dereferences a pointer to no live object (undefined behaviour). -/
inductive Result (σ : Type) where
  | ok (s : σ)
  | abort (s : σ)
  | fault

/-- The region a pointer refers to; none for `NULL` and for a freed region. -/
def World.region_at (w : World) (p : Nat) : Option trace_region_def_t :=
  if p = 0 then none else w.regions p

/-- The queue a pointer refers to; none for `NULL` and for a freed queue. -/
def World.queue_at (w : World) (q : Nat) : Option (List data_item_t) :=
  if q = 0 then none else w.queues q

/-- Stores `l` in the location at address `self`. -/
def World.set_loc (w : World) (self : Nat) (l : trace_location_def_t) : World :=
  { w with locs := Function.update w.locs self l }

/-- Stores `r` in the region cell at address `p`. -/
def World.set_region (w : World) (p : Nat) (r : Option trace_region_def_t) : World :=
  { w with regions := Function.update w.regions p r }

/-- Appends one effect to the log. -/
def World.emit (w : World) (e : Eff) : World :=
  { w with log := w.log ++ [e] }

/-- Modelled from the spec: `queue_create` (the FIFO queue of otter-datatypes, whose source
is not under `src/`) allocates a fresh empty queue.  The address `q` it returns is an
argument (`0` when the allocation fails). -/
def queue_create (w : World) (q : Nat) : World :=
  if q = 0 then w else { w with queues := Function.update w.queues q (some []) }

/-- Modelled from the spec: `queue_append` (not under `src/`), "append(dst, src) splices
src onto the tail of dst and empties src"; it fails when either queue is missing. -/
def queue_append (w : World) (dst src : Nat) : Bool × World :=
  match w.queue_at dst, w.queue_at src with
  | some a, some b =>
    (true,
     { w with queues :=
        Function.update (Function.update w.queues dst (some (a ++ b))) src (some []) })
  | _, _ => (false, w)

/-- Modelled from the spec: `queue_destroy(q, false, NULL)` (not under `src/`) frees the
queue and none of its items. -/
def queue_destroy (w : World) (q : Nat) : World :=
  if q = 0 then w else { w with queues := Function.update w.queues q none }

/-- Modelled from the spec: `trace_destroy_parallel_region` (otter-trace/trace-structs.c,
not under `src/`) "destroys the region, flushing its merged queue to the global defs": the
definitions queued in the region go to `Defs`, the queue and the region are freed. -/
def trace_destroy_parallel_region (w : World) (region : Nat) : World :=
  match w.region_at region with
  | none => w
  | some r =>
    { (queue_destroy w r.rgn_defs) with
      Defs := w.Defs ++ (w.queue_at r.rgn_defs).getD []
      regions := Function.update w.regions region none
      log := w.log ++ [Eff.destroy region r] }

/-- The function `trace_event_thread_begin`. -/
def trace_event_thread_begin (w : World) (self : Nat) : World :=
  let w1 := w.emit (Eff.ThreadBegin self)
  w1.set_loc self { w1.locs self with events := ((w1.locs self).events + 1) % SIZE_MOD }

/-- The function `trace_event_thread_end`. -/
def trace_event_thread_end (w : World) (self : Nat) : World :=
  let w1 := w.emit (Eff.ThreadEnd self)
  w1.set_loc self { w1.locs self with events := ((w1.locs self).events + 1) % SIZE_MOD }

/-- The outcomes of the allocations made by one call of `trace_event_enter`: the node
pushed on `rgn_defs_stack`, the queue returned by `queue_create()`, the node pushed on
`rgn_stack`. -/
structure enter_mem where
  defs_node : Bool
  queue : Nat
  rgn_node : Bool
deriving DecidableEq, Repr

/-- The function `trace_event_enter(self, region)`. -/
def trace_event_enter (w : World) (self region : Nat) (mem : enter_mem) : Result World :=
  -- region->type is read first: a NULL region is only logged before it is dereferenced
  match w.region_at region with
  | none => Result.fault
  | some r =>
    -- if (region->type == trace_region_parallel): new queue of definitions, lock
    let w1 : World :=
      if r.type = trace_region_parallel then
        let l := w.locs self
        let l1 : trace_location_def_t :=
          { l with
            rgn_defs_stack := (stack_push l.rgn_defs_stack l.rgn_defs mem.defs_node).2
            rgn_defs := mem.queue }
        ((queue_create w mem.queue).set_loc self l1).emit (Eff.lock region)
      else w
    -- switch (region->type) ... default: abort()
    if r.type = trace_region_unhandled then Result.abort w1
    else
      -- OTF2_EvtWriter_Enter(..., region->ref)
      let w2 := w1.emit (Eff.Enter self r.ref)
      -- stack_push(self->rgn_stack, region)
      let l2 := w2.locs self
      let w3 := w2.set_loc self
        { l2 with rgn_stack := (stack_push l2.rgn_stack region mem.rgn_node).2 }
      -- if (region->type == trace_region_parallel): ref_count++, enter_count++, unlock
      let w4 : World :=
        if r.type = trace_region_parallel then
          (w3.set_region region
            (some { r with
              ref_count := (r.ref_count + 1) % UINT_MOD
              enter_count := (r.enter_count + 1) % UINT_MOD })).emit (Eff.unlock region)
        else w3
      -- self->events++
      let l4 := w4.locs self
      Result.ok (w4.set_loc self { l4 with events := (l4.events + 1) % SIZE_MOD })

/-- The function `trace_event_leave(self)`. -/
def trace_event_leave (w : World) (self : Nat) : Result World :=
  let l := w.locs self
  -- if (stack_is_empty(self->rgn_stack)) abort()
  if stack_is_empty l.rgn_stack then Result.abort w
  else
    -- trace_region_def_t *region = NULL; stack_pop(self->rgn_stack, &region)
    let popped := stack_pop l.rgn_stack (some 0)
    let region : Nat := popped.2.2.getD 0
    let w0 := w.set_loc self { l with rgn_stack := popped.2.1 }
    match w0.region_at region with
    | none => Result.fault
    | some r =>
      -- if (region->type == trace_region_parallel): lock
      let w1 : World :=
        if r.type = trace_region_parallel then w0.emit (Eff.lock region) else w0
      -- switch (region->type) ... default: abort()
      if r.type = trace_region_unhandled then Result.abort w1
      else
        -- OTF2_EvtWriter_Leave(..., region->ref)
        let w2 := w1.emit (Eff.Leave self r.ref)
        let w7 : World :=
          if r.type = trace_region_parallel then
            -- queue_append(region->attr.parallel.rgn_defs, self->rgn_defs)
            let l2 := w2.locs self
            let w3 := (queue_append w2 r.rgn_defs l2.rgn_defs).2
            -- queue_destroy(self->rgn_defs, false, NULL); self->rgn_defs = NULL
            let w4 := queue_destroy w3 l2.rgn_defs
            -- stack_pop(self->rgn_defs_stack, &self->rgn_defs)
            let pd := stack_pop l2.rgn_defs_stack (some 0)
            let w5 := w4.set_loc self
              { l2 with rgn_defs := pd.2.2.getD 0, rgn_defs_stack := pd.2.1 }
            -- region->attr.parallel.ref_count--
            let rc := (r.ref_count + UINT_MOD - 1) % UINT_MOD
            let w6 := w5.set_region region (some { r with ref_count := rc })
            -- if (ref_count == 0) { unlock; trace_destroy_parallel_region } else unlock
            if rc = 0 then
              trace_destroy_parallel_region (w6.emit (Eff.unlock region)) region
            else
              w6.emit (Eff.unlock region)
          else w2
        -- self->events++
        let l7 := w7.locs self
        Result.ok (w7.set_loc self { l7 with events := (l7.events + 1) % SIZE_MOD })

/-! ## The attributes of events (trace-core.c)

The enums of the attributes and of their labels are generated from
`trace-attribute-defs.h`, which is not among the sources; the enumerators below are those
`trace-core.c` names.  The functions `OTF2_AttributeList_Add...` belong to the trace writer
library: a call appends the attribute with its value, converted to the type of the function,
to the list (no function of `trace-core.c` adds an attribute twice to a list). -/

/-- The enumerators of the attributes that `trace-core.c` adds to events. -/
inductive attr_name_enum_t where
  | attr_cpu
  | attr_encountering_task_id
  | attr_region_type
  | attr_unique_id
  | attr_thread_type
  | attr_requested_parallelism
  | attr_is_league
  | attr_workshare_type
  | attr_workshare_count
  | attr_sync_type
  | attr_task_type
  | attr_task_flags
  | attr_parent_task_id
  | attr_parent_task_type
  | attr_task_has_dependences
  | attr_task_is_undeferred
  | attr_task_is_untied
  | attr_task_is_final
  | attr_task_is_mergeable
  | attr_task_is_merged
  | attr_prior_task_status
  | attr_event_type
  | attr_endpoint
deriving DecidableEq, Repr

open attr_name_enum_t

/-- The enumerators of the labels that `trace-core.c` reads from `attr_label_ref`. -/
inductive attr_label_enum_t where
  | attr_region_type_parallel
  | attr_region_type_master
  | attr_region_type_task
  | attr_flag_true
  | attr_flag_false
  | attr_event_type_parallel_begin
  | attr_event_type_parallel_end
  | attr_event_type_workshare_begin
  | attr_event_type_workshare_end
  | attr_event_type_sync_begin
  | attr_event_type_sync_end
  | attr_event_type_master_begin
  | attr_event_type_master_end
  | attr_event_type_task_enter
  | attr_event_type_task_leave
  | attr_event_type_task_create
  | attr_endpoint_enter
  | attr_endpoint_leave
  | attr_endpoint_discrete
deriving DecidableEq, Repr

open attr_label_enum_t

/-- The string refs the attribute functions read: the array `attr_label_ref`, filled when the
archive is initialised, and the macros `WORK_TYPE_TO_STR_REF`, `SYNC_TYPE_TO_STR_REF`,
`TASK_TYPE_TO_STR_REF` and `TASK_STATUS_TO_STR_REF`, defined in a header that is not among
the sources; each macro gives the string ref of the label of its argument. -/
structure attr_refs_t where
  attr_label_ref : attr_label_enum_t → Nat
  WORK_TYPE_TO_STR_REF : Nat → Nat
  SYNC_TYPE_TO_STR_REF : Nat → Nat
  TASK_TYPE_TO_STR_REF : Nat → Nat
  TASK_STATUS_TO_STR_REF : Nat → Nat

/-- The value of an attribute, with its OTF2 type. -/
inductive attr_value_t where
  | Int32 (v : Int)
  | Uint8 (v : Nat)
  | Uint32 (v : Nat)
  | Uint64 (v : Nat)
  | StringRef (v : Nat)
deriving DecidableEq, Repr

/-- An attribute list: the attributes added, in order, each with its value. -/
abbrev OTF2_AttributeList := List (attr_name_enum_t × attr_value_t)

/-- The library call `OTF2_AttributeList_AddInt32`. -/
def OTF2_AttributeList_AddInt32 (l : OTF2_AttributeList) (a : attr_name_enum_t) (v : Int) :
    OTF2_AttributeList :=
  l ++ [(a, attr_value_t.Int32 v)]

/-- The library call `OTF2_AttributeList_AddUint8`: the argument is converted to `uint8_t`. -/
def OTF2_AttributeList_AddUint8 (l : OTF2_AttributeList) (a : attr_name_enum_t) (v : Nat) :
    OTF2_AttributeList :=
  l ++ [(a, attr_value_t.Uint8 (v % 2 ^ 8))]

/-- The library call `OTF2_AttributeList_AddUint32`: the argument is converted to
`uint32_t`. -/
def OTF2_AttributeList_AddUint32 (l : OTF2_AttributeList) (a : attr_name_enum_t) (v : Nat) :
    OTF2_AttributeList :=
  l ++ [(a, attr_value_t.Uint32 (v % UINT_MOD))]

/-- The library call `OTF2_AttributeList_AddUint64`: the argument is converted to
`uint64_t`. -/
def OTF2_AttributeList_AddUint64 (l : OTF2_AttributeList) (a : attr_name_enum_t) (v : Nat) :
    OTF2_AttributeList :=
  l ++ [(a, attr_value_t.Uint64 (v % SIZE_MOD))]

/-- The library call `OTF2_AttributeList_AddStringRef`. -/
def OTF2_AttributeList_AddStringRef (l : OTF2_AttributeList) (a : attr_name_enum_t) (v : Nat) :
    OTF2_AttributeList :=
  l ++ [(a, attr_value_t.StringRef v)]

/-- The function `trace_add_common_event_attributes`, on the list `rgn->attributes`; `cpu`
is what `sched_getcpu()` returns. -/
def trace_add_common_event_attributes (refs : attr_refs_t) (cpu : Int)
    (rgn : trace_region_def_t) (l : OTF2_AttributeList) : OTF2_AttributeList :=
  let l1 := OTF2_AttributeList_AddInt32 l attr_cpu cpu
  let l2 := OTF2_AttributeList_AddUint64 l1 attr_encountering_task_id
    rgn.attr.encountering_task_id
  OTF2_AttributeList_AddStringRef l2 attr_region_type
    (if rgn.type = trace_region_parallel then refs.attr_label_ref attr_region_type_parallel
     else if rgn.type = trace_region_workshare then
       refs.WORK_TYPE_TO_STR_REF rgn.attr.wshare_type
     else if rgn.type = trace_region_synchronise then
       refs.SYNC_TYPE_TO_STR_REF rgn.attr.sync_type
     else if rgn.type = trace_region_task then refs.TASK_TYPE_TO_STR_REF rgn.attr.task_type
     else if rgn.type = trace_region_master then refs.attr_label_ref attr_region_type_master
     else refs.attr_label_ref attr_region_type_task)

/-- The function `trace_add_parallel_attributes`. -/
def trace_add_parallel_attributes (refs : attr_refs_t) (rgn : trace_region_def_t)
    (l : OTF2_AttributeList) : OTF2_AttributeList :=
  let l1 := OTF2_AttributeList_AddUint64 l attr_unique_id rgn.attr.parallel_id
  let l2 := OTF2_AttributeList_AddUint32 l1 attr_requested_parallelism
    rgn.requested_parallelism
  OTF2_AttributeList_AddStringRef l2 attr_is_league
    (if rgn.attr.is_league then refs.attr_label_ref attr_flag_true
     else refs.attr_label_ref attr_flag_false)

/-- The function `trace_add_workshare_attributes`. -/
def trace_add_workshare_attributes (refs : attr_refs_t) (rgn : trace_region_def_t)
    (l : OTF2_AttributeList) : OTF2_AttributeList :=
  let l1 := OTF2_AttributeList_AddStringRef l attr_workshare_type
    (refs.WORK_TYPE_TO_STR_REF rgn.attr.wshare_type)
  OTF2_AttributeList_AddUint64 l1 attr_workshare_count rgn.attr.wshare_count

/-- The function `trace_add_master_attributes`. -/
def trace_add_master_attributes (rgn : trace_region_def_t) (l : OTF2_AttributeList) :
    OTF2_AttributeList :=
  OTF2_AttributeList_AddUint64 l attr_unique_id rgn.attr.master_thread

/-- The function `trace_add_sync_attributes`. -/
def trace_add_sync_attributes (refs : attr_refs_t) (rgn : trace_region_def_t)
    (l : OTF2_AttributeList) : OTF2_AttributeList :=
  OTF2_AttributeList_AddStringRef l attr_sync_type
    (refs.SYNC_TYPE_TO_STR_REF rgn.attr.sync_type)

/-- The flag `ompt_task_undeferred`. -/
def ompt_task_undeferred : Nat := 0x08000000

/-- The flag `ompt_task_untied`. -/
def ompt_task_untied : Nat := 0x10000000

/-- The flag `ompt_task_final`. -/
def ompt_task_final : Nat := 0x20000000

/-- The flag `ompt_task_mergeable`. -/
def ompt_task_mergeable : Nat := 0x40000000

/-- The flag `ompt_task_merged`. -/
def ompt_task_merged : Nat := 0x80000000

/-- The function `trace_add_task_attributes`. -/
def trace_add_task_attributes (refs : attr_refs_t) (rgn : trace_region_def_t)
    (l : OTF2_AttributeList) : OTF2_AttributeList :=
  let l1 := OTF2_AttributeList_AddUint64 l attr_unique_id rgn.attr.task_id
  let l2 := OTF2_AttributeList_AddStringRef l1 attr_task_type
    (refs.TASK_TYPE_TO_STR_REF rgn.attr.task_type)
  let l3 := OTF2_AttributeList_AddUint32 l2 attr_task_flags rgn.attr.task_flags
  let l4 := OTF2_AttributeList_AddUint64 l3 attr_parent_task_id rgn.attr.parent_id
  let l5 := OTF2_AttributeList_AddStringRef l4 attr_parent_task_type
    (refs.TASK_TYPE_TO_STR_REF rgn.attr.parent_type)
  let l6 := OTF2_AttributeList_AddUint8 l5 attr_task_has_dependences rgn.attr.has_dependences
  let l7 := OTF2_AttributeList_AddUint8 l6 attr_task_is_undeferred
    (rgn.attr.task_flags &&& ompt_task_undeferred)
  let l8 := OTF2_AttributeList_AddUint8 l7 attr_task_is_untied
    (rgn.attr.task_flags &&& ompt_task_untied)
  let l9 := OTF2_AttributeList_AddUint8 l8 attr_task_is_final
    (rgn.attr.task_flags &&& ompt_task_final)
  let l10 := OTF2_AttributeList_AddUint8 l9 attr_task_is_mergeable
    (rgn.attr.task_flags &&& ompt_task_mergeable)
  let l11 := OTF2_AttributeList_AddUint8 l10 attr_task_is_merged
    (rgn.attr.task_flags &&& ompt_task_merged)
  OTF2_AttributeList_AddStringRef l11 attr_prior_task_status
    (refs.TASK_STATUS_TO_STR_REF rgn.attr.task_status)

/-- The `switch (region->type)` of `trace_event_enter` and `trace_event_leave` that adds the
attributes of the region to the event; `none` is the `default` branch, which aborts. -/
def add_region_attributes (refs : attr_refs_t) (region : trace_region_def_t)
    (l : OTF2_AttributeList) : Option OTF2_AttributeList :=
  match region.type with
  | trace_region_parallel => some (trace_add_parallel_attributes refs region l)
  | trace_region_workshare => some (trace_add_workshare_attributes refs region l)
  | trace_region_synchronise => some (trace_add_sync_attributes refs region l)
  | trace_region_task => some (trace_add_task_attributes refs region l)
  | trace_region_master => some (trace_add_master_attributes region l)
  | trace_region_unhandled => none

/-- The attribute list `region->attributes` that `trace_event_enter` hands to
`OTF2_EvtWriter_Enter` with the Enter event of `region`, built by the statements of
`trace_event_enter` between the entry and the call of the writer.  The list is empty when
the function is entered (the writer empties the list it is handed). -/
def enter_attributes (refs : attr_refs_t) (cpu : Int) (region : trace_region_def_t) :
    Option OTF2_AttributeList :=
  -- trace_add_common_event_attributes(region)
  let l1 := trace_add_common_event_attributes refs cpu region []
  -- the event type attribute
  let l2 := OTF2_AttributeList_AddStringRef l1 attr_event_type
    (if region.type = trace_region_parallel then
       refs.attr_label_ref attr_event_type_parallel_begin
     else if region.type = trace_region_workshare then
       refs.attr_label_ref attr_event_type_workshare_begin
     else if region.type = trace_region_synchronise then
       refs.attr_label_ref attr_event_type_sync_begin
     else if region.type = trace_region_master then
       refs.attr_label_ref attr_event_type_master_begin
     else refs.attr_label_ref attr_event_type_task_enter)
  -- the endpoint
  let l3 := OTF2_AttributeList_AddStringRef l2 attr_endpoint
    (refs.attr_label_ref attr_endpoint_enter)
  add_region_attributes refs region l3

/-- The attribute list `region->attributes` that `trace_event_leave` hands to
`OTF2_EvtWriter_Leave` with the Leave event of `region`. -/
def leave_attributes (refs : attr_refs_t) (cpu : Int) (region : trace_region_def_t) :
    Option OTF2_AttributeList :=
  -- trace_add_common_event_attributes(region)
  let l1 := trace_add_common_event_attributes refs cpu region []
  -- the event type attribute
  let l2 := OTF2_AttributeList_AddStringRef l1 attr_event_type
    (if region.type = trace_region_parallel then
       refs.attr_label_ref attr_event_type_parallel_end
     else if region.type = trace_region_workshare then
       refs.attr_label_ref attr_event_type_workshare_end
     else if region.type = trace_region_synchronise then
       refs.attr_label_ref attr_event_type_sync_end
     else if region.type = trace_region_master then
       refs.attr_label_ref attr_event_type_master_end
     else refs.attr_label_ref attr_event_type_task_leave)
  -- the endpoint
  let l3 := OTF2_AttributeList_AddStringRef l2 attr_endpoint
    (refs.attr_label_ref attr_endpoint_leave)
  add_region_attributes refs region l3

/-! ## Runs of the recorder -/

/-- One call of the recorder on the location at address `self`. -/
inductive Op where
  | enter (self region : Nat) (mem : enter_mem)
  | leave (self : Nat)
deriving DecidableEq, Repr

/-- Performs one call. -/
def step (w : World) : Op → Result World
  | Op.enter self region mem => trace_event_enter w self region mem
  | Op.leave self => trace_event_leave w self

/-- Performs the calls of a list in order, each after the previous one returned; a call
that does not return ends the run with its outcome. -/
def run (w : World) : List Op → Result World
  | [] => Result.ok w
  | op :: ops =>
    match step w op with
    | Result.ok w1 => run w1 ops
    | Result.abort w1 => Result.abort w1
    | Result.fault => Result.fault

/-- The state a result carries (`d` for a fault). -/
def Result.get {σ : Type} (d : σ) : Result σ → σ
  | Result.ok s => s
  | Result.abort s => s
  | Result.fault => d

/-- Whether the call returned. -/
def Result.returned {σ : Type} : Result σ → Bool
  | Result.ok _ => true
  | _ => false

/-- Whether the call reached `abort()`. -/
def Result.aborted {σ : Type} : Result σ → Bool
  | Result.abort _ => true
  | _ => false

/-- Modelled from the spec: a location as `trace_new_location_definition` (not under
`src/`) creates it: no event emitted yet, an empty region stack, an empty stack of suspended
queues, and the queue of region definitions at address `q`. -/
def new_location (q : Nat) : trace_location_def_t :=
  { events := 0
    rgn_stack := stack_create true
    rgn_defs := q
    rgn_defs_stack := stack_create true }

/-- Modelled from the spec: a region as its constructor (not under `src/`) builds it, with
the given ref and type; `ref_count` is "the number of threads currently inside it" and
`enter_count` counts the enters, both zero at creation; `q` is the address of its queue. -/
def new_region (ref : Nat) (type : trace_region_type_t) (q : Nat) : trace_region_def_t :=
  { ref := ref, type := type, requested_parallelism := 0, ref_count := 0, enter_count := 0,
    rgn_defs := q }

/-- Allocations that succeed, the new queue being at address `q`. -/
def mem_ok (q : Nat) : enter_mem := { defs_node := true, queue := q, rgn_node := true }

/-! ## otter.c

The callbacks of `otter.c` that record trace events.  The structs `thread_data_t`,
`parallel_data_t` and `task_data_t`, their constructors, the constructors of locations and
regions and the dispatchers `trace_event` and `trace_event_thread` are not among the
sources.  A callback gets as arguments the thread that runs it (`thr`, the slot
`get_thread_data()` returns), the slots the runtime passes (`parallel`, `task`) and the
addresses of the objects it allocates. -/

/-- The enum `unique_id_type_t`, in the order of the initialiser `{0,1,0,1}` of
`get_unique_id`, whose comment has tasks and parallel regions count from 1. -/
inductive unique_id_type_t where
  | id_timestamp
  | id_parallel
  | id_thread
  | id_task
deriving DecidableEq, Repr

/-- The enum `trace_ref_type_t`: the kinds of ref drawn from `get_unique_uint32_ref` and
`get_unique_uint64_ref`. -/
inductive trace_ref_type_t where
  | trace_region
  | trace_string
  | trace_location
  | trace_other
deriving DecidableEq, Repr

/-- The initialiser `{0,1,0,1}` of the static array of `get_unique_id`. -/
def id_start : unique_id_type_t → Nat
  | unique_id_type_t.id_timestamp => 0
  | unique_id_type_t.id_parallel => 1
  | unique_id_type_t.id_thread => 0
  | unique_id_type_t.id_task => 1

/-- The function `get_unique_id`: a fetch-and-add on the 64-bit counter of the kind; the
result is the value returned and the counters afterwards. -/
def get_unique_id (ids : unique_id_type_t → Nat) (id_type : unique_id_type_t) :
    Nat × (unique_id_type_t → Nat) :=
  (ids id_type, Function.update ids id_type ((ids id_type + 1) % SIZE_MOD))

/-- The function `get_unique_uint32_ref`: a fetch-and-add on the 32-bit counter of the kind
of ref. -/
def get_unique_uint32_ref (refs : trace_ref_type_t → Nat) (ref_type : trace_ref_type_t) :
    Nat × (trace_ref_type_t → Nat) :=
  (refs ref_type, Function.update refs ref_type ((refs ref_type + 1) % UINT_MOD))

/-- The function `get_unique_uint64_ref` of trace-core.c: a fetch-and-add on the 64-bit
counter of the kind of ref. -/
def get_unique_uint64_ref (refs : trace_ref_type_t → Nat) (ref_type : trace_ref_type_t) :
    Nat × (trace_ref_type_t → Nat) :=
  (refs ref_type, Function.update refs ref_type ((refs ref_type + 1) % SIZE_MOD))

/-- The initialiser `{0}` of the static arrays of `get_unique_uint64_ref` and
`get_unique_uint32_ref`: every counter of refs starts at 0. -/
def ref_start : trace_ref_type_t → Nat := fun _ => 0

/-- A run of calls of one of the functions that draw identifiers (`f` is `get_unique_id`,
`get_unique_uint64_ref` or `get_unique_uint32_ref`): the calls are made in the order of the
list of kinds, from the counters `c`; the result is the list of the values returned, in the
order of the calls, and the counters afterwards. -/
def draw {α : Type} (f : (α → Nat) → α → Nat × (α → Nat)) (c : α → Nat) :
    List α → List Nat × (α → Nat)
  | [] => ([], c)
  | k :: ks => ((f c k).1 :: (draw f (f c k).2 ks).1, (draw f (f c k).2 ks).2)

/-- The enum `ompt_scope_endpoint_t`. -/
inductive ompt_scope_endpoint_t where
  | ompt_scope_begin
  | ompt_scope_end
deriving DecidableEq, Repr

open ompt_scope_endpoint_t

/-- The flag `ompt_task_initial`. -/
def ompt_task_initial : Nat := 0x00000001

/-- The flag `ompt_task_implicit`. -/
def ompt_task_implicit : Nat := 0x00000002

/-- The flag `ompt_task_explicit`. -/
def ompt_task_explicit : Nat := 0x00000004

/-- The flag `ompt_task_target`. -/
def ompt_task_target : Nat := 0x00000008

/-- The value `ompt_thread_initial` of `ompt_thread_t`. -/
def ompt_thread_initial : Nat := 1

/-- The value `ompt_thread_worker` of `ompt_thread_t`. -/
def ompt_thread_worker : Nat := 2

/-- The struct `thread_data_t`, with the fields the callbacks use. -/
structure thread_data_t where
  id : Nat
  type : Nat
  location : Nat
  is_master_thread : Bool
  actual_parallelism : Nat
  index : Nat
  is_single : Bool
deriving DecidableEq, Repr

/-- The struct `parallel_data_t`, with the fields the callbacks use. -/
structure parallel_data_t where
  id : Nat
  region : Nat
  actual_parallelism : Nat
  flags : Nat
deriving DecidableEq, Repr

/-- The struct `task_data_t`, with the fields the callbacks use. -/
structure task_data_t where
  id : Nat
  type : Nat
  flags : Nat
deriving DecidableEq, Repr

/-- The state of the tool: the recorder's memory, the counters of `get_unique_id` and of
`get_unique_uint32_ref`, and what the slots `thread->ptr`, `parallel->ptr` and `task->ptr`
of the runtime hold (`none` for `NULL`). -/
structure Tool where
  w : World
  ids : unique_id_type_t → Nat
  refs : trace_ref_type_t → Nat
  threads : Nat → Option thread_data_t
  parallels : Nat → Option parallel_data_t
  tasks : Nat → Option task_data_t

/-- Modelled from the spec: `new_thread_data` (otter-structs.c, not under `src/`) gives the
thread a fresh id and its kind; the thread is not a master and has no location yet. -/
def new_thread_data (ids : unique_id_type_t → Nat) (thread_type : Nat) :
    thread_data_t × (unique_id_type_t → Nat) :=
  ({ id := (get_unique_id ids unique_id_type_t.id_thread).1
     type := thread_type
     location := 0
     is_master_thread := false
     actual_parallelism := 0
     index := 0
     is_single := false },
   (get_unique_id ids unique_id_type_t.id_thread).2)

/-- Modelled from the spec: `new_parallel_data` (otter-structs.c, not under `src/`) gives
the parallel region a fresh id; its trace region is set by the caller. -/
def new_parallel_data (ids : unique_id_type_t → Nat) (flags : Nat) :
    parallel_data_t × (unique_id_type_t → Nat) :=
  ({ id := (get_unique_id ids unique_id_type_t.id_parallel).1
     region := 0
     actual_parallelism := 0
     flags := flags },
   (get_unique_id ids unique_id_type_t.id_parallel).2)

/-- Modelled from the spec: `new_task_data(id, flags)` (otter-structs.c, not under
`src/`) records the id, the flags and the type of the task, one of initial, implicit,
explicit and target: the low four bits of the flags. -/
def new_task_data (id flags : Nat) : task_data_t :=
  { id := id, type := flags % 16, flags := flags }

/-- Modelled from the spec: `trace_new_location_definition` (not under `src/`) creates a
location with no event, empty stacks and a new queue of region definitions; `loc` and `q`
are the addresses of the location and of the queue. -/
def trace_new_location_definition (w : World) (loc q : Nat) : World :=
  (queue_create w q).set_loc loc (new_location q)

/-- Modelled from the spec: `trace_new_parallel_region` (not under `src/`) builds a parallel
region "with a fresh unique ref" and "its private mutex and definitions queue", nobody
inside; `rgn` and `q` are the addresses of the region and of its queue. -/
def trace_new_parallel_region (w : World) (refs : trace_ref_type_t → Nat)
    (requested_parallelism rgn q : Nat) : World × (trace_ref_type_t → Nat) :=
  ((queue_create w q).set_region rgn
      (some { new_region (get_unique_uint32_ref refs trace_ref_type_t.trace_region).1
                trace_region_parallel q with
              requested_parallelism := requested_parallelism }),
   (get_unique_uint32_ref refs trace_ref_type_t.trace_region).2)

/-- Modelled from the spec: `trace_event_thread(location, endpoint)` (not under `src/`)
records the thread-begin event at a begin endpoint and the thread-end event at an end
endpoint. -/
def trace_event_thread (w : World) (self : Nat) (endpoint : ompt_scope_endpoint_t) : World :=
  match endpoint with
  | ompt_scope_begin => trace_event_thread_begin w self
  | ompt_scope_end => trace_event_thread_end w self

/-- Modelled from the spec: `trace_event(location, region, endpoint)` (not under `src/`)
records an enter of `region` at a begin endpoint (the Enter algorithm,
`trace_event_enter`) and a leave at an end endpoint (the Leave algorithm,
`trace_event_leave`, which takes no region). -/
def trace_event (w : World) (self region : Nat) (endpoint : ompt_scope_endpoint_t)
    (mem : enter_mem) : Result World :=
  match endpoint with
  | ompt_scope_begin => trace_event_enter w self region mem
  | ompt_scope_end => trace_event_leave w self

/-- Puts the world of a result of the recorder back into the tool. -/
def Tool.with_world (t : Tool) : Result World → Result Tool
  | Result.ok w => Result.ok { t with w := w }
  | Result.abort w => Result.abort { t with w := w }
  | Result.fault => Result.fault

/-- The callback `on_ompt_callback_thread_begin(thread_type, thread)`, run by the thread
`thr`; `loc` and `q` are the addresses of the new location and of its queue. -/
def on_ompt_callback_thread_begin (t : Tool) (thr thread_type loc q : Nat) : Result Tool :=
  -- thread_data = new_thread_data(thread_type); thread->ptr = thread_data
  let nd := new_thread_data t.ids thread_type
  -- thread_data->location = trace_new_location_definition(...)
  let w1 := trace_new_location_definition t.w loc q
  let thread_data : thread_data_t := { nd.1 with location := loc }
  -- trace_event_thread(thread_data->location, ompt_scope_begin)
  let w2 := trace_event_thread w1 loc ompt_scope_begin
  Result.ok { t with
    w := w2
    ids := nd.2
    threads := Function.update t.threads thr (some thread_data) }

/-- The callback `on_ompt_callback_parallel_begin`, run by the thread `thr`; `parallel` is
the slot of the runtime, `rgn` and `q` the addresses of the new region and of its queue. -/
def on_ompt_callback_parallel_begin (t : Tool) (thr parallel requested_parallelism flags : Nat)
    (rgn q : Nat) (mem : enter_mem) : Result Tool :=
  match t.threads thr with
  | none => Result.fault
  | some thread_data =>
    -- thread_data->is_master_thread = true
    let td : thread_data_t := { thread_data with is_master_thread := true }
    -- parallel_data = new_parallel_data(flags); parallel->ptr = parallel_data
    let np := new_parallel_data t.ids flags
    -- parallel_data->region = trace_new_parallel_region(...)
    let nr := trace_new_parallel_region t.w t.refs requested_parallelism rgn q
    let parallel_data : parallel_data_t := { np.1 with region := rgn }
    let t1 : Tool := { t with
      w := nr.1
      ids := np.2
      refs := nr.2
      threads := Function.update t.threads thr (some td)
      parallels := Function.update t.parallels parallel (some parallel_data) }
    -- trace_event(thread_data->location, parallel_data->region, ompt_scope_begin)
    t1.with_world (trace_event t1.w td.location parallel_data.region ompt_scope_begin mem)

/-- The callback `on_ompt_callback_parallel_end`, run by the thread `thr`; `parallel` is
`none` for a `NULL` argument and the slot of the runtime otherwise. -/
def on_ompt_callback_parallel_end (t : Tool) (thr : Nat) (parallel : Option Nat) :
    Result Tool :=
  match t.threads thr with
  | none => Result.fault
  | some thread_data =>
    -- if ((parallel == NULL) || (parallel->ptr == NULL)) LOG_ERROR(...)
    match parallel.bind t.parallels with
    | none => Result.ok t
    | some _ =>
      -- trace_event(thread_data->location, NULL, ompt_scope_end)
      match trace_event t.w thread_data.location 0 ompt_scope_end (mem_ok 0) with
      | Result.ok w1 =>
        -- thread_data->is_master_thread = false
        Result.ok { t with
          w := w1
          threads := Function.update t.threads thr
            (some { thread_data with is_master_thread := false }) }
      | Result.abort w1 => Result.abort { t with w := w1 }
      | Result.fault => Result.fault

/-- The callback `on_ompt_callback_implicit_task`, run by the thread `thr`; `parallel` and
`task` are the slots of the runtime. -/
def on_ompt_callback_implicit_task (t : Tool) (thr : Nat) (endpoint : ompt_scope_endpoint_t)
    (parallel task actual_parallelism index flags : Nat) (mem : enter_mem) : Result Tool :=
  match t.threads thr with
  | none => Result.fault
  | some thread_data =>
    match endpoint with
    | ompt_scope_begin =>
      -- if (task->ptr != NULL) task_data = task->ptr
      -- else { task_data = new_task_data(get_unique_task_id(), flags); task->ptr = task_data }
      let task_data : task_data_t :=
        match t.tasks task with
        | some d => d
        | none => new_task_data (get_unique_id t.ids unique_id_type_t.id_task).1 flags
      let t1 : Tool :=
        match t.tasks task with
        | some _ => t
        | none => { t with
            ids := (get_unique_id t.ids unique_id_type_t.id_task).2
            tasks := Function.update t.tasks task (some task_data) }
      if task_data.type = ompt_task_initial then Result.ok t1
      else if task_data.type = ompt_task_implicit then
        -- thread_data->actual_parallelism = actual_parallelism; thread_data->index = index
        let td : thread_data_t :=
          { thread_data with actual_parallelism := actual_parallelism, index := index }
        let t2 : Tool := { t1 with threads := Function.update t1.threads thr (some td) }
        -- parallel_data = (parallel_data_t*) parallel->ptr
        match t2.parallels parallel with
        | none => Result.fault
        | some parallel_data =>
          if td.is_master_thread then
            -- parallel_data->actual_parallelism = actual_parallelism
            Result.ok { t2 with
              parallels := Function.update t2.parallels parallel
                (some { parallel_data with actual_parallelism := actual_parallelism }) }
          else
            -- trace_event(thread_data->location, parallel_data->region, ompt_scope_begin)
            t2.with_world
              (trace_event t2.w td.location parallel_data.region ompt_scope_begin mem)
      else Result.abort t1
    | ompt_scope_end =>
      -- if (flags & ompt_task_implicit)
      if flags &&& ompt_task_implicit ≠ 0 then
        -- thread_data->actual_parallelism = thread_data->index = 0
        let td : thread_data_t := { thread_data with actual_parallelism := 0, index := 0 }
        let t1 : Tool := { t with threads := Function.update t.threads thr (some td) }
        -- if (!thread_data->is_master_thread) trace_event(location, NULL, ompt_scope_end)
        if td.is_master_thread then Result.ok t1
        else t1.with_world (trace_event t1.w td.location 0 ompt_scope_end mem)
      else Result.ok t

/-- The value `ompt_work_loop` of `ompt_work_t` (omp-tools.h of OpenMP 5.0). -/
def ompt_work_loop : Nat := 1

/-- The value `ompt_work_sections`. -/
def ompt_work_sections : Nat := 2

/-- The value `ompt_work_single_executor`. -/
def ompt_work_single_executor : Nat := 3

/-- The value `ompt_work_single_other`. -/
def ompt_work_single_other : Nat := 4

/-- The value `ompt_work_workshare`. -/
def ompt_work_workshare : Nat := 5

/-- The value `ompt_work_distribute`. -/
def ompt_work_distribute : Nat := 6

/-- The value `ompt_work_taskloop`. -/
def ompt_work_taskloop : Nat := 7

/-- Modelled from the spec: `trace_new_workshare_region(location, wstype, count)` (not under
`src/`), "constructors build a region with a fresh unique ref and the kind-specific
payload", for a workshare region the type of the construct and the count.  The address
`rgn` of the new region is an argument (`0` when the allocation fails). -/
def trace_new_workshare_region (w : World) (refs : trace_ref_type_t → Nat)
    (wstype count rgn : Nat) : World × (trace_ref_type_t → Nat) :=
  (if rgn = 0 then w
   else w.set_region rgn
     (some { new_region (get_unique_uint32_ref refs trace_ref_type_t.trace_region).1
               trace_region_workshare 0 with
             attr := { wshare_type := wstype, wshare_count := count } }),
   (get_unique_uint32_ref refs trace_ref_type_t.trace_region).2)

/-- Modelled from the spec: `trace_new_sync_region(location, kind, encountering_task_id)`
(not under `src/`), "constructors build a region with a fresh unique ref and the
kind-specific payload", for a synchronise region the kind of synchronisation.  The address
`rgn` of the new region is an argument (`0` when the allocation fails). -/
def trace_new_sync_region (w : World) (refs : trace_ref_type_t → Nat)
    (kind encountering_task_id rgn : Nat) : World × (trace_ref_type_t → Nat) :=
  (if rgn = 0 then w
   else w.set_region rgn
     (some { new_region (get_unique_uint32_ref refs trace_ref_type_t.trace_region).1
               trace_region_synchronise 0 with
             attr := { sync_type := kind, encountering_task_id := encountering_task_id } }),
   (get_unique_uint32_ref refs trace_ref_type_t.trace_region).2)

/-- The value `ompt_sync_region_barrier` of `ompt_sync_region_t` (omp-tools.h). -/
def ompt_sync_region_barrier : Nat := 1

/-- The value `ompt_sync_region_barrier_implicit`. -/
def ompt_sync_region_barrier_implicit : Nat := 2

/-- The value `ompt_sync_region_barrier_explicit`. -/
def ompt_sync_region_barrier_explicit : Nat := 3

/-- The value `ompt_sync_region_barrier_implementation`. -/
def ompt_sync_region_barrier_implementation : Nat := 4

/-- The value `ompt_sync_region_taskwait`. -/
def ompt_sync_region_taskwait : Nat := 5

/-- The value `ompt_sync_region_taskgroup`. -/
def ompt_sync_region_taskgroup : Nat := 6

/-- The value `ompt_sync_region_reduction`. -/
def ompt_sync_region_reduction : Nat := 7

/-- The callback `on_ompt_callback_work` of otter.c, run by the thread `thr`; `rgn` is the
address of the region created at a begin endpoint.  The slot `task` is read and not used. -/
def on_ompt_callback_work (t : Tool) (thr wstype : Nat) (endpoint : ompt_scope_endpoint_t)
    (count rgn : Nat) (mem : enter_mem) : Result Tool :=
  match t.threads thr with
  | none => Result.fault
  | some thread_data =>
    -- if (wstype == ompt_work_single_executor && endpoint == ompt_scope_begin)
    --     thread_data->is_single = true
    let t1 : Tool :=
      if wstype = ompt_work_single_executor ∧ endpoint = ompt_scope_begin then
        { t with
          threads := Function.update t.threads thr
            (some { thread_data with is_single := true }) }
      else t
    let recorded : Result Tool :=
      if wstype = ompt_work_loop ∨ wstype = ompt_work_sections
          ∨ wstype = ompt_work_single_executor ∨ wstype = ompt_work_single_other
          ∨ wstype = ompt_work_taskloop then
        match endpoint with
        | ompt_scope_begin =>
          -- trace_event(thread_data->location, trace_new_workshare_region(...), endpoint)
          let nr := trace_new_workshare_region t1.w t1.refs wstype count rgn
          ({ t1 with w := nr.1, refs := nr.2 } : Tool).with_world
            (trace_event nr.1 thread_data.location rgn ompt_scope_begin mem)
        | ompt_scope_end =>
          -- trace_event(thread_data->location, NULL, endpoint)
          t1.with_world (trace_event t1.w thread_data.location 0 ompt_scope_end mem)
      else Result.ok t1
    match recorded with
    | Result.ok t2 =>
      -- if (wstype == ompt_work_single_executor && endpoint == ompt_scope_end)
      --     thread_data->is_single = false
      if wstype = ompt_work_single_executor ∧ endpoint = ompt_scope_end then
        Result.ok { t2 with
          threads := Function.update t2.threads thr
            (some { thread_data with is_single := false }) }
      else Result.ok t2
    | Result.abort t2 => Result.abort t2
    | Result.fault => Result.fault

/-- The callback `on_ompt_callback_sync_region` of otter.c, run by the thread `thr`; `task`
is the slot of the runtime, `rgn` the address of the region created at a begin endpoint.
The arguments of `LOG_DEBUG` are not evaluated. -/
def on_ompt_callback_sync_region (t : Tool) (thr kind : Nat) (endpoint : ompt_scope_endpoint_t)
    (task rgn : Nat) (mem : enter_mem) : Result Tool :=
  match t.threads thr with
  | none => Result.fault
  | some thread_data =>
    match endpoint with
    | ompt_scope_begin =>
      -- trace_event(thread_data->location,
      --     trace_new_sync_region(thread_data->location, kind, task_data->id), endpoint)
      match t.tasks task with
      | none => Result.fault
      | some task_data =>
        let nr := trace_new_sync_region t.w t.refs kind task_data.id rgn
        ({ t with w := nr.1, refs := nr.2 } : Tool).with_world
          (trace_event nr.1 thread_data.location rgn ompt_scope_begin mem)
    | ompt_scope_end =>
      -- trace_event(thread_data->location, NULL, endpoint)
      t.with_world (trace_event t.w thread_data.location 0 ompt_scope_end mem)

/-- One callback of the runtime, with the thread that runs it. -/
inductive Callback where
  | thread_begin (thr thread_type loc q : Nat)
  | parallel_begin (thr parallel requested_parallelism flags rgn q : Nat) (mem : enter_mem)
  | parallel_end (thr : Nat) (parallel : Option Nat)
  | implicit_task (thr : Nat) (endpoint : ompt_scope_endpoint_t)
      (parallel task actual_parallelism index flags : Nat) (mem : enter_mem)
deriving DecidableEq, Repr

/-- Runs one callback. -/
def dispatch (t : Tool) : Callback → Result Tool
  | Callback.thread_begin thr ty loc q => on_ompt_callback_thread_begin t thr ty loc q
  | Callback.parallel_begin thr par req fl rgn q mem =>
    on_ompt_callback_parallel_begin t thr par req fl rgn q mem
  | Callback.parallel_end thr par => on_ompt_callback_parallel_end t thr par
  | Callback.implicit_task thr ep par task ap idx fl mem =>
    on_ompt_callback_implicit_task t thr ep par task ap idx fl mem

/-- Runs the callbacks of a list in order; a callback that does not return ends the run
with its outcome. -/
def play (t : Tool) : List Callback → Result Tool
  | [] => Result.ok t
  | c :: cs =>
    match dispatch t c with
    | Result.ok t1 => play t1 cs
    | Result.abort t1 => Result.abort t1
    | Result.fault => Result.fault

/-- The tool before the first callback: no thread, no region, no location, no event. -/
def tool_start : Tool :=
  { w :=
      { locs := fun _ =>
          { events := 0, rgn_stack := none, rgn_defs := 0, rgn_defs_stack := none }
        regions := fun _ => none
        queues := fun _ => none
        Defs := []
        log := [] }
    ids := id_start
    refs := fun _ => 0
    threads := fun _ => none
    parallels := fun _ => none
    tasks := fun _ => none }

/-! ## The events of one location -/

/-- Whether an effect is an Enter or a Leave record written by the location `self`. -/
def Eff.is_endpoint (self : Nat) : Eff → Bool
  | Eff.Enter l _ => decide (l = self)
  | Eff.Leave l _ => decide (l = self)
  | _ => false

/-- The Enter and Leave records the location `self` has written, oldest first. -/
def World.endpoints (w : World) (self : Nat) : List Eff :=
  w.log.filter (Eff.is_endpoint self)

/-- The `ref` of the region at address `p` (`0` when there is none). -/
def World.ref_of (w : World) (p : Nat) : Nat :=
  ((w.region_at p).map (fun r => r.ref)).getD 0

/-- The regions the location `self` has entered and not yet left, most recent first, after
the calls `ops`, when `st` were those regions before: an enter on `self` adds its region,
a leave on `self` removes the most recent one. -/
def opens (self : Nat) : List Nat → List Op → List Nat
  | st, [] => st
  | st, Op.enter l p _ :: ops =>
    if l = self then opens self (p :: st) ops else opens self st ops
  | st, Op.leave l :: ops =>
    if l = self then opens self st.tail ops else opens self st ops

/-- The Enter and Leave records the calls `ops` are to produce on the location `self`: an
enter of the region at `p` gives an Enter with the ref of `p`, a leave gives a Leave with
the ref of the most recent region entered and not yet left. -/
def nested_trace (ref : Nat → Nat) (self : Nat) : List Nat → List Op → List Eff
  | _, [] => []
  | st, Op.enter l p _ :: ops =>
    if l = self then Eff.Enter self (ref p) :: nested_trace ref self (p :: st) ops
    else nested_trace ref self st ops
  | st, Op.leave l :: ops =>
    if l = self then Eff.Leave self (ref (st.headD 0)) :: nested_trace ref self st.tail ops
    else nested_trace ref self st ops

/-- Checks that a sequence of Enter and Leave records is correctly nested, starting with
the refs `st` open (most recent first): every Leave carries the ref of the most recent
Enter not yet matched.  The result is the list of refs left open. -/
def well_nested : List Nat → List Eff → Option (List Nat)
  | st, [] => some st
  | st, e :: es =>
    match e with
    | Eff.Enter _ r => well_nested (r :: st) es
    | Eff.Leave _ r =>
      match st with
      | [] => none
      | r0 :: st1 => if r = r0 then well_nested st1 es else none
    | _ => well_nested st es

/-- Whether the call, when it is an enter on the location `self`, gets the node it pushes on
the region stack (the `malloc` in `stack_push` succeeds). -/
def Op.push_ok (self : Nat) : Op → Bool
  | Op.enter l _ m => if l = self then m.rgn_node else true
  | Op.leave _ => true

/-- Whether the call, when it is an enter on the location `self`, gets the node it pushes on
`rgn_defs_stack` (the `malloc` in `stack_push` succeeds). -/
def Op.defs_ok (self : Nat) : Op → Bool
  | Op.enter l _ m => if l = self then m.defs_node else true
  | Op.leave _ => true

/-- The type of the region at address `p` (`trace_region_unhandled` when there is none). -/
def World.type_of (w : World) (p : Nat) : trace_region_type_t :=
  ((w.region_at p).map (fun r => r.type)).getD trace_region_unhandled

/-- The types of the live regions are those given by `ty`. -/
def types_agree (w : World) (ty : Nat → trace_region_type_t) : Prop :=
  ∀ p r, w.region_at p = some r → r.type = ty p

/-- The number of parallel regions among the regions at the addresses `ps`. -/
def par_count (ty : Nat → trace_region_type_t) (ps : List Nat) : Nat :=
  ps.countP (fun p => decide (ty p = trace_region_parallel))

/-- The number of nodes of a stack (`0` for the `NULL` stack). -/
def depth (s : Option stack_t) : Nat :=
  match s with
  | none => 0
  | some st => st.head.length

/-! ## Enters and leaves of one parallel region -/

/-- Whether the call, when it is an enter, is an enter of the region at address `p`. -/
def Op.on_region (p : Nat) : Op → Bool
  | Op.enter _ q _ => decide (q = p)
  | Op.leave _ => true

/-- Whether the call, when it is an enter, gets the node it pushes on the region stack. -/
def Op.node_ok : Op → Bool
  | Op.enter _ _ m => m.rgn_node
  | Op.leave _ => true

/-- The number of enters among the calls. -/
def enters : List Op → Nat
  | [] => 0
  | Op.enter _ _ _ :: ops => enters ops + 1
  | Op.leave _ :: ops => enters ops

/-- The number of leaves among the calls. -/
def leaves : List Op → Nat
  | [] => 0
  | Op.enter _ _ _ :: ops => leaves ops
  | Op.leave _ :: ops => leaves ops + 1

/-- Whether each leave matches an earlier enter by the same location that no leave has
matched yet; `inside` lists the locations of the enters not yet matched. -/
def matched : List Nat → List Op → Bool
  | _, [] => true
  | inside, Op.enter l _ _ :: ops => matched (l :: inside) ops
  | inside, Op.leave l :: ops => decide (l ∈ inside) && matched (inside.erase l) ops

/-- Whether an effect is an Enter record with the ref `ref`. -/
def Eff.is_enter_of (ref : Nat) : Eff → Bool
  | Eff.Enter _ r => decide (r = ref)
  | _ => false

/-- Whether an effect is a Leave record with the ref `ref`. -/
def Eff.is_leave_of (ref : Nat) : Eff → Bool
  | Eff.Leave _ r => decide (r = ref)
  | _ => false

/-- The locations whose list `inside` counts `n` unmatched enters of the region at `p`
have `n` nodes holding `p` on top of their region stack. -/
def stacks_hold (w : World) (p : Nat) (inside : List Nat) : Prop :=
  ∀ l st, (w.locs l).rgn_stack = some st →
    ∃ base, st.head = List.replicate (inside.count l) p ++ base

/-- Every location has a region stack whose top `inside.count l` nodes hold `p`, whose
`size` is its number of nodes, and which has room for `n` more nodes. -/
def stacks_wf (w : World) (p : Nat) (inside : List Nat) (n : Nat) : Prop :=
  ∀ l, ∃ st base, (w.locs l).rgn_stack = some st
    ∧ st.head = List.replicate (inside.count l) p ++ base
    ∧ st.size = st.head.length ∧ st.head.length + n < SIZE_MOD

/-- The value `ref_count--` leaves in an `unsigned int`. -/
def dec_uint (n : Nat) : Nat := (n + UINT_MOD - 1) % UINT_MOD

/-- The refs of the live regions are those given by `ref`. -/
def refs_agree (w : World) (ref : Nat → Nat) : Prop :=
  ∀ p r, w.region_at p = some r → r.ref = ref p

/-- A world for examples: every location is new (its queue at address 100), the regions at
addresses 1 and 3 are new parallel regions with refs 10 and 12, the region at address 2 is a
new workshare region with ref 11, and nothing has happened. -/
def demo_world : World :=
  { locs := fun _ => new_location 100
    regions := fun p =>
      if p = 1 then some (new_region 10 trace_region_parallel 101)
      else if p = 2 then some (new_region 11 trace_region_workshare 0)
      else if p = 3 then some (new_region 12 trace_region_parallel 103)
      else none
    queues := fun q => if q = 100 ∨ q = 101 ∨ q = 103 then some [] else none
    Defs := []
    log := [] }

/-- Location 0 enters the parallel region at 1, then the workshare region at 2, and leaves
both. -/
def demo_nested : List Op :=
  [Op.enter 0 1 (mem_ok 200), Op.enter 0 2 (mem_ok 0), Op.leave 0, Op.leave 0]

/-! ## Scenarios of callbacks -/

/-- Whether an effect is an Enter or a Leave record (of any location). -/
def Eff.is_enter_leave : Eff → Bool
  | Eff.Enter _ _ => true
  | Eff.Leave _ _ => true
  | _ => false

/-- The region an effect destroys, with its contents at that moment. -/
def Eff.destroyed_region : Eff → Option (Nat × trace_region_def_t)
  | Eff.destroy p r => some (p, r)
  | _ => none

/-- The regions destroyed, with their contents when `trace_destroy_parallel_region` was
called, oldest first. -/
def destroyed (es : List Eff) : List (Nat × trace_region_def_t) :=
  es.filterMap Eff.destroyed_region

/-- The log after the callbacks `cs`, starting from the tool `t`. -/
def log_after (t : Tool) (cs : List Callback) : List Eff :=
  (Result.get t (play t cs)).w.log

/-- For each callback of `cs` in order, the Enter and Leave records it wrote. -/
def enter_leave_by (t : Tool) : List Callback → List (List Eff)
  | [] => []
  | c :: cs =>
    (((Result.get t (dispatch t c)).w.log.drop t.w.log.length).filter Eff.is_enter_leave)
      :: (match dispatch t c with
          | Result.ok t1 => enter_leave_by t1 cs
          | _ => [])

/-- The initial thread (thread 0) begins; its location is at address 1. -/
def cb_initial_thread : Callback := Callback.thread_begin 0 ompt_thread_initial 1 101

/-- The worker thread (thread 1) begins; its location is at address 2. -/
def cb_worker_thread : Callback := Callback.thread_begin 1 ompt_thread_worker 2 102

/-- The initial thread begins the parallel region of slot 1 with two threads requested; the
region is at address 5. -/
def cb_parallel_begin : Callback := Callback.parallel_begin 0 1 2 0 5 105 (mem_ok 201)

/-- The master's implicit task of the region of slot 1 begins (index 0). -/
def cb_master_task_begin : Callback :=
  Callback.implicit_task 0 ompt_scope_begin 1 10 2 0 ompt_task_implicit (mem_ok 0)

/-- The worker's implicit task of the region of slot 1 begins (index 1). -/
def cb_worker_task_begin : Callback :=
  Callback.implicit_task 1 ompt_scope_begin 1 11 2 1 ompt_task_implicit (mem_ok 202)

/-- The master's implicit task of the region of slot 1 ends. -/
def cb_master_task_end : Callback :=
  Callback.implicit_task 0 ompt_scope_end 1 10 0 0 ompt_task_implicit (mem_ok 0)

/-- The worker's implicit task of the region of slot 1 ends. -/
def cb_worker_task_end : Callback :=
  Callback.implicit_task 1 ompt_scope_end 1 11 0 1 ompt_task_implicit (mem_ok 0)

/-- The parallel region of slot 1 ends on the initial thread. -/
def cb_parallel_end : Callback := Callback.parallel_end 0 (some 1)

/-- One parallel region run by a master and one worker; the master's implicit task ends
first. -/
def one_region_master_first : List Callback :=
  [cb_initial_thread, cb_parallel_begin, cb_master_task_begin, cb_worker_thread,
   cb_worker_task_begin, cb_master_task_end, cb_worker_task_end, cb_parallel_end]

/-- One parallel region run by a master and one worker; the worker's implicit task ends
first. -/
def one_region_worker_first : List Callback :=
  [cb_initial_thread, cb_parallel_begin, cb_master_task_begin, cb_worker_thread,
   cb_worker_task_begin, cb_worker_task_end, cb_master_task_end, cb_parallel_end]

/-- The region of `one_region_master_first` when it is destroyed. -/
def one_region_final : trace_region_def_t :=
  { ref := 0, type := trace_region_parallel, requested_parallelism := 2, ref_count := 0,
    enter_count := 2, rgn_defs := 105 }

/-- The inner parallel region (slot 2, address 6) begins on the initial thread, inside the
region of slot 1. -/
def cb_inner_parallel_begin : Callback := Callback.parallel_begin 0 2 2 0 6 106 (mem_ok 202)

/-- The initial thread's implicit task of the inner region begins. -/
def cb_inner_task_begin : Callback :=
  Callback.implicit_task 0 ompt_scope_begin 2 12 1 0 ompt_task_implicit (mem_ok 0)

/-- The initial thread's implicit task of the inner region ends. -/
def cb_inner_task_end : Callback :=
  Callback.implicit_task 0 ompt_scope_end 2 12 0 0 ompt_task_implicit (mem_ok 0)

/-- The inner parallel region ends on the initial thread. -/
def cb_inner_parallel_end : Callback := Callback.parallel_end 0 (some 2)

/-- A thread that is the master of an outer parallel region and, nested in it, of an inner
one: the callbacks up to and including the outer implicit-task-end. -/
def nested_masters_start : List Callback :=
  [cb_initial_thread, cb_parallel_begin, cb_master_task_begin, cb_inner_parallel_begin,
   cb_inner_task_begin, cb_inner_task_end, cb_inner_parallel_end, cb_master_task_end]

/-- The callbacks of `nested_masters_start` followed by the outer parallel-end. -/
def nested_masters : List Callback := nested_masters_start ++ [cb_parallel_end]

/-- The tool of otter.c when the initial thread (slot 0, location at address 1) runs its
implicit task (slot 10) inside the parallel region of slot 1 (at address 5). -/
def in_region_tool : Tool :=
  Result.get tool_start
    (play tool_start [cb_initial_thread, cb_parallel_begin, cb_master_task_begin])

/-- String refs for the scenarios: the label of a kind has the ref of the kind. -/
def demo_refs : attr_refs_t :=
  { attr_label_ref := fun _ => 0
    WORK_TYPE_TO_STR_REF := fun k => k
    SYNC_TYPE_TO_STR_REF := fun k => k
    TASK_TYPE_TO_STR_REF := fun k => k
    TASK_STATUS_TO_STR_REF := fun k => k }

/-- A tool in which the region on top of the region stack is not the one parallel-end is
to leave: after the initial thread began the parallel region of slot 1 (at address 5, ref 0)
and its implicit task, its location entered the workshare region at address 7 (ref 9) and
has not left it. -/
def mismatch_tool : Tool :=
  let t := Result.get tool_start
    (play tool_start [cb_initial_thread, cb_parallel_begin, cb_master_task_begin])
  let w1 := t.w.set_region 7 (some (new_region 9 trace_region_workshare 0))
  { t with w := Result.get w1 (trace_event_enter w1 1 7 (mem_ok 0)) }

/-- The data of thread 0 in `mismatch_tool`. -/
def mismatch_thread : thread_data_t :=
  { id := 0, type := ompt_thread_initial, location := 1, is_master_thread := true,
    actual_parallelism := 2, index := 0, is_single := false }

/-- The data of the parallel region of slot 1 in `mismatch_tool`. -/
def mismatch_parallel : parallel_data_t :=
  { id := 1, region := 5, actual_parallelism := 2, flags := 0 }

/-- Location 0 enters the parallel region at 1, then the parallel region at 3, and leaves
both. -/
def demo_nested_parallel : List Op :=
  [Op.enter 0 1 (mem_ok 200), Op.enter 0 3 (mem_ok 201), Op.leave 0, Op.leave 0]

/-- Locations 0 and 1 enter the parallel region at 1 and leave it, location 0 first. -/
def demo_team : List Op :=
  [Op.enter 0 1 (mem_ok 200), Op.enter 1 1 (mem_ok 201), Op.leave 0, Op.leave 1]

/-! ## task-graph.h -/

/-- The macro `FLAG_NODE_TYPE_END(f)`, defined as `(f & 0x1000)`. -/
def FLAG_NODE_TYPE_END (f : Nat) : Nat := f &&& 0x1000

/-- The type `task_graph_node_type_t`: a C enum, whose enumerators are integer constants.
By the rules of C the first enumerator is 0, an enumerator declared with `= e` has the value
of `e`, and every other enumerator is one more than the enumerator before it in the
declaration. -/
abbrev task_graph_node_type_t := Nat

/-- The enumerator `node_type_unknown`, the first of the enum. -/
def node_type_unknown : task_graph_node_type_t := 0

/-- The enumerator `node_task_initial`, declared after `node_type_unknown`. -/
def node_task_initial : task_graph_node_type_t := node_type_unknown + 1

/-- The enumerator `node_task_implicit`, declared after `node_task_initial`. -/
def node_task_implicit : task_graph_node_type_t := node_task_initial + 1

/-- The enumerator `node_task_explicit`, declared after `node_task_implicit`. -/
def node_task_explicit : task_graph_node_type_t := node_task_implicit + 1

/-- The enumerator `node_task_target`, declared after `node_task_explicit`. -/
def node_task_target : task_graph_node_type_t := node_task_explicit + 1

/-- The enumerator `node_scope_parallel_begin`, declared after `node_task_target`. -/
def node_scope_parallel_begin : task_graph_node_type_t := node_task_target + 1

/-- The enumerator `node_scope_sections_begin`, declared after `node_scope_parallel_begin`. -/
def node_scope_sections_begin : task_graph_node_type_t := node_scope_parallel_begin + 1

/-- The enumerator `node_scope_single_begin`, declared after `node_scope_sections_begin`. -/
def node_scope_single_begin : task_graph_node_type_t := node_scope_sections_begin + 1

/-- The enumerator `node_scope_loop_begin`, declared after `node_scope_single_begin`. -/
def node_scope_loop_begin : task_graph_node_type_t := node_scope_single_begin + 1

/-- The enumerator `node_scope_taskloop_begin`, declared after `node_scope_loop_begin`. -/
def node_scope_taskloop_begin : task_graph_node_type_t := node_scope_loop_begin + 1

/-- The enumerator `node_scope_sync_taskgroup_begin`, declared after `node_scope_taskloop_begin`. -/
def node_scope_sync_taskgroup_begin : task_graph_node_type_t := node_scope_taskloop_begin + 1

/-- The enumerator `node_scope_parallel_end = FLAG_NODE_TYPE_END(node_scope_parallel_begin)`. -/
def node_scope_parallel_end : task_graph_node_type_t := FLAG_NODE_TYPE_END node_scope_parallel_begin

/-- The enumerator `node_scope_sections_end`, declared after `node_scope_parallel_end`. -/
def node_scope_sections_end : task_graph_node_type_t := node_scope_parallel_end + 1

/-- The enumerator `node_scope_single_end`, declared after `node_scope_sections_end`. -/
def node_scope_single_end : task_graph_node_type_t := node_scope_sections_end + 1

/-- The enumerator `node_scope_loop_end`, declared after `node_scope_single_end`. -/
def node_scope_loop_end : task_graph_node_type_t := node_scope_single_end + 1

/-- The enumerator `node_scope_taskloop_end`, declared after `node_scope_loop_end`. -/
def node_scope_taskloop_end : task_graph_node_type_t := node_scope_loop_end + 1

/-- The enumerator `node_scope_sync_taskgroup_end`, declared after `node_scope_taskloop_end`. -/
def node_scope_sync_taskgroup_end : task_graph_node_type_t := node_scope_taskloop_end + 1

/-- The enumerator `node_sync_barrier = node_scope_sync_taskgroup_begin + 1`. -/
def node_sync_barrier : task_graph_node_type_t := node_scope_sync_taskgroup_begin + 1

/-- The enumerator `node_sync_barrier_implicit`, declared after `node_sync_barrier`. -/
def node_sync_barrier_implicit : task_graph_node_type_t := node_sync_barrier + 1

/-- The enumerator `node_sync_barrier_explicit`, declared after `node_sync_barrier_implicit`. -/
def node_sync_barrier_explicit : task_graph_node_type_t := node_sync_barrier_implicit + 1

/-- The enumerator `node_sync_barrier_implementation`, declared after `node_sync_barrier_explicit`. -/
def node_sync_barrier_implementation : task_graph_node_type_t := node_sync_barrier_explicit + 1

/-- The enumerator `node_sync_taskwait`, declared after `node_sync_barrier_implementation`. -/
def node_sync_taskwait : task_graph_node_type_t := node_sync_barrier_implementation + 1

/-- The enumerator `node_sync_taskgroup`, declared after `node_sync_taskwait`. -/
def node_sync_taskgroup : task_graph_node_type_t := node_sync_taskwait + 1

/-- The enumerator `node_sync_reduction`, declared after `node_sync_taskgroup`. -/
def node_sync_reduction : task_graph_node_type_t := node_sync_taskgroup + 1

/-- Every enumerator of `task_graph_node_type_t`, in the order of the declaration. -/
def all_node_types : List task_graph_node_type_t :=
  [node_type_unknown, node_task_initial, node_task_implicit, node_task_explicit,
   node_task_target, node_scope_parallel_begin, node_scope_sections_begin,
   node_scope_single_begin, node_scope_loop_begin, node_scope_taskloop_begin,
   node_scope_sync_taskgroup_begin, node_scope_parallel_end, node_scope_sections_end,
   node_scope_single_end, node_scope_loop_end, node_scope_taskloop_end,
   node_scope_sync_taskgroup_end, node_sync_barrier, node_sync_barrier_implicit,
   node_sync_barrier_explicit, node_sync_barrier_implementation, node_sync_taskwait,
   node_sync_taskgroup, node_sync_reduction]

/-- The six scopes: each scope-begin enumerator with the scope-end enumerator declared as
its "matching endpoint". -/
def scope_pairs : List (task_graph_node_type_t × task_graph_node_type_t) :=
  [(node_scope_parallel_begin, node_scope_parallel_end),
   (node_scope_sections_begin, node_scope_sections_end),
   (node_scope_single_begin, node_scope_single_end),
   (node_scope_loop_begin, node_scope_loop_end),
   (node_scope_taskloop_begin, node_scope_taskloop_end),
   (node_scope_sync_taskgroup_begin, node_scope_sync_taskgroup_end)]

/-! ## The task graph

The graph itself (`otter-datatypes/graph.c` and `otter-task-graph/task-graph.c`) is not
among the sources; `task-graph.h` declares its functions. -/

/-- A node of the task graph: its type and its data pointer. -/
structure graph_node_t where
  type : task_graph_node_type_t
  data : Nat
deriving DecidableEq, Repr

/-- The task graph: the nodes in the order they were added and the edges in the order they
were declared.  The reference to a node (a `task_graph_node_t *`) is its position in
`nodes`, counted from 1; `0` is `NULL`. -/
structure task_graph_t where
  nodes : List graph_node_t
  edges : List (Nat × Nat)
deriving DecidableEq, Repr

/-- Modelled from the spec: `task_graph_add_node` (declared in task-graph.h, defined in a
file that is not under `src/`), "add_node(kind, data) → returns a stable reference": the
reference returned and the graph afterwards. -/
def task_graph_add_node (g : task_graph_t) (node_type : task_graph_node_type_t)
    (node_data : Nat) : Nat × task_graph_t :=
  (g.nodes.length + 1,
   { g with nodes := g.nodes ++ [{ type := node_type, data := node_data }] })

/-- Modelled from the spec: `task_graph_add_edge` (not under `src/`), "add_edge(src, dst) →
declares a directed edge; multi-edges allowed; no cycle check". -/
def task_graph_add_edge (g : task_graph_t) (src dest : Nat) : task_graph_t :=
  { g with edges := g.edges ++ [(src, dest)] }

/-- Modelled from the spec: `graph_node_has_children` (not under `src/`) tells whether the
node "has outgoing edges". -/
def graph_node_has_children (g : task_graph_t) (node : Nat) : Bool :=
  g.edges.any (fun e => decide (e.1 = node))

/-- Modelled from the spec: `task_graph_destroy(free_node_data)` (not under `src/`),
"invoke free_fn(data, kind) for every node".  The destructor is given as the pointers it
frees at a node; the result lists the pointers freed, node after node. -/
def task_graph_destroy (free_node_data : Nat → task_graph_node_type_t → List Nat)
    (g : task_graph_t) : List Nat :=
  g.nodes.foldr (fun n freed => free_node_data n.data n.type ++ freed) []

/-- Modelled from the spec: `task_destroy` (otter-structs.c, not under `src/`), the
destructor of a `task_data_t`, frees the record. -/
def task_destroy (task_data : Nat) : List Nat := [task_data]

/-- Modelled from the spec: `parallel_destroy` (otter-structs.c, not under `src/`), the
destructor of a `parallel_data_t`, frees the record. -/
def parallel_destroy (parallel_data : Nat) : List Nat := [parallel_data]

/-- The function `destroy_graph_node_data` of otter.c, as the pointers it frees. -/
def destroy_graph_node_data (node_data : Nat) (node_type : task_graph_node_type_t) :
    List Nat :=
  -- switch (node_type)
  if node_type = node_task_initial ∨ node_type = node_task_implicit
      ∨ node_type = node_task_explicit ∨ node_type = node_task_target then
    task_destroy node_data
  else if node_type = node_scope_parallel_begin then
    parallel_destroy node_data
  else []

/-- The function `destroy_graph_node_data` of ompt-core-callbacks.c, as the pointers it
frees: `if (FLAG_NODE_TYPE_END(node_type)) free(node_data)`. -/
def ompt_core.destroy_graph_node_data (node_data : Nat) (node_type : task_graph_node_type_t) :
    List Nat :=
  if FLAG_NODE_TYPE_END node_type ≠ 0 then [node_data] else []

/-- A scope of the graph whose begin node and end node share the metadata pointer `p`. -/
def scope_graph (p : Nat) : task_graph_t :=
  { nodes := [{ type := node_scope_parallel_begin, data := p },
              { type := node_scope_parallel_end, data := p }]
    edges := [(1, 2)] }

/-! ## ompt-core-callbacks.c

The callbacks that build the task graph.  The structs `thread_data_t`, `parallel_data_t`,
`task_data_t` and `region_context_t` are declared in `otter-core/ompt-core-types.h`, which is
not among the sources; their fields are taken from the uses in the callbacks.  This file
names the two node types of a parallel region `node_context_parallel_begin` and
`node_context_parallel_end`; they are taken to be the enumerators
`node_scope_parallel_begin` and `node_scope_parallel_end` of `task-graph.h`.

Conventions.  A callback gets the thread that runs it (`thr`, the slot `get_thread_data()`
returns) and the slots of the runtime (`parallel`, `task`, `new_task`; an argument that may
be `NULL` is an `Option`).  A record a callback allocates is owned by the slot it is stored
in, and a pointer to the record is that slot; `malloc` of such a record is taken to return
a block.  A `region_context_t` lives at an address that is an argument of the callback that
allocates it (`0` when `malloc` returns `NULL`). -/

/-- The values of the field `type` of a `region_context_t` the callbacks use; `context_other`
stands for any other value (the literal `0` of the work callback). -/
inductive region_context_type_t where
  | context_parallel
  | context_single
  | context_loop
  | context_other (v : Nat)
deriving DecidableEq, Repr

open region_context_type_t

/-- The struct `region_context_t`, with the fields the callbacks use (the mutex `lock` is
not modelled). -/
structure region_context_t where
  type : region_context_type_t
  context_data : Option Nat
  context_task_graph_nodes : Option stack_t
  context_begin_node : Nat
  context_end_node : Nat
deriving DecidableEq, Repr

/-- The struct `thread_data_t` of ompt-core-callbacks.c, with the fields the callbacks
use. -/
structure ompt_core.thread_data_t where
  id : Nat
  location : Nat
  region_context_stack : Option stack_t
  initial_task_graph_node_ref : Nat
deriving DecidableEq, Repr

/-- The struct `parallel_data_t` of ompt-core-callbacks.c, with the fields the callbacks
use. -/
structure ompt_core.parallel_data_t where
  id : Nat
  parallel_begin_node_ref : Nat
  parallel_end_node_ref : Nat
  encountering_task_data : Option Nat
  region : Nat
  context : Nat
deriving DecidableEq, Repr

/-- The struct `task_data_t` of ompt-core-callbacks.c, with the fields the callbacks use. -/
structure ompt_core.task_data_t where
  id : Nat
  type : Nat
  task_node_ref : Nat
  enclosing_parallel_id : Nat
deriving DecidableEq, Repr

/-- The state of the tool of ompt-core-callbacks.c: the recorder's memory, the counters of
`get_unique_id` and of the refs, what the slots of the runtime hold (`none` for `NULL`), the
contexts by address, and the task graph. -/
structure ompt_core.Tool where
  w : World
  ids : unique_id_type_t → Nat
  refs : trace_ref_type_t → Nat
  threads : Nat → Option ompt_core.thread_data_t
  parallels : Nat → Option ompt_core.parallel_data_t
  tasks : Nat → Option ompt_core.task_data_t
  contexts : Nat → Option region_context_t
  graph : task_graph_t

/-- The context a pointer refers to; none for `NULL` and for a freed context. -/
def ompt_core.Tool.context_at (t : ompt_core.Tool) (p : Nat) : Option region_context_t :=
  if p = 0 then none else t.contexts p

/-- The mask `TASK_TREE_TASK_TYPE_MASK` is defined in a header that is not among the
sources.  Modelled from the spec: the type of a task is one of initial, implicit, explicit
and target, the four low bits of the flags. -/
def TASK_TREE_TASK_TYPE_MASK : Nat := 0xF

/-- The function `new_task_data(id, flags, parallel)` of ompt-core-callbacks.c. -/
def ompt_core.new_task_data (id flags parallel : Nat) : ompt_core.task_data_t :=
  { id := id
    type := flags &&& TASK_TREE_TASK_TYPE_MASK
    task_node_ref := 0
    enclosing_parallel_id := parallel }

/-- Modelled from the spec: `trace_new_region_definition(id, OTF2_REGION_ROLE_PARALLEL)`
(not under `src/`) builds the region of a parallel construct, as
`trace_new_parallel_region` does. -/
def trace_new_region_definition (w : World) (refs : trace_ref_type_t → Nat) (rgn q : Nat) :
    World × (trace_ref_type_t → Nat) :=
  trace_new_parallel_region w refs 0 rgn q

/-- The callback `on_ompt_callback_thread_begin` of ompt-core-callbacks.c; `loc` and `q` are
the addresses of the new location and of its queue, `mem` the outcome of the `malloc` of
`stack_create`. -/
def ompt_core.on_ompt_callback_thread_begin (t : ompt_core.Tool) (thr loc q : Nat)
    (mem : Bool) : Result ompt_core.Tool :=
  -- *thread_data = { .id = get_unique_thread_id(), .location = NULL,
  --                  .region_context_stack = stack_create(NULL) }
  let id := get_unique_id t.ids unique_id_type_t.id_thread
  let thread_data : ompt_core.thread_data_t :=
    { id := id.1
      location := 0
      region_context_stack := stack_create mem
      initial_task_graph_node_ref := 0 }
  -- thread_data->location = trace_new_location_definition(...)
  let w1 := trace_new_location_definition t.w loc q
  -- trace_event_thread_begin(thread_data->location)
  let w2 := trace_event_thread_begin w1 loc
  Result.ok { t with
    w := w2
    ids := id.2
    threads := Function.update t.threads thr (some { thread_data with location := loc }) }

/-- The callback `on_ompt_callback_parallel_begin` of ompt-core-callbacks.c, run by the
thread `thr`; `ctx`, `rgn` and `q` are the addresses of the new context, region and queue,
`mem_nodes` is the outcome of the `malloc` of `stack_create`. -/
def ompt_core.on_ompt_callback_parallel_begin (t : ompt_core.Tool)
    (thr encountering_task parallel : Nat) (ctx : Nat) (mem_nodes : Bool) (rgn q : Nat)
    (mem : enter_mem) : Result ompt_core.Tool :=
  match t.threads thr with
  | none => Result.fault
  | some thread_data =>
    -- encountering_task_data = (task_data_t*) encountering_task->ptr
    let encountering_task_data : Option Nat :=
      (t.tasks encountering_task).map (fun _ => encountering_task)
    -- *parallel_data = { .id = get_unique_parallel_id(), ... }
    let id := get_unique_id t.ids unique_id_type_t.id_parallel
    -- *parallel_context = { .type = context_parallel, .context_data = parallel_data,
    --                       .context_task_graph_nodes = stack_create(NULL), ... }
    if ctx = 0 then Result.fault
    else
      let parallel_context : region_context_t :=
        { type := context_parallel
          context_data := some parallel
          context_task_graph_nodes := stack_create mem_nodes
          context_begin_node := 0
          context_end_node := 0 }
      -- parallel_data->region = trace_new_region_definition(...)
      let nr := trace_new_region_definition t.w t.refs rgn q
      let t1 : ompt_core.Tool := { t with
        w := nr.1
        ids := id.2
        refs := nr.2
        contexts := Function.update t.contexts ctx (some parallel_context) }
      -- trace_event_enter(thread_data->location, parallel_data->region)
      match trace_event_enter t1.w thread_data.location rgn mem with
      | Result.fault => Result.fault
      | Result.abort w1 => Result.abort { t1 with w := w1 }
      | Result.ok w1 =>
        -- parallel_context->context_begin_node = task_graph_add_node(
        --     node_context_parallel_begin, {.ptr = parallel_data})
        let an := task_graph_add_node t1.graph node_scope_parallel_begin parallel
        -- task_graph_add_edge(thread_data->initial_task_graph_node_ref, context_begin_node)
        let g := task_graph_add_edge an.2 thread_data.initial_task_graph_node_ref an.1
        -- parallel->ptr = parallel_data
        Result.ok { t1 with
          w := w1
          contexts := Function.update t1.contexts ctx
            (some { parallel_context with context_begin_node := an.1 })
          parallels := Function.update t1.parallels parallel
            (some { id := id.1
                    parallel_begin_node_ref := an.1
                    parallel_end_node_ref := 0
                    encountering_task_data := encountering_task_data
                    region := rgn
                    context := ctx })
          graph := g }

/-- The loop `while (stack_pop(context->context_task_graph_nodes, &graph_node))` of
parallel-end, run for at most `fuel` tests of its condition: a popped node without children
gets an edge to the end node of the context.  The result is the graph and the stack when the
loop is left, and whether it was left by its condition (and not for want of fuel). -/
def ompt_core.join_terminal_nodes (end_node : Nat) :
    Nat → task_graph_t → Option stack_t → task_graph_t × Option stack_t × Bool
  | 0, g, s => (g, s, false)
  | fuel + 1, g, s =>
    let r := stack_pop s (some 0)
    if r.1 then
      let graph_node := r.2.2.getD 0
      -- if (graph_node_has_children(graph_node) == false) task_graph_add_edge(...)
      let g1 :=
        if graph_node_has_children g graph_node then g
        else task_graph_add_edge g graph_node end_node
      ompt_core.join_terminal_nodes end_node fuel g1 r.2.1
    else (g, r.2.1, true)

/-- The number of nodes a `stack_t *` reaches; 0 for `NULL`. -/
def nodes_of (s : Option stack_t) : Nat :=
  match s with
  | none => 0
  | some st => st.head.length

/-- The callback `on_ompt_callback_parallel_end` of ompt-core-callbacks.c, run by the thread
`thr`; `parallel` is `none` for a `NULL` argument and the slot of the runtime otherwise.
The macro `LOG_ERROR_IF` is taken to evaluate its condition.  The function
`trace_event_leave` of trace-core.c has the location as its only parameter. -/
def ompt_core.on_ompt_callback_parallel_end (t : ompt_core.Tool) (thr : Nat)
    (parallel : Option Nat) : Result ompt_core.Tool :=
  match t.threads thr with
  | none => Result.fault
  | some thread_data =>
    -- region_context_t *context = NULL;
    -- if (false == stack_pop(thread_data->region_context_stack, &context)) LOG_ERROR(...)
    let popped := stack_pop thread_data.region_context_stack (some 0)
    let context : Nat := popped.2.2.getD 0
    let t1 : ompt_core.Tool := { t with
      threads := Function.update t.threads thr
        (some { thread_data with region_context_stack := popped.2.1 }) }
    -- LOG_ERROR_IF((context->type != context_parallel), "invalid context type")
    match t1.context_at context with
    | none => Result.fault
    | some c =>
      -- if ((parallel != NULL) && (parallel->ptr != NULL))
      match parallel with
      | none => Result.ok t1
      | some par =>
        match t1.parallels par with
        | none => Result.ok t1
        | some parallel_data =>
          -- trace_event_leave(thread_data->location, parallel_data->region)
          match trace_event_leave t1.w thread_data.location with
          | Result.fault => Result.fault
          | Result.abort w1 => Result.abort { t1 with w := w1 }
          | Result.ok w1 =>
            -- context->context_end_node = task_graph_add_node(
            --     node_context_parallel_end, {.ptr = parallel_data})
            let an := task_graph_add_node t1.graph node_scope_parallel_end par
            let joined : task_graph_t × Option stack_t × Bool :=
              -- if (stack_size(context->context_task_graph_nodes) == 0)
              if stack_size c.context_task_graph_nodes = 0 then
                (task_graph_add_edge an.2 c.context_begin_node an.1,
                 c.context_task_graph_nodes, true)
              else
                ompt_core.join_terminal_nodes an.1
                  (nodes_of c.context_task_graph_nodes + 1) an.2 c.context_task_graph_nodes
            Result.ok { t1 with
              w := w1
              contexts := Function.update t1.contexts context
                (some { c with
                  context_end_node := an.1
                  context_task_graph_nodes := joined.2.1 })
              parallels := Function.update t1.parallels par
                (some { parallel_data with parallel_end_node_ref := an.1 })
              graph := joined.1 }

/-- The local `node_type` of `on_ompt_callback_task_create` in ompt-core-callbacks.c: the
type of the node of a task with the given flags. -/
def ompt_core.task_node_type (flags : Nat) : task_graph_node_type_t :=
  if flags &&& ompt_task_initial ≠ 0 then node_task_initial
  else if flags &&& ompt_task_implicit ≠ 0 then node_task_implicit
  else if flags &&& ompt_task_explicit ≠ 0 then node_task_explicit
  else if flags &&& ompt_task_target ≠ 0 then node_task_target
  else node_type_unknown

/-- The callback `on_ompt_callback_task_create` of ompt-core-callbacks.c, run by the thread
`thr`; `encountering_task` is `none` for a `NULL` argument, `new_task` is the slot of the new
task, `mem` the outcome of the `malloc` of the node pushed on the stack of the context. -/
def ompt_core.on_ompt_callback_task_create (t : ompt_core.Tool) (thr : Nat)
    (encountering_task : Option Nat) (new_task flags : Nat) (mem : Bool) :
    Result ompt_core.Tool :=
  match t.threads thr with
  | none => Result.fault
  | some thread_data =>
    -- region_context_t *context = NULL;
    -- stack_peek(thread_data->region_context_stack, &context)
    let context : Nat := (stack_peek thread_data.region_context_stack (some 0)).2.getD 0
    -- task_data = new_task_data(get_unique_task_id(), flags, 0L)
    let id := get_unique_id t.ids unique_id_type_t.id_task
    let task_data := ompt_core.new_task_data id.1 flags 0
    let node_type := ompt_core.task_node_type flags
    -- task_data->task_node_ref = task_graph_add_node(node_type, {.ptr = task_data})
    let an := task_graph_add_node t.graph node_type new_task
    -- new_task->ptr = task_data
    let t1 : ompt_core.Tool := { t with
      ids := id.2
      tasks := Function.update t.tasks new_task (some { task_data with task_node_ref := an.1 })
      graph := an.2 }
    -- stack_push(context->context_task_graph_nodes, {.ptr = task_data->task_node_ref})
    match t1.context_at context with
    | none => Result.fault
    | some c =>
      let t2 : ompt_core.Tool := { t1 with
        contexts := Function.update t1.contexts context
          (some { c with
            context_task_graph_nodes := (stack_push c.context_task_graph_nodes an.1 mem).2 }) }
      match encountering_task with
      -- if (encountering_task == NULL): no statement is left in this branch
      | none => Result.ok t2
      | some enc =>
        -- parent_task_data = (task_data_t*) encountering_task->ptr
        match t2.tasks enc with
        | none => Result.fault
        | some parent_task_data =>
          if parent_task_data.type = ompt_task_implicit then
            -- task_graph_add_edge(context->context_begin_node, task_data->task_node_ref)
            Result.ok { t2 with
              graph := task_graph_add_edge t2.graph c.context_begin_node an.1 }
          else
            -- task_graph_add_edge(parent_task_data->task_node_ref, task_data->task_node_ref)
            Result.ok { t2 with
              graph := task_graph_add_edge t2.graph parent_task_data.task_node_ref an.1 }

/-- The callback `on_ompt_callback_implicit_task` of ompt-core-callbacks.c, run by the
thread `thr`; `parallel` and `task` are the slots of the runtime, `mem` the outcome of the
`malloc` of the node pushed on the thread's stack of contexts. -/
def ompt_core.on_ompt_callback_implicit_task (t : ompt_core.Tool) (thr : Nat)
    (endpoint : ompt_scope_endpoint_t) (parallel task flags : Nat) (mem : Bool) :
    Result ompt_core.Tool :=
  match t.threads thr with
  | none => Result.fault
  | some thread_data =>
    match endpoint with
    | ompt_scope_begin =>
      -- if (task->ptr != NULL) task_data = task->ptr
      -- else { task_data = new_task_data(get_unique_task_id(), flags, 0L);
      --        task->ptr = task_data; }
      let task_data : ompt_core.task_data_t :=
        match t.tasks task with
        | some d => d
        | none =>
          ompt_core.new_task_data (get_unique_id t.ids unique_id_type_t.id_task).1 flags 0
      let t1 : ompt_core.Tool :=
        match t.tasks task with
        | some _ => t
        | none => { t with
            ids := (get_unique_id t.ids unique_id_type_t.id_task).2
            tasks := Function.update t.tasks task (some task_data) }
      if task_data.type = ompt_task_initial then
        -- task_data->task_node_ref = task_graph_add_node(node_task_initial, ...)
        let an := task_graph_add_node t1.graph node_task_initial task
        -- thread_data->initial_task_graph_node_ref = task_data->task_node_ref
        Result.ok { t1 with
          tasks := Function.update t1.tasks task (some { task_data with task_node_ref := an.1 })
          threads := Function.update t1.threads thr
            (some { thread_data with initial_task_graph_node_ref := an.1 })
          graph := an.2 }
      else if task_data.type = ompt_task_implicit then
        -- parallel_data = (parallel_data_t*) parallel->ptr
        match t1.parallels parallel with
        | none => Result.fault
        | some parallel_data =>
          -- stack_push(thread_data->region_context_stack, {.ptr = parallel_data->context})
          Result.ok { t1 with
            threads := Function.update t1.threads thr
              (some { thread_data with
                region_context_stack :=
                  (stack_push thread_data.region_context_stack parallel_data.context mem).2 }) }
      else Result.ok t1
    -- ompt_scope_end: every statement of this branch is commented out
    | ompt_scope_end => Result.ok t

/-- The callback `on_ompt_callback_work` of ompt-core-callbacks.c, run by the thread `thr`;
`ctx` is the address `malloc` returns for the context at a begin endpoint and `junk` what
the block holds then (`malloc` does not initialise it); `mem` is the outcome of the `malloc`
of the node pushed on the thread's stack of contexts. -/
def ompt_core.on_ompt_callback_work (t : ompt_core.Tool) (thr wstype : Nat)
    (endpoint : ompt_scope_endpoint_t) (ctx : Nat) (junk : region_context_t) (mem : Bool) :
    Result ompt_core.Tool :=
  match t.threads thr with
  | none => Result.fault
  | some thread_data =>
    if wstype = ompt_work_single_executor ∨ wstype = ompt_work_loop
        ∨ wstype = ompt_work_taskloop then
      match endpoint with
      | ompt_scope_begin =>
        -- context = malloc(sizeof(*context)); context->type = ...;
        -- context->context_data = NULL
        if ctx = 0 then Result.fault
        else
          let context : region_context_t :=
            { junk with
              type :=
                if wstype = ompt_work_single_executor then context_single
                else if wstype = ompt_work_loop then context_loop
                else if wstype = ompt_work_taskloop then context_single
                else context_other 0
              context_data := none }
          -- stack_push(thread_data->region_context_stack, {.ptr = context})
          Result.ok { t with
            contexts := Function.update t.contexts ctx (some context)
            threads := Function.update t.threads thr
              (some { thread_data with
                region_context_stack :=
                  (stack_push thread_data.region_context_stack ctx mem).2 }) }
      | ompt_scope_end =>
        -- stack_pop(thread_data->region_context_stack, &context); free(context)
        let popped := stack_pop thread_data.region_context_stack (some 0)
        let context : Nat := popped.2.2.getD 0
        Result.ok { t with
          contexts := if context = 0 then t.contexts else Function.update t.contexts context none
          threads := Function.update t.threads thr
            (some { thread_data with region_context_stack := popped.2.1 }) }
    else Result.ok t

/-- The tool of ompt-core-callbacks.c before the first callback. -/
def ompt_core.tool_start : ompt_core.Tool :=
  { w := Otter.tool_start.w
    ids := id_start
    refs := ref_start
    threads := fun _ => none
    parallels := fun _ => none
    tasks := fun _ => none
    contexts := fun _ => none
    graph := { nodes := [], edges := [] } }

/-- One callback of ompt-core-callbacks.c, with the thread that runs it. -/
inductive ompt_core.Callback where
  | thread_begin (thr loc q : Nat) (mem : Bool)
  | parallel_begin (thr encountering_task parallel ctx : Nat) (mem_nodes : Bool)
      (rgn q : Nat) (mem : enter_mem)
  | parallel_end (thr : Nat) (parallel : Option Nat)
  | task_create (thr : Nat) (encountering_task : Option Nat) (new_task flags : Nat)
      (mem : Bool)
  | implicit_task (thr : Nat) (endpoint : ompt_scope_endpoint_t) (parallel task flags : Nat)
      (mem : Bool)
  | work (thr wstype : Nat) (endpoint : ompt_scope_endpoint_t) (ctx : Nat)
      (junk : region_context_t) (mem : Bool)
deriving DecidableEq, Repr

/-- Runs one callback of ompt-core-callbacks.c. -/
def ompt_core.dispatch (t : ompt_core.Tool) : ompt_core.Callback → Result ompt_core.Tool
  | ompt_core.Callback.thread_begin thr loc q mem =>
    ompt_core.on_ompt_callback_thread_begin t thr loc q mem
  | ompt_core.Callback.parallel_begin thr enc par ctx mn rgn q mem =>
    ompt_core.on_ompt_callback_parallel_begin t thr enc par ctx mn rgn q mem
  | ompt_core.Callback.parallel_end thr par => ompt_core.on_ompt_callback_parallel_end t thr par
  | ompt_core.Callback.task_create thr enc new_task flags mem =>
    ompt_core.on_ompt_callback_task_create t thr enc new_task flags mem
  | ompt_core.Callback.implicit_task thr ep par task flags mem =>
    ompt_core.on_ompt_callback_implicit_task t thr ep par task flags mem
  | ompt_core.Callback.work thr wstype ep ctx junk mem =>
    ompt_core.on_ompt_callback_work t thr wstype ep ctx junk mem

/-- Runs the callbacks of a list in order; a callback that does not return ends the run
with its outcome. -/
def ompt_core.play (t : ompt_core.Tool) : List ompt_core.Callback → Result ompt_core.Tool
  | [] => Result.ok t
  | c :: cs =>
    match ompt_core.dispatch t c with
    | Result.ok t1 => ompt_core.play t1 cs
    | Result.abort t1 => Result.abort t1
    | Result.fault => Result.fault

/-- The callbacks of the initial thread (slot 0) up to its implicit task inside a parallel
region: thread-begin, implicit-task-begin of the initial task (slot 10), parallel-begin of
the region in slot 1 (context at address 301) and implicit-task-begin of the implicit task
(slot 11). -/
def ompt_core.into_parallel : List ompt_core.Callback :=
  [ompt_core.Callback.thread_begin 0 1 101 true,
   ompt_core.Callback.implicit_task 0 ompt_scope_begin 0 10 ompt_task_initial true,
   ompt_core.Callback.parallel_begin 0 10 1 301 true 5 105 (mem_ok 201),
   ompt_core.Callback.implicit_task 0 ompt_scope_begin 1 11 ompt_task_implicit true]

/-- The tool when the initial thread has begun its initial task, before the parallel
region. -/
def ompt_core.before_parallel : ompt_core.Tool :=
  Result.get ompt_core.tool_start
    (ompt_core.play ompt_core.tool_start (ompt_core.into_parallel.take 2))

/-- The tool when the initial thread runs its implicit task inside the parallel region. -/
def ompt_core.in_parallel : ompt_core.Tool :=
  Result.get ompt_core.tool_start (ompt_core.play ompt_core.tool_start ompt_core.into_parallel)

/-- The tool when the implicit task (slot 11) has created the explicit task T1 (slot 12). -/
def ompt_core.with_task : ompt_core.Tool :=
  Result.get ompt_core.tool_start
    (ompt_core.on_ompt_callback_task_create ompt_core.in_parallel 0 (some 11) 12
      ompt_task_explicit true)

/-! ## The tool as `tool_setup` builds it (ompt-core-callbacks.c) -/

/-- The function `tool_setup` of ompt-core-callbacks.c, as the callbacks it registers with
`include_callback`: those of parallel-begin, parallel-end, thread-begin, task-create and
implicit-task (and that of thread-end); the lines that register the callbacks of task-schedule
and of work are commented out. -/
def ompt_core.tool_setup : ompt_core.Callback → Bool
  | ompt_core.Callback.thread_begin _ _ _ _ => true
  | ompt_core.Callback.parallel_begin _ _ _ _ _ _ _ _ => true
  | ompt_core.Callback.parallel_end _ _ => true
  | ompt_core.Callback.task_create _ _ _ _ _ => true
  | ompt_core.Callback.implicit_task _ _ _ _ _ _ => true
  -- include_callback(callbacks, ompt_callback_work) is commented out
  | ompt_core.Callback.work _ _ _ _ _ _ => false

/-- Modelled from the spec: the runtime calls the callbacks the tool registered, and
"unsupported callbacks remain empty no-ops": an event whose callback `tool_setup` registers
runs that callback, any other event leaves the tool as it is. -/
def ompt_core.event (t : ompt_core.Tool) (c : ompt_core.Callback) : Result ompt_core.Tool :=
  if ompt_core.tool_setup c then ompt_core.dispatch t c else Result.ok t

/-- The events of a list in order; an event whose callback does not return ends the run with
its outcome. -/
def ompt_core.events (t : ompt_core.Tool) : List ompt_core.Callback → Result ompt_core.Tool
  | [] => Result.ok t
  | c :: cs =>
    match ompt_core.event t c with
    | Result.ok t1 => ompt_core.events t1 cs
    | Result.abort t1 => Result.abort t1
    | Result.fault => Result.fault

/-- A call made by `stack_destroy` on an item: of the destructor it was given, or of
`free`. -/
inductive destroy_call where
  | destructor (p : data_item_t)
  | free (p : data_item_t)
deriving DecidableEq, Repr

/-- The loop `while (stack_pop(s, &d))` of `stack_destroy`, run for at most `fuel` tests of
its condition; `d` is the local the pops write to, `destructor` tells whether the destructor
given is not `NULL`.  The result is the calls made on the items, in order, the stack when
the loop is left, and whether it was left by its condition (and not for want of fuel). -/
def stack_destroy_loop (items destructor : Bool) :
    Nat → Option stack_t → data_item_t → List destroy_call × Option stack_t × Bool
  | 0, s, _ => ([], s, false)
  | fuel + 1, s, d =>
    let r := stack_pop s (some d)
    if r.1 then
      let d1 := r.2.2.getD d
      -- if (items) destructor != NULL ? destructor(d.ptr) : free(d.ptr)
      let calls : List destroy_call :=
        if items then
          [if destructor then destroy_call.destructor d1 else destroy_call.free d1]
        else []
      let rest := stack_destroy_loop items destructor fuel r.2.1 d1
      (calls ++ rest.1, rest.2.1, rest.2.2)
    else ([], r.2.1, true)

/-- What a call of `stack_destroy` does: whether the warning of `LOG_WARN_IF` is given, the
calls made on the items, the stack when the loop is left, and whether `free(s)` is
reached. -/
structure destroy_result where
  warned : Bool
  calls : List destroy_call
  left : Option stack_t
  freed : Bool
deriving DecidableEq, Repr

/-- The function `stack_destroy(s, items, destructor)`, its loop run for at most `fuel`
tests of its condition. -/
def stack_destroy (s : Option stack_t) (items destructor : Bool) (fuel : Nat) :
    destroy_result :=
  match s with
  -- if (s == NULL) return
  | none => { warned := false, calls := [], left := none, freed := false }
  | some st =>
    -- LOG_WARN_IF((s->size != 0 && items == false), ...)
    let warned : Bool := decide (st.size ≠ 0) && !items
    -- data_item_t d = {.ptr = NULL}; while (stack_pop(s, &d)) ...
    let r := stack_destroy_loop items destructor fuel (some st) 0
    -- free(s)
    { warned := warned, calls := r.1, left := r.2.1, freed := r.2.2 }

/-- One call on a stack: `stack_push` with the outcome of its `malloc`, `stack_pop` or
`stack_peek` with the destination (`none` for `NULL`). -/
inductive stack_call where
  | push (item : data_item_t) (mem : Bool)
  | pop (dest : Option data_item_t)
  | peek (dest : Option data_item_t)
deriving DecidableEq, Repr

/-- The stack after one call. -/
def stack_call.apply (s : Option stack_t) : stack_call → Option stack_t
  | stack_call.push item mem => (stack_push s item mem).2
  | stack_call.pop dest => (stack_pop s dest).2.1
  | stack_call.peek _ => s

/-- The stack after the calls of a list, in order. -/
def stack_calls (s : Option stack_t) : List stack_call → Option stack_t
  | [] => s
  | c :: cs => stack_calls (c.apply s) cs

/-! ## The attributes of a task region -/

/-- The value `trace_add_task_attributes` gives the attribute `a` of the region `rgn`, when
it adds that attribute. -/
def task_attribute (refs : attr_refs_t) (rgn : trace_region_def_t) (a : attr_name_enum_t) :
    Option attr_value_t :=
  ((trace_add_task_attributes refs rgn []).find? (fun x => decide (x.1 = a))).map
    (fun x => x.2)

/-- The region of an explicit task that is untied and final: its flags are
`ompt_task_explicit | ompt_task_untied | ompt_task_final`. -/
def untied_task_region : trace_region_def_t :=
  { new_region 3 trace_region_task 0 with
    attr := { task_id := 2
              task_type := ompt_task_explicit
              task_flags := ompt_task_explicit ||| ompt_task_untied ||| ompt_task_final } }

/-! ## The event records and the mutex operations of a call -/

/-- The function `trace_event_task_create(self, created_task)`. -/
def trace_event_task_create (w : World) (self created_task : Nat) : Result World :=
  -- trace_add_common_event_attributes(created_task) reads the region
  match w.region_at created_task with
  | none => Result.fault
  | some _ =>
    -- OTF2_EvtWriter_ThreadTaskCreate(...)
    let w1 := w.emit (Eff.TaskCreate self)
    -- self->events++
    Result.ok
      (w1.set_loc self { w1.locs self with events := ((w1.locs self).events + 1) % SIZE_MOD })

/-- One call of a function of trace-core.c that writes an event. -/
inductive event_call where
  | thread_begin (self : Nat)
  | thread_end (self : Nat)
  | enter (self region : Nat) (mem : enter_mem)
  | leave (self : Nat)
  | task_create (self created_task : Nat)
deriving DecidableEq, Repr

/-- The location a call writes with. -/
def event_call.location : event_call → Nat
  | event_call.thread_begin self => self
  | event_call.thread_end self => self
  | event_call.enter self _ _ => self
  | event_call.leave self => self
  | event_call.task_create self _ => self

/-- Performs one call. -/
def event_call.apply (w : World) : event_call → Result World
  | event_call.thread_begin self => Result.ok (trace_event_thread_begin w self)
  | event_call.thread_end self => Result.ok (trace_event_thread_end w self)
  | event_call.enter self region mem => trace_event_enter w self region mem
  | event_call.leave self => trace_event_leave w self
  | event_call.task_create self created_task => trace_event_task_create w self created_task

/-- Performs the calls of a list in order, each after the previous one returned; a call that
does not return ends the run with its outcome. -/
def record_all (w : World) : List event_call → Result World
  | [] => Result.ok w
  | c :: cs =>
    match c.apply w with
    | Result.ok w1 => record_all w1 cs
    | Result.abort w1 => Result.abort w1
    | Result.fault => Result.fault

/-- Whether an effect is an event record handed to the event writer of a location. -/
def Eff.is_event : Eff → Bool
  | Eff.ThreadBegin _ => true
  | Eff.ThreadEnd _ => true
  | Eff.Enter _ _ => true
  | Eff.Leave _ _ => true
  | Eff.TaskCreate _ => true
  | _ => false

/-- Whether an effect is an event record written by the location `self`. -/
def Eff.is_event_of (self : Nat) : Eff → Bool
  | Eff.ThreadBegin l => decide (l = self)
  | Eff.ThreadEnd l => decide (l = self)
  | Eff.Enter l _ => decide (l = self)
  | Eff.Leave l _ => decide (l = self)
  | Eff.TaskCreate l => decide (l = self)
  | _ => false

/-- The number of event records the location `self` has written, in a log. -/
def events_written (self : Nat) (es : List Eff) : Nat :=
  (es.filter (Eff.is_event_of self)).length

/-- Whether an effect is an operation on the mutex of a region. -/
def Eff.is_mutex_op : Eff → Bool
  | Eff.lock _ => true
  | Eff.unlock _ => true
  | _ => false

/-- The operations on mutexes in a log, in order. -/
def mutex_ops (es : List Eff) : List Eff :=
  es.filter Eff.is_mutex_op

/-- The calls of a scenario of five events on the location 0 of `demo_world`: thread-begin,
enter of the parallel region at 1, task-create of the region at 2, leave, thread-end. -/
def demo_events : List event_call :=
  [event_call.thread_begin 0, event_call.enter 0 1 (mem_ok 200), event_call.task_create 0 2,
   event_call.leave 0, event_call.thread_end 0]

/-! ## Properties of dt-stack.c -/

theorem stack_pop_push (st : stack_t) (x : data_item_t) (d : Option data_item_t)
    (h : st.size < SIZE_MOD) :
    stack_pop (stack_push (some st) x true).2 d = (true, some st, d.map (fun _ => x)) := by
  have h1 : ((st.size + 1) % SIZE_MOD + SIZE_MOD - 1) % SIZE_MOD = st.size := by
    unfold SIZE_MOD at *
    omega
  simp [stack_push, stack_pop, h1]

theorem push_all_eq (xs : List data_item_t) (st : stack_t) (h : st.size < SIZE_MOD) :
    push_all (some st) xs
      = (true, some { head := xs.reverse ++ st.head,
                      size := (st.size + xs.length) % SIZE_MOD }) := by
  induction xs generalizing st with
  | nil =>
    simp [push_all, Nat.mod_eq_of_lt h]
  | cons x xs ih =>
    have hlt : (st.size + 1) % SIZE_MOD < SIZE_MOD := Nat.mod_lt _ (by unfold SIZE_MOD; omega)
    simp only [push_all, stack_push, if_true, Bool.true_and]
    rw [ih _ hlt]
    have e : ((st.size + 1) % SIZE_MOD + xs.length) % SIZE_MOD
        = (st.size + (xs.length + 1)) % SIZE_MOD := by
      unfold SIZE_MOD
      omega
    simp [e]

theorem pop_n_append (ys base : List data_item_t) (sz : Nat) (h : sz < SIZE_MOD) :
    pop_n (some { head := ys ++ base, size := sz }) ys.length
      = (ys.map (fun x => (true, some x)),
         some { head := base, size := (sz + ys.length * (SIZE_MOD - 1)) % SIZE_MOD }) := by
  induction ys generalizing sz with
  | nil => simp [pop_n, Nat.mod_eq_of_lt h]
  | cons y ys ih =>
    have hlt : (sz + SIZE_MOD - 1) % SIZE_MOD < SIZE_MOD :=
      Nat.mod_lt _ (by unfold SIZE_MOD; omega)
    simp only [pop_n, stack_pop, List.cons_append, List.length_cons]
    rw [ih _ hlt]
    have e : ((sz + SIZE_MOD - 1) % SIZE_MOD + ys.length * (SIZE_MOD - 1)) % SIZE_MOD
        = (sz + (ys.length + 1) * (SIZE_MOD - 1)) % SIZE_MOD := by
      unfold SIZE_MOD
      omega
    simp [e]

theorem size_restore (sz n : Nat) (h : sz < SIZE_MOD) :
    ((sz + n) % SIZE_MOD + n * (SIZE_MOD - 1)) % SIZE_MOD = sz := by
  unfold SIZE_MOD at *
  omega

/-- C9. `stack_pop` fails on an empty stack: for a `NULL` stack and for a stack without
nodes it returns false and leaves the stack (contents and size) and the destination as they
were; for every stack with at least one node it returns true. -/
theorem stack_pop_fails_iff_empty (s : Option stack_t) (dest : Option data_item_t) :
    ((s = none ∨ ∃ st, s = some st ∧ st.head = []) →
        stack_pop s dest = (false, s, dest))
    ∧ ((∃ st, s = some st ∧ st.head ≠ []) → (stack_pop s dest).1 = true) := by
  constructor
  · rintro (rfl | ⟨st, rfl, hst⟩)
    · rfl
    · simp [stack_pop, hst]
  · rintro ⟨st, rfl, hst⟩
    cases hh : st.head with
    | nil => exact absurd hh hst
    | cons x rest => simp [stack_pop, hh]

/-- C10. The stack is LIFO: on a stack that is not `NULL`, pushing `x1, ..., xn` (every
push succeeding) and then popping `n` times returns `xn, ..., x1` in that order, every pop
succeeding, and leaves the stack with the contents and the size it had before the pushes;
and after a push of `x`, `stack_peek` returns `x` and the stack is as the push left it. -/
theorem stack_lifo (st : stack_t) (xs : List data_item_t) (x d : data_item_t)
    (hsize : st.size < SIZE_MOD) :
    (push_all (some st) xs).1 = true
    ∧ pop_n (push_all (some st) xs).2 xs.length
        = (xs.reverse.map (fun y => (true, some y)), some st)
    ∧ stack_peek (stack_push (some st) x true).2 (some d) = (true, some x)
    ∧ (stack_push (some st) x true).1 = true := by
  refine ⟨?_, ?_, ?_, ?_⟩
  · rw [push_all_eq xs st hsize]
  · rw [push_all_eq xs st hsize]
    have := pop_n_append xs.reverse st.head ((st.size + xs.length) % SIZE_MOD)
      (Nat.mod_lt _ (by unfold SIZE_MOD; omega))
    simp only [List.length_reverse] at this
    simp only [this, size_restore _ _ hsize]
  · simp [stack_push, stack_peek]
  · simp [stack_push]

/-- C10, at a stack holding 7 and 8: pushing 1, 2, 3 and popping three times. -/
theorem stack_lifo_witness :
    (5 : Nat) < SIZE_MOD
    ∧ pop_n (push_all (some { head := [7, 8], size := 5 }) [1, 2, 3]).2 3
        = ([(true, some 3), (true, some 2), (true, some 1)],
           some { head := [7, 8], size := 5 })
    ∧ stack_peek (stack_push (some { head := [7, 8], size := 5 }) 4 true).2 (some 0)
        = (true, some 4) :=
  ⟨by simp [SIZE_MOD],
   (stack_lifo { head := [7, 8], size := 5 } [1, 2, 3] 4 0 (by simp [SIZE_MOD])).2.1,
   (stack_lifo { head := [7, 8], size := 5 } [1, 2, 3] 4 0 (by simp [SIZE_MOD])).2.2.1⟩

/-! ## One call of the recorder -/

theorem stack_pop_some_cons {st : stack_t} {x : data_item_t} {rest : List data_item_t}
    (hh : st.head = x :: rest) (d : Option data_item_t) :
    stack_pop (some st) d
      = (true, some { head := rest, size := (st.size + SIZE_MOD - 1) % SIZE_MOD },
         d.map (fun _ => x)) := by
  simp [stack_pop, hh]

theorem stack_pop_some_nil {st : stack_t} (hh : st.head = []) (d : Option data_item_t) :
    stack_pop (some st) d = (false, some st, d) := by
  simp [stack_pop, hh]

@[simp] theorem queue_create_locs (w : World) (q : Nat) : (queue_create w q).locs = w.locs := by
  unfold queue_create; split <;> rfl

@[simp] theorem queue_create_regions (w : World) (q : Nat) :
    (queue_create w q).regions = w.regions := by
  unfold queue_create; split <;> rfl

@[simp] theorem queue_create_log (w : World) (q : Nat) : (queue_create w q).log = w.log := by
  unfold queue_create; split <;> rfl

@[simp] theorem queue_append_locs (w : World) (a b : Nat) :
    (queue_append w a b).2.locs = w.locs := by
  unfold queue_append; split <;> rfl

@[simp] theorem queue_append_regions (w : World) (a b : Nat) :
    (queue_append w a b).2.regions = w.regions := by
  unfold queue_append; split <;> rfl

@[simp] theorem queue_append_log (w : World) (a b : Nat) :
    (queue_append w a b).2.log = w.log := by
  unfold queue_append; split <;> rfl

@[simp] theorem queue_destroy_locs (w : World) (q : Nat) : (queue_destroy w q).locs = w.locs := by
  unfold queue_destroy; split <;> rfl

@[simp] theorem queue_destroy_regions (w : World) (q : Nat) :
    (queue_destroy w q).regions = w.regions := by
  unfold queue_destroy; split <;> rfl

@[simp] theorem queue_destroy_log (w : World) (q : Nat) : (queue_destroy w q).log = w.log := by
  unfold queue_destroy; split <;> rfl

/-- What a returning `trace_event_enter` did. -/
theorem enter_ok {w w1 : World} {self region : Nat} {mem : enter_mem}
    (h : trace_event_enter w self region mem = Result.ok w1) :
    ∃ r, w.region_at region = some r ∧ r.type ≠ trace_region_unhandled
      ∧ (∀ l, l ≠ self → w1.locs l = w.locs l)
      ∧ (w1.locs self).rgn_stack
          = (stack_push (w.locs self).rgn_stack region mem.rgn_node).2
      ∧ (w1.locs self).events = ((w.locs self).events + 1) % SIZE_MOD
      ∧ (∀ p, p ≠ region → w1.regions p = w.regions p)
      ∧ (r.type ≠ trace_region_parallel →
          w1.regions = w.regions
          ∧ w1.log = w.log ++ [Eff.Enter self r.ref]
          ∧ (w1.locs self).rgn_defs = (w.locs self).rgn_defs
          ∧ (w1.locs self).rgn_defs_stack = (w.locs self).rgn_defs_stack)
      ∧ (r.type = trace_region_parallel →
          w1.regions region = some { r with
              ref_count := (r.ref_count + 1) % UINT_MOD
              enter_count := (r.enter_count + 1) % UINT_MOD }
          ∧ w1.log = w.log ++ [Eff.lock region, Eff.Enter self r.ref, Eff.unlock region]
          ∧ (w1.locs self).rgn_defs = mem.queue
          ∧ (w1.locs self).rgn_defs_stack
              = (stack_push (w.locs self).rgn_defs_stack (w.locs self).rgn_defs
                  mem.defs_node).2) := by
  unfold trace_event_enter at h
  cases hr : w.region_at region with
  | none => simp [hr] at h
  | some r =>
    simp only [hr] at h
    by_cases hu : r.type = trace_region_unhandled
    · simp [hu] at h
    · simp only [hu, if_false] at h
      by_cases hp : r.type = trace_region_parallel
      · simp only [hp, if_true, Result.ok.injEq] at h
        subst h
        refine ⟨r, rfl, hu, ?_, ?_, ?_, ?_, ?_, ?_⟩
        · intro l hl
          simp [World.set_loc, World.emit, World.set_region, Function.update_noteq hl]
        · simp [World.set_loc, World.emit, World.set_region]
        · simp [World.set_loc, World.emit, World.set_region]
        · intro p hpne
          simp [World.set_loc, World.emit, World.set_region, Function.update_noteq hpne]
        · intro hnp; exact absurd hp hnp
        · intro _
          simp [World.set_loc, World.emit, World.set_region, hp]
      · simp only [hp, if_false, Result.ok.injEq] at h
        subst h
        refine ⟨r, rfl, hu, ?_, ?_, ?_, ?_, ?_, ?_⟩
        · intro l hl
          simp [World.set_loc, World.emit, World.set_region, Function.update_noteq hl]
        · simp [World.set_loc, World.emit, World.set_region]
        · simp [World.set_loc, World.emit, World.set_region]
        · intro p hpne
          simp [World.set_loc, World.emit, World.set_region]
        · intro _
          simp [World.set_loc, World.emit, World.set_region]
        · intro hpp; exact absurd hpp hp

theorem region_at_ne_zero {w : World} {p : Nat} {r : trace_region_def_t}
    (h : w.region_at p = some r) : p ≠ 0 := by
  intro h0
  simp [World.region_at, h0] at h

theorem region_at_eq {w : World} {p : Nat} (h : p ≠ 0) : w.region_at p = w.regions p := by
  simp [World.region_at, h]

@[simp] theorem region_at_set_loc (w : World) (self p : Nat) (x : trace_location_def_t) :
    (w.set_loc self x).region_at p = w.region_at p := rfl

/-- What a returning `trace_event_leave` did. -/
theorem leave_ok {w w1 : World} {self : Nat}
    (h : trace_event_leave w self = Result.ok w1) :
    ∃ st p rest r, (w.locs self).rgn_stack = some st ∧ st.size ≠ 0 ∧ st.head = p :: rest
      ∧ w.region_at p = some r ∧ r.type ≠ trace_region_unhandled
      ∧ (∀ l, l ≠ self → w1.locs l = w.locs l)
      ∧ (w1.locs self).rgn_stack
          = some { head := rest, size := (st.size + SIZE_MOD - 1) % SIZE_MOD }
      ∧ (w1.locs self).events = ((w.locs self).events + 1) % SIZE_MOD
      ∧ (∀ q, q ≠ p → w1.regions q = w.regions q)
      ∧ (r.type ≠ trace_region_parallel →
          w1.regions = w.regions
          ∧ w1.log = w.log ++ [Eff.Leave self r.ref]
          ∧ (w1.locs self).rgn_defs = (w.locs self).rgn_defs
          ∧ (w1.locs self).rgn_defs_stack = (w.locs self).rgn_defs_stack)
      ∧ (r.type = trace_region_parallel →
          w1.regions p
            = (if dec_uint r.ref_count = 0 then none
               else some { r with ref_count := dec_uint r.ref_count })
          ∧ w1.log = w.log ++ [Eff.lock p, Eff.Leave self r.ref, Eff.unlock p]
              ++ (if dec_uint r.ref_count = 0
                  then [Eff.destroy p { r with ref_count := dec_uint r.ref_count }]
                  else [])
          ∧ (w1.locs self).rgn_defs
              = (stack_pop (w.locs self).rgn_defs_stack (some 0)).2.2.getD 0
          ∧ (w1.locs self).rgn_defs_stack
              = (stack_pop (w.locs self).rgn_defs_stack (some 0)).2.1) := by
  unfold trace_event_leave at h
  cases hs : (w.locs self).rgn_stack with
  | none => simp [hs, stack_is_empty] at h
  | some st =>
    by_cases hz : st.size = 0
    · simp [hs, stack_is_empty, hz] at h
    · cases hh : st.head with
      | nil =>
        simp [hs, stack_is_empty, hz, stack_pop_some_nil hh, World.region_at, World.set_loc] at h
      | cons p rest =>
        simp only [hs, stack_is_empty, hz, stack_pop_some_cons hh, if_false, Option.map_some',
          Option.getD_some, Bool.false_eq_true, region_at_set_loc] at h
        cases hr : w.region_at p with
        | none => simp [hr] at h
        | some r =>
          have hp0 := region_at_ne_zero hr
          simp only [hr] at h
          by_cases hu : r.type = trace_region_unhandled
          · simp [hu] at h
          · simp only [hu, if_false] at h
            by_cases hp : r.type = trace_region_parallel
            · simp only [hp, if_true, Result.ok.injEq] at h
              subst h
              refine ⟨st, p, rest, r, rfl, hz, hh, hr, hu, ?_, ?_, ?_, ?_, ?_, ?_⟩
              · intro l hl
                split <;>
                simp [World.set_loc, World.emit, World.set_region,
                  trace_destroy_parallel_region, World.region_at, hp0,
                  Function.update_noteq hl]
              · split <;>
                simp [World.set_loc, World.emit, World.set_region,
                  trace_destroy_parallel_region, World.region_at, hp0]
              · split <;>
                simp [World.set_loc, World.emit, World.set_region,
                  trace_destroy_parallel_region, World.region_at, hp0]
              · intro q hq
                split <;>
                simp [World.set_loc, World.emit, World.set_region,
                  trace_destroy_parallel_region, World.region_at, hp0,
                  Function.update_noteq hq]
              · intro hnp; exact absurd hp hnp
              · intro _
                by_cases hrc : dec_uint r.ref_count = 0
                · have hrc2 : (r.ref_count + UINT_MOD - 1) % UINT_MOD = 0 := hrc
                  simp [World.set_loc, World.emit, World.set_region,
                    trace_destroy_parallel_region, World.region_at, hp0, hrc, hrc2, hp]
                · have hrc2 : ¬ (r.ref_count + UINT_MOD - 1) % UINT_MOD = 0 := hrc
                  simp [World.set_loc, World.emit, World.set_region,
                    trace_destroy_parallel_region, World.region_at, hp0, hrc, hrc2, hp,
                    dec_uint]
            · simp only [hp, if_false, Result.ok.injEq] at h
              subst h
              refine ⟨st, p, rest, r, rfl, hz, hh, hr, hu, ?_, ?_, ?_, ?_, ?_, ?_⟩
              · intro l hl
                simp [World.set_loc, World.emit, Function.update_noteq hl]
              · simp [World.set_loc, World.emit]
              · simp [World.set_loc, World.emit]
              · intro q _
                simp [World.set_loc, World.emit]
              · intro _
                simp [World.set_loc, World.emit]
              · intro hpp; exact absurd hpp hp

/-- `trace_event_enter` returns on every live region of a handled type. -/
theorem enter_returns (w : World) (self region : Nat) (mem : enter_mem)
    (r : trace_region_def_t) (hr : w.region_at region = some r)
    (hu : r.type ≠ trace_region_unhandled) :
    ∃ w1, trace_event_enter w self region mem = Result.ok w1 := by
  unfold trace_event_enter
  simp only [hr, hu, if_false]
  exact ⟨_, rfl⟩

/-- `trace_event_leave` returns when the region stack has a node, a non-zero size, and its
top is a live region of a handled type. -/
theorem leave_returns (w : World) (self : Nat) (st : stack_t) (p : Nat)
    (rest : List data_item_t) (r : trace_region_def_t)
    (hs : (w.locs self).rgn_stack = some st) (hz : st.size ≠ 0) (hh : st.head = p :: rest)
    (hr : w.region_at p = some r) (hu : r.type ≠ trace_region_unhandled) :
    ∃ w1, trace_event_leave w self = Result.ok w1 := by
  unfold trace_event_leave
  simp only [hs, stack_is_empty, hz, stack_pop_some_cons hh, if_false, Option.map_some',
    Option.getD_some, Bool.false_eq_true, region_at_set_loc, hr, hu]
  exact ⟨_, rfl⟩

/-! ## Runs -/

/-- A returning call creates no region and changes neither the ref, the type nor the queue
of a region that is still live after it. -/
theorem step_region_mono {w w1 : World} {op : Op} (h : step w op = Result.ok w1)
    {p : Nat} {r1 : trace_region_def_t} (h1 : w1.region_at p = some r1) :
    ∃ r, w.region_at p = some r ∧ r1.ref = r.ref ∧ r1.type = r.type
      ∧ r1.rgn_defs = r.rgn_defs := by
  have hp0 := region_at_ne_zero h1
  rw [region_at_eq hp0] at h1 ⊢
  cases op with
  | enter self region mem =>
    obtain ⟨r, hr, _, _, _, _, hfr, hnp, hpar⟩ := enter_ok h
    by_cases hpr : p = region
    · subst hpr
      rw [region_at_eq hp0] at hr
      by_cases hty : r.type = trace_region_parallel
      · have := (hpar hty).1
        rw [this] at h1
        cases h1
        exact ⟨r, hr, rfl, rfl, rfl⟩
      · have := (hnp hty).1
        rw [this] at h1
        exact ⟨r1, h1, rfl, rfl, rfl⟩
    · rw [hfr p hpr] at h1
      exact ⟨r1, h1, rfl, rfl, rfl⟩
  | leave self =>
    obtain ⟨st, q, rest, r, _, _, _, hr, _, _, _, _, hfr, hnp, hpar⟩ := leave_ok h
    by_cases hpr : p = q
    · subst hpr
      rw [region_at_eq hp0] at hr
      by_cases hty : r.type = trace_region_parallel
      · have := (hpar hty).1
        rw [this] at h1
        by_cases hz : dec_uint r.ref_count = 0
        · simp [hz] at h1
        · simp only [hz, if_false, Option.some.injEq] at h1
          subst h1
          exact ⟨r, hr, rfl, rfl, rfl⟩
      · have := (hnp hty).1
        rw [this] at h1
        exact ⟨r1, h1, rfl, rfl, rfl⟩
    · rw [hfr p hpr] at h1
      exact ⟨r1, h1, rfl, rfl, rfl⟩

theorem run_cons_ok {w w2 : World} {op : Op} {ops : List Op}
    (h : run w (op :: ops) = Result.ok w2) :
    ∃ w1, step w op = Result.ok w1 ∧ run w1 ops = Result.ok w2 := by
  simp only [run] at h
  cases hs : step w op with
  | ok w1 => rw [hs] at h; exact ⟨w1, rfl, h⟩
  | abort w1 => rw [hs] at h; cases h
  | fault => rw [hs] at h; cases h

/-- The Enter and Leave records a returning enter adds for a location. -/
theorem enter_endpoints {w w1 : World} {l region : Nat} {mem : enter_mem}
    (h : trace_event_enter w l region mem = Result.ok w1) (self : Nat) :
    w1.endpoints self
      = w.endpoints self ++ (if l = self then [Eff.Enter self (w.ref_of region)] else []) := by
  obtain ⟨r, hr, _, _, _, _, _, hnp, hpar⟩ := enter_ok h
  have href : w.ref_of region = r.ref := by simp [World.ref_of, hr]
  by_cases hty : r.type = trace_region_parallel
  · rw [World.endpoints, (hpar hty).2.1, href]
    by_cases hl : l = self
    · subst hl
      simp [World.endpoints, List.filter_append, List.filter_cons, Eff.is_endpoint]
    · simp [World.endpoints, List.filter_append, List.filter_cons, Eff.is_endpoint, hl]
  · rw [World.endpoints, (hnp hty).2.1, href]
    by_cases hl : l = self
    · subst hl
      simp [World.endpoints, List.filter_append, List.filter_cons, Eff.is_endpoint]
    · simp [World.endpoints, List.filter_append, List.filter_cons, Eff.is_endpoint, hl]

/-- The Enter and Leave records a returning leave adds for a location. -/
theorem leave_endpoints {w w1 : World} {l : Nat}
    (h : trace_event_leave w l = Result.ok w1) (self : Nat) :
    ∃ st p rest, (w.locs l).rgn_stack = some st ∧ st.head = p :: rest ∧
    w1.endpoints self
      = w.endpoints self ++ (if l = self then [Eff.Leave self (w.ref_of p)] else []) := by
  obtain ⟨st, p, rest, r, hs, _, hh, hr, _, _, _, _, _, hnp, hpar⟩ := leave_ok h
  refine ⟨st, p, rest, hs, hh, ?_⟩
  have href : w.ref_of p = r.ref := by simp [World.ref_of, hr]
  by_cases hty : r.type = trace_region_parallel
  · rw [World.endpoints, (hpar hty).2.1, href]
    by_cases hl : l = self
    · subst hl
      split <;>
      simp [World.endpoints, List.filter_append, List.filter_cons, Eff.is_endpoint]
    · split <;>
      simp [World.endpoints, List.filter_append, List.filter_cons, Eff.is_endpoint, hl]
  · rw [World.endpoints, (hnp hty).2.1, href]
    by_cases hl : l = self
    · subst hl
      simp [World.endpoints, List.filter_append, List.filter_cons, Eff.is_endpoint]
    · simp [World.endpoints, List.filter_append, List.filter_cons, Eff.is_endpoint, hl]

theorem refs_agree_step {w w1 : World} {op : Op} {ref : Nat → Nat}
    (h : step w op = Result.ok w1) (ha : refs_agree w ref) : refs_agree w1 ref := by
  intro p r1 h1
  obtain ⟨r, hr, e, _, _⟩ := step_region_mono h h1
  rw [e]
  exact ha p r hr

theorem ref_of_agree {w : World} {ref : Nat → Nat} (ha : refs_agree w ref) {p : Nat}
    {r : trace_region_def_t} (hr : w.region_at p = some r) : w.ref_of p = ref p := by
  simp [World.ref_of, hr, ha p r hr]

/-- The region stack and the records of one location along a run that returns. -/
theorem run_loc (ref : Nat → Nat) (self : Nat) :
    ∀ (ops : List Op) (w w2 : World) (st : stack_t),
      refs_agree w ref →
      (w.locs self).rgn_stack = some st →
      (∀ op ∈ ops, Op.push_ok self op = true) →
      run w ops = Result.ok w2 →
      ∃ st2, (w2.locs self).rgn_stack = some st2
        ∧ st2.head = opens self st.head ops
        ∧ w2.endpoints self = w.endpoints self ++ nested_trace ref self st.head ops
        ∧ well_nested (st.head.map ref) (nested_trace ref self st.head ops)
            = some (st2.head.map ref) := by
  intro ops
  induction ops with
  | nil =>
    intro w w2 st _ hs _ hrun
    simp only [run, Result.ok.injEq] at hrun
    subst hrun
    exact ⟨st, hs, rfl, by simp [nested_trace], by simp [nested_trace, well_nested]⟩
  | cons op ops ih =>
    intro w w2 st ha hs hmem hrun
    obtain ⟨w1, hstep, hrest⟩ := run_cons_ok hrun
    have ha1 := refs_agree_step hstep ha
    have hmem1 : ∀ op ∈ ops, Op.push_ok self op = true :=
      fun op hm => hmem op (List.mem_cons_of_mem _ hm)
    cases op with
    | enter l region mem =>
      have hend := enter_endpoints hstep self
      obtain ⟨r, hr, _, hfl, hst, _, _, _, _⟩ := enter_ok hstep
      by_cases hl : l = self
      · subst hl
        have hm : mem.rgn_node = true := by
          simpa [Op.push_ok] using hmem _ (List.mem_cons_self _ _)
        rw [hs, hm] at hst
        simp only [stack_push, if_true] at hst
        obtain ⟨st2, h2, hh2, he2, hn2⟩ := ih w1 w2 _ ha1 hst hmem1 hrest
        refine ⟨st2, h2, ?_, ?_, ?_⟩
        · simp only [opens, if_true]; exact hh2
        · rw [he2, hend, ref_of_agree ha hr]
          simp [nested_trace]
        · simp only [nested_trace, if_true, well_nested]
          simpa using hn2
      · have hs1 : (w1.locs self).rgn_stack = some st := by
          rw [hfl self (Ne.symm hl)]; exact hs
        obtain ⟨st2, h2, hh2, he2, hn2⟩ := ih w1 w2 st ha1 hs1 hmem1 hrest
        refine ⟨st2, h2, ?_, ?_, ?_⟩
        · simp only [opens, hl, if_false]; exact hh2
        · rw [he2, hend]
          simp [nested_trace, hl]
        · simp only [nested_trace, hl, if_false]
          exact hn2
    | leave l =>
      obtain ⟨st0, p0, rest0, hs0, hh0, hend⟩ := leave_endpoints hstep self
      obtain ⟨st', p, rest, r, hs', _, hh', hr, _, hfl, hst, _, _, _, _⟩ := leave_ok hstep
      rw [hs0] at hs'
      cases hs'
      rw [hh0] at hh'
      cases hh'
      by_cases hl : l = self
      · subst hl
        rw [hs] at hs0
        cases hs0
        obtain ⟨st2, h2, hh2, he2, hn2⟩ := ih w1 w2 _ ha1 hst hmem1 hrest
        refine ⟨st2, h2, ?_, ?_, ?_⟩
        · simp only [opens, if_true, hh0, List.tail_cons]; exact hh2
        · rw [he2, hend, ref_of_agree ha hr]
          simp [nested_trace, hh0]
        · simp only [nested_trace, if_true, well_nested, hh0, List.map_cons, List.headD_cons,
            List.tail_cons]
          simpa using hn2
      · have hs1 : (w1.locs self).rgn_stack = some st := by
          rw [hfl self (Ne.symm hl)]; exact hs
        obtain ⟨st2, h2, hh2, he2, hn2⟩ := ih w1 w2 st ha1 hs1 hmem1 hrest
        refine ⟨st2, h2, ?_, ?_, ?_⟩
        · simp only [opens, hl, if_false]; exact hh2
        · rw [he2, hend]
          simp [nested_trace, hl]
        · simp only [nested_trace, hl, if_false]
          exact hn2

/-- C1. On every location, along every sequence of `trace_event_enter` and
`trace_event_leave` calls that return (a leave on an empty region stack aborts), every
push on the region stack getting its node: the region stack holds exactly the regions
entered and not yet left, most recent on top, so each leave pops the region of the most
recent unmatched enter; the Enter and Leave records of the location are those of
`nested_trace`, each Leave carrying the ref of that region; the records are correctly
nested; and for a location that starts with an empty region stack they are balanced
exactly when the region stack is empty again. -/
theorem region_events_nested (w w2 : World) (self : Nat) (ops : List Op) (st : stack_t)
    (hstack : (w.locs self).rgn_stack = some st)
    (hmem : ∀ op ∈ ops, Op.push_ok self op = true)
    (hrun : run w ops = Result.ok w2) :
    ∃ st2, (w2.locs self).rgn_stack = some st2
      ∧ st2.head = opens self st.head ops
      ∧ w2.endpoints self = w.endpoints self ++ nested_trace w.ref_of self st.head ops
      ∧ well_nested (st.head.map w.ref_of) (nested_trace w.ref_of self st.head ops)
          = some (st2.head.map w.ref_of)
      ∧ (st.head = [] →
          (well_nested [] (nested_trace w.ref_of self [] ops) = some [] ↔ st2.head = st.head)) := by
  have ha : refs_agree w w.ref_of := by
    intro p r hr
    simp [World.ref_of, hr]
  obtain ⟨st2, h2, hh2, he2, hn2⟩ := run_loc w.ref_of self ops w w2 st ha hstack hmem hrun
  refine ⟨st2, h2, hh2, he2, hn2, ?_⟩
  intro h0
  rw [h0] at hn2
  simp only [List.map_nil] at hn2
  rw [hn2, h0]
  simp

/-- C1, at `demo_nested` on location 0 of `demo_world`: the records are Enter 10, Enter 11,
Leave 11, Leave 10. -/
theorem region_events_nested_witness :
    run demo_world demo_nested = Result.ok (Result.get demo_world (run demo_world demo_nested))
    ∧ (Result.get demo_world (run demo_world demo_nested)).endpoints 0
        = [Eff.Enter 0 10, Eff.Enter 0 11, Eff.Leave 0 11, Eff.Leave 0 10]
    ∧ ((Result.get demo_world (run demo_world demo_nested)).locs 0).rgn_stack
        = some { head := [], size := 0 } := by
  have hrun : run demo_world demo_nested
      = Result.ok (Result.get demo_world (run demo_world demo_nested)) := rfl
  obtain ⟨st2, h2, hh2, he2, -, -⟩ :=
    region_events_nested demo_world _ 0 demo_nested { head := [], size := 0 } rfl
      (by decide) hrun
  refine ⟨hrun, ?_, rfl⟩
  rw [he2]
  rfl

/-! ## The stack of suspended queues -/

theorem types_agree_step {w w1 : World} {op : Op} {ty : Nat → trace_region_type_t}
    (h : step w op = Result.ok w1) (ha : types_agree w ty) : types_agree w1 ty := by
  intro p r1 h1
  obtain ⟨r, hr, _, e, _⟩ := step_region_mono h h1
  rw [e]
  exact ha p r hr

theorem par_count_cons_par (ty : Nat → trace_region_type_t) {p : Nat} (ps : List Nat)
    (h : ty p = trace_region_parallel) : par_count ty (p :: ps) = par_count ty ps + 1 := by
  simp [par_count, h]

theorem par_count_cons_not (ty : Nat → trace_region_type_t) {p : Nat} (ps : List Nat)
    (h : ty p ≠ trace_region_parallel) : par_count ty (p :: ps) = par_count ty ps := by
  simp [par_count, h]

/-- The region stack, `rgn_defs_stack` and `rgn_defs` of one location along a run that
returns: above its initial nodes `base`, `rgn_defs_stack` holds one queue for each parallel
region on the region stack, and the oldest of these queues and `rgn_defs` is the queue
`rd0`. -/
theorem run_defs (ty : Nat → trace_region_type_t) (self : Nat) (base : List data_item_t)
    (rd0 : Nat) :
    ∀ (ops : List Op) (w w2 : World) (st ds : stack_t) (qs : List data_item_t),
      types_agree w ty →
      (w.locs self).rgn_stack = some st →
      (w.locs self).rgn_defs_stack = some ds →
      ds.head = qs ++ base →
      qs.length = par_count ty st.head →
      ((w.locs self).rgn_defs :: qs).getLast? = some rd0 →
      (∀ op ∈ ops, Op.push_ok self op = true) →
      (∀ op ∈ ops, Op.defs_ok self op = true) →
      run w ops = Result.ok w2 →
      ∃ st2 ds2 qs2, (w2.locs self).rgn_stack = some st2
        ∧ st2.head = opens self st.head ops
        ∧ (w2.locs self).rgn_defs_stack = some ds2
        ∧ ds2.head = qs2 ++ base
        ∧ qs2.length = par_count ty st2.head
        ∧ ((w2.locs self).rgn_defs :: qs2).getLast? = some rd0 := by
  intro ops
  induction ops with
  | nil =>
    intro w w2 st ds qs _ hs hd hq hl hc _ _ hrun
    simp only [run, Result.ok.injEq] at hrun
    subst hrun
    exact ⟨st, ds, qs, hs, rfl, hd, hq, hl, hc⟩
  | cons op ops ih =>
    intro w w2 st ds qs ha hs hd hq hl hc hmem hdef hrun
    obtain ⟨w1, hstep, hrest⟩ := run_cons_ok hrun
    have ha1 := types_agree_step hstep ha
    have hmem1 : ∀ op ∈ ops, Op.push_ok self op = true :=
      fun op hm => hmem op (List.mem_cons_of_mem _ hm)
    have hdef1 : ∀ op ∈ ops, Op.defs_ok self op = true :=
      fun op hm => hdef op (List.mem_cons_of_mem _ hm)
    cases op with
    | enter l region mem =>
      obtain ⟨r, hr, _, hfl, hst, _, _, hnp, hpar⟩ := enter_ok hstep
      by_cases hl' : l = self
      · subst hl'
        have hm : mem.rgn_node = true := by
          simpa [Op.push_ok] using hmem _ (List.mem_cons_self _ _)
        have hdm : mem.defs_node = true := by
          simpa [Op.defs_ok] using hdef _ (List.mem_cons_self _ _)
        rw [hs, hm] at hst
        simp only [stack_push, if_true] at hst
        have hty : ty region = r.type := (ha region r hr).symm
        by_cases hp : r.type = trace_region_parallel
        · obtain ⟨_, _, hrd, hrds⟩ := hpar hp
          rw [hd, hdm] at hrds
          simp only [stack_push, if_true] at hrds
          obtain ⟨st2, ds2, qs2, h2, hh2, hd2, hq2, hl2, hc2⟩ :=
            ih w1 w2 _ _ ((w.locs l).rgn_defs :: qs) ha1 hst hrds
              (by simp [hq])
              (by rw [par_count_cons_par ty _ (hty.trans hp), List.length_cons, hl])
              (by rw [hrd]; simpa using hc) hmem1 hdef1 hrest
          exact ⟨st2, ds2, qs2, h2, by simp only [opens, if_true]; exact hh2, hd2, hq2, hl2, hc2⟩
        · obtain ⟨_, _, hrd, hrds⟩ := hnp hp
          rw [hd] at hrds
          obtain ⟨st2, ds2, qs2, h2, hh2, hd2, hq2, hl2, hc2⟩ :=
            ih w1 w2 _ ds qs ha1 hst hrds hq
              (by rw [par_count_cons_not ty _ (by rw [hty]; exact hp)]; exact hl)
              (by rw [hrd]; exact hc) hmem1 hdef1 hrest
          exact ⟨st2, ds2, qs2, h2, by simp only [opens, if_true]; exact hh2, hd2, hq2, hl2, hc2⟩
      · have hloc := hfl self (Ne.symm hl')
        obtain ⟨st2, ds2, qs2, h2, hh2, hd2, hq2, hl2, hc2⟩ :=
          ih w1 w2 st ds qs ha1 (by rw [hloc]; exact hs) (by rw [hloc]; exact hd) hq hl
            (by rw [hloc]; exact hc) hmem1 hdef1 hrest
        exact ⟨st2, ds2, qs2, h2, by simp only [opens, hl', if_false]; exact hh2, hd2, hq2,
          hl2, hc2⟩
    | leave l =>
      obtain ⟨st', p, rest, r, hs', _, hh', hr, _, hfl, hst, _, _, hnp, hpar⟩ := leave_ok hstep
      by_cases hl' : l = self
      · subst hl'
        rw [hs] at hs'
        cases hs'
        have hty : ty p = r.type := (ha p r hr).symm
        by_cases hp : r.type = trace_region_parallel
        · obtain ⟨_, _, hrd, hrds⟩ := hpar hp
          have hlen : qs.length = par_count ty rest + 1 := by
            rw [hl, hh', par_count_cons_par ty _ (hty.trans hp)]
          cases qs with
          | nil => simp at hlen
          | cons q qs' =>
            have hdh : st.head = p :: rest := hh'
            have hds : ds.head = q :: (qs' ++ base) := by simpa using hq
            rw [hd, stack_pop_some_cons hds] at hrd hrds
            simp only [Option.map_some', Option.getD_some] at hrd hrds
            obtain ⟨st2, ds2, qs2, h2, hh2, hd2, hq2, hl2, hc2⟩ :=
              ih w1 w2 _ _ qs' ha1 hst hrds rfl
                (by simpa using hlen)
                (by rw [hrd]; simpa using hc) hmem1 hdef1 hrest
            exact ⟨st2, ds2, qs2, h2,
              by simp only [opens, if_true, hdh, List.tail_cons]; exact hh2, hd2, hq2, hl2, hc2⟩
        · obtain ⟨_, _, hrd, hrds⟩ := hnp hp
          rw [hd] at hrds
          obtain ⟨st2, ds2, qs2, h2, hh2, hd2, hq2, hl2, hc2⟩ :=
            ih w1 w2 _ ds qs ha1 hst hrds hq
              (by rw [hl, hh', par_count_cons_not ty _ (by rw [hty]; exact hp)])
              (by rw [hrd]; exact hc) hmem1 hdef1 hrest
          exact ⟨st2, ds2, qs2, h2,
            by simp only [opens, if_true, hh', List.tail_cons]; exact hh2, hd2, hq2, hl2, hc2⟩
      · have hloc := hfl self (Ne.symm hl')
        obtain ⟨st2, ds2, qs2, h2, hh2, hd2, hq2, hl2, hc2⟩ :=
          ih w1 w2 st ds qs ha1 (by rw [hloc]; exact hs) (by rw [hloc]; exact hd) hq hl
            (by rw [hloc]; exact hc) hmem1 hdef1 hrest
        exact ⟨st2, ds2, qs2, h2, by simp only [opens, hl', if_false]; exact hh2, hd2, hq2,
          hl2, hc2⟩

/-- An enter of a live parallel region returns, and what it does. -/
theorem enter_par_spec (w : World) (self region : Nat) (mem : enter_mem)
    (r : trace_region_def_t) (hr : w.region_at region = some r)
    (hp : r.type = trace_region_parallel) :
    ∃ w1, trace_event_enter w self region mem = Result.ok w1
      ∧ (∀ l, l ≠ self → w1.locs l = w.locs l)
      ∧ (w1.locs self).rgn_stack
          = (stack_push (w.locs self).rgn_stack region mem.rgn_node).2
      ∧ (∀ q, q ≠ region → w1.region_at q = w.region_at q)
      ∧ w1.region_at region = some { r with
              ref_count := (r.ref_count + 1) % UINT_MOD
              enter_count := (r.enter_count + 1) % UINT_MOD }
      ∧ w1.log = w.log ++ [Eff.lock region, Eff.Enter self r.ref, Eff.unlock region]
      ∧ (w1.locs self).rgn_defs = mem.queue
      ∧ (w1.locs self).rgn_defs_stack
          = (stack_push (w.locs self).rgn_defs_stack (w.locs self).rgn_defs
              mem.defs_node).2 := by
  have hu : r.type ≠ trace_region_unhandled := by rw [hp]; decide
  obtain ⟨w1, h1⟩ := enter_returns w self region mem r hr hu
  obtain ⟨r', hr', _, hfl, hst, _, hfr, _, hpar⟩ := enter_ok h1
  rw [hr] at hr'
  cases hr'
  obtain ⟨hreg, hlog, hrd, hrds⟩ := hpar hp
  have h0 := region_at_ne_zero hr
  refine ⟨w1, h1, hfl, hst, ?_, ?_, hlog, hrd, hrds⟩
  · intro q hq
    simp only [World.region_at, hfr q hq]
  · rw [region_at_eq h0]
    exact hreg

/-- A leave returns when the top of the region stack is a live parallel region, and what it
does. -/
theorem leave_par_spec (w : World) (self : Nat) (st : stack_t) (p : Nat)
    (rest : List data_item_t) (r : trace_region_def_t)
    (hs : (w.locs self).rgn_stack = some st) (hz : st.size ≠ 0) (hh : st.head = p :: rest)
    (hr : w.region_at p = some r) (hp : r.type = trace_region_parallel) :
    ∃ w1, trace_event_leave w self = Result.ok w1
      ∧ (∀ l, l ≠ self → w1.locs l = w.locs l)
      ∧ (w1.locs self).rgn_stack
          = some { head := rest, size := (st.size + SIZE_MOD - 1) % SIZE_MOD }
      ∧ (∀ q, q ≠ p → w1.region_at q = w.region_at q)
      ∧ w1.region_at p
          = (if dec_uint r.ref_count = 0 then none
             else some { r with ref_count := dec_uint r.ref_count })
      ∧ w1.log = w.log ++ [Eff.lock p, Eff.Leave self r.ref, Eff.unlock p]
          ++ (if dec_uint r.ref_count = 0
              then [Eff.destroy p { r with ref_count := dec_uint r.ref_count }]
              else [])
      ∧ (w1.locs self).rgn_defs
          = (stack_pop (w.locs self).rgn_defs_stack (some 0)).2.2.getD 0
      ∧ (w1.locs self).rgn_defs_stack
          = (stack_pop (w.locs self).rgn_defs_stack (some 0)).2.1 := by
  have hu : r.type ≠ trace_region_unhandled := by rw [hp]; decide
  obtain ⟨w1, h1⟩ := leave_returns w self st p rest r hs hz hh hr hu
  obtain ⟨st', p', rest', r', hs', _, hh', hr', _, hfl, hst, _, hfr, _, hpar⟩ := leave_ok h1
  rw [hs] at hs'
  cases hs'
  rw [hh] at hh'
  cases hh'
  rw [hr] at hr'
  cases hr'
  obtain ⟨hreg, hlog, hrd, hrds⟩ := hpar hp
  have h0 := region_at_ne_zero hr
  refine ⟨w1, h1, hfl, hst, ?_, ?_, hlog, hrd, hrds⟩
  · intro q hq
    simp only [World.region_at, hfr q hq]
  · rw [region_at_eq h0]
    exact hreg

theorem enter_par_queue {w w1 : World} {self region : Nat} {mem : enter_mem}
    {r : trace_region_def_t} (h : trace_event_enter w self region mem = Result.ok w1)
    (hr : w.region_at region = some r) (hp : r.type = trace_region_parallel)
    (hq : mem.queue ≠ 0) : w1.queue_at mem.queue = some [] := by
  unfold trace_event_enter at h
  have hu : ¬ r.type = trace_region_unhandled := by rw [hp]; decide
  simp only [hr, hu, if_false] at h
  simp only [hp, if_true, Result.ok.injEq] at h
  subst h
  simp [World.queue_at, hq, World.set_loc, World.emit, World.set_region, queue_create]

theorem dec_uint_one : dec_uint ((0 + 1) % UINT_MOD) = 0 := by
  simp [dec_uint, UINT_MOD]

/-- Outer enter, inner enter, inner leave, outer leave on a new location. -/
theorem nested_parallel_run (w : World) (self O I : Nat) (rO rI : trace_region_def_t)
    (m1 m2 : enter_mem)
    (hs : (w.locs self).rgn_stack = some { head := [], size := 0 })
    (hd : (w.locs self).rgn_defs_stack = some { head := [], size := 0 })
    (hO : w.region_at O = some rO) (hOp : rO.type = trace_region_parallel)
    (hOc : rO.ref_count = 0)
    (hI : w.region_at I = some rI) (hIp : rI.type = trace_region_parallel)
    (hIc : rI.ref_count = 0) (hne : O ≠ I)
    (hm1 : m1.defs_node = true ∧ m1.rgn_node = true)
    (hm2 : m2.defs_node = true ∧ m2.rgn_node = true) :
    ∃ w1 w2 w3 w4,
      trace_event_enter w self O m1 = Result.ok w1
      ∧ trace_event_enter w1 self I m2 = Result.ok w2
      ∧ trace_event_leave w2 self = Result.ok w3
      ∧ trace_event_leave w3 self = Result.ok w4
      ∧ (w1.locs self).rgn_defs_stack
          = some { head := [(w.locs self).rgn_defs], size := 1 }
      ∧ (w2.locs self).rgn_defs_stack
          = some { head := [m1.queue, (w.locs self).rgn_defs], size := 2 }
      ∧ (w3.locs self).rgn_defs_stack
          = some { head := [(w.locs self).rgn_defs], size := 1 }
      ∧ (w4.locs self).rgn_defs_stack = some { head := [], size := 0 }
      ∧ (w1.locs self).rgn_defs = m1.queue
      ∧ (w2.locs self).rgn_defs = m2.queue
      ∧ (w3.locs self).rgn_defs = m1.queue
      ∧ (w4.locs self).rgn_defs = (w.locs self).rgn_defs
      ∧ w3.region_at I = none
      ∧ w3.region_at O = some { rO with
            ref_count := 1, enter_count := (rO.enter_count + 1) % UINT_MOD }
      ∧ w4.region_at O = none
      ∧ w4.log = w.log ++
          [Eff.lock O, Eff.Enter self rO.ref, Eff.unlock O,
           Eff.lock I, Eff.Enter self rI.ref, Eff.unlock I,
           Eff.lock I, Eff.Leave self rI.ref, Eff.unlock I,
           Eff.destroy I { rI with
             ref_count := 0, enter_count := (rI.enter_count + 1) % UINT_MOD },
           Eff.lock O, Eff.Leave self rO.ref, Eff.unlock O,
           Eff.destroy O { rO with
             ref_count := 0, enter_count := (rO.enter_count + 1) % UINT_MOD }] := by
  obtain ⟨w1, h1, -, hst1, hfr1, hreg1, hlog1, hrd1, hrds1⟩ :=
    enter_par_spec w self O m1 rO hO hOp
  rw [hs, hm1.2] at hst1
  rw [hd, hm1.1] at hrds1
  simp only [stack_push, if_true, Nat.zero_add] at hst1 hrds1
  have hI1 : w1.region_at I = some rI := by rw [hfr1 I (Ne.symm hne)]; exact hI
  obtain ⟨w2, h2, -, hst2, hfr2, hreg2, hlog2, hrd2, hrds2⟩ :=
    enter_par_spec w1 self I m2 rI hI1 hIp
  rw [hst1, hm2.2] at hst2
  rw [hrds1, hm2.1, hrd1] at hrds2
  simp only [stack_push, if_true] at hst2 hrds2
  have hsz1 : (1 : Nat) % SIZE_MOD = 1 := by simp [SIZE_MOD]
  have hsz2 : (1 + 1 : Nat) % SIZE_MOD = 2 := by simp [SIZE_MOD]
  have hszd2 : (2 + SIZE_MOD - 1) % SIZE_MOD = 1 := by simp [SIZE_MOD]
  have hszd1 : (1 + SIZE_MOD - 1) % SIZE_MOD = 0 := by simp [SIZE_MOD]
  rw [hsz1, hsz2] at hst2 hrds2
  rw [hsz1] at hst1 hrds1
  obtain ⟨w3, h3, -, hst3, hfr3, hreg3, hlog3, hrd3, hrds3⟩ :=
    leave_par_spec w2 self _ I [O] _ hst2 (by simp) rfl hreg2 hIp
  rw [hIc] at hreg3 hlog3
  simp only [dec_uint_one, if_true] at hreg3 hlog3
  rw [hrds2, stack_pop_some_cons rfl] at hrd3 hrds3
  simp only [Option.map_some', Option.getD_some, hszd2] at hrd3 hrds3 hst3
  have hO2 : w2.region_at O = some { rO with
      ref_count := (rO.ref_count + 1) % UINT_MOD
      enter_count := (rO.enter_count + 1) % UINT_MOD } := by
    rw [hfr2 O hne]; exact hreg1
  have hO3 := (hfr3 O hne).trans hO2
  obtain ⟨w4, h4, -, hst4, -, hreg4, hlog4, hrd4, hrds4⟩ :=
    leave_par_spec w3 self _ O [] _ hst3 (by simp) rfl hO3 hOp
  rw [hOc] at hreg4 hlog4 hO3
  simp only [dec_uint_one, if_true] at hreg4 hlog4
  rw [hrds3, stack_pop_some_cons rfl] at hrd4 hrds4
  simp only [Option.map_some', Option.getD_some, hszd1] at hrd4 hrds4
  have hone : (0 + 1) % UINT_MOD = 1 := by simp [UINT_MOD]
  refine ⟨w1, w2, w3, w4, h1, h2, h3, h4, hrds1, hrds2, hrds3, hrds4, hrd1, hrd2, hrd3, hrd4,
    hreg3, ?_, hreg4, ?_⟩
  · rw [hO3, hone]
  · rw [hlog4, hlog3, hlog2, hlog1]
    simp [dec_uint_one]

/-- C8. On one location that starts with an empty region stack, along every sequence of
calls that return (the pushes getting their nodes), `rgn_defs_stack` has as many nodes more
than at the start as there are parallel regions entered and not yet left, and when there is
none `rgn_defs` is the queue of the start; a parallel enter pushes the current `rgn_defs`
and installs the queue `queue_create()` returned, which is empty; a parallel leave pops the
stacked queue into `rgn_defs`.  For outer enter, inner enter, inner leave, outer leave on a
new location, with nobody else in the two regions: all four calls return, the depth is 1
between the two enters and 0 after both leaves, `rgn_defs` is again the queue of the start,
and the inner region is destroyed (by the inner leave, at `ref_count` 0) while the outer one
is still live, the outer one by the outer leave. -/
theorem rgn_defs_stack_tracks_parallel :
    (∀ (w w2 : World) (self : Nat) (ops : List Op) (st ds : stack_t),
        (w.locs self).rgn_stack = some st → st.head = [] →
        (w.locs self).rgn_defs_stack = some ds →
        (∀ op ∈ ops, Op.push_ok self op = true) →
        (∀ op ∈ ops, Op.defs_ok self op = true) →
        run w ops = Result.ok w2 →
        depth (w2.locs self).rgn_defs_stack
            = depth (w.locs self).rgn_defs_stack + par_count w.type_of (opens self [] ops)
        ∧ (par_count w.type_of (opens self [] ops) = 0 →
            (w2.locs self).rgn_defs = (w.locs self).rgn_defs))
    ∧ (∀ (w w1 : World) (self region : Nat) (mem : enter_mem) (r : trace_region_def_t),
        trace_event_enter w self region mem = Result.ok w1 →
        w.region_at region = some r → r.type = trace_region_parallel →
        (w1.locs self).rgn_defs_stack
            = (stack_push (w.locs self).rgn_defs_stack (w.locs self).rgn_defs
                mem.defs_node).2
        ∧ (w1.locs self).rgn_defs = mem.queue
        ∧ (mem.queue ≠ 0 → w1.queue_at mem.queue = some []))
    ∧ (∀ (w w1 : World) (self : Nat) (st : stack_t) (p : Nat) (rest : List data_item_t)
        (r : trace_region_def_t),
        trace_event_leave w self = Result.ok w1 →
        (w.locs self).rgn_stack = some st → st.head = p :: rest →
        w.region_at p = some r → r.type = trace_region_parallel →
        (w1.locs self).rgn_defs_stack
            = (stack_pop (w.locs self).rgn_defs_stack (some 0)).2.1
        ∧ (w1.locs self).rgn_defs
            = (stack_pop (w.locs self).rgn_defs_stack (some 0)).2.2.getD 0)
    ∧ (∀ (w : World) (self O I : Nat) (rO rI : trace_region_def_t) (m1 m2 : enter_mem),
        (w.locs self).rgn_stack = some { head := [], size := 0 } →
        (w.locs self).rgn_defs_stack = some { head := [], size := 0 } →
        w.region_at O = some rO → rO.type = trace_region_parallel → rO.ref_count = 0 →
        w.region_at I = some rI → rI.type = trace_region_parallel → rI.ref_count = 0 →
        O ≠ I →
        m1.defs_node = true ∧ m1.rgn_node = true →
        m2.defs_node = true ∧ m2.rgn_node = true →
        ∃ w1 w2 w3 w4,
          trace_event_enter w self O m1 = Result.ok w1
          ∧ trace_event_enter w1 self I m2 = Result.ok w2
          ∧ trace_event_leave w2 self = Result.ok w3
          ∧ trace_event_leave w3 self = Result.ok w4
          ∧ (w1.locs self).rgn_defs_stack
              = some { head := [(w.locs self).rgn_defs], size := 1 }
          ∧ (w2.locs self).rgn_defs_stack
              = some { head := [m1.queue, (w.locs self).rgn_defs], size := 2 }
          ∧ (w3.locs self).rgn_defs_stack
              = some { head := [(w.locs self).rgn_defs], size := 1 }
          ∧ (w4.locs self).rgn_defs_stack = some { head := [], size := 0 }
          ∧ (w4.locs self).rgn_defs = (w.locs self).rgn_defs
          ∧ w3.region_at I = none
          ∧ w3.region_at O = some { rO with
                ref_count := 1, enter_count := (rO.enter_count + 1) % UINT_MOD }
          ∧ w4.region_at O = none
          ∧ destroyed (w4.log.drop w.log.length)
              = [(I, { rI with
                    ref_count := 0, enter_count := (rI.enter_count + 1) % UINT_MOD }),
                 (O, { rO with
                    ref_count := 0, enter_count := (rO.enter_count + 1) % UINT_MOD })]) := by
  refine ⟨?_, ?_, ?_, ?_⟩
  · intro w w2 self ops st ds hs hh hd hmem hdef hrun
    have ha : types_agree w w.type_of := by
      intro p r hr
      simp [World.type_of, hr]
    obtain ⟨st2, ds2, qs2, _, hh2, hd2, hq2, hl2, hc2⟩ :=
      run_defs w.type_of self ds.head (w.locs self).rgn_defs ops w w2 st ds [] ha hs hd
        (by simp) (by simp [hh, par_count]) (by simp) hmem hdef hrun
    rw [hh] at hh2
    rw [hh2] at hl2
    refine ⟨?_, ?_⟩
    · rw [hd2, hd]
      simp only [depth, hq2, List.length_append, hl2]
      omega
    · intro h0
      rw [h0] at hl2
      have : qs2 = [] := List.length_eq_zero.mp hl2
      subst this
      simpa using hc2
  · intro w w1 self region mem r h hr hp
    obtain ⟨r', hr', _, _, _, _, _, _, hpar⟩ := enter_ok h
    rw [hr] at hr'
    cases hr'
    obtain ⟨_, _, hrd, hrds⟩ := hpar hp
    exact ⟨hrds, hrd, enter_par_queue h hr hp⟩
  · intro w w1 self st p rest r h hs hh hr hp
    obtain ⟨st', p', rest', r', hs', _, hh', hr', _, _, _, _, _, _, hpar⟩ := leave_ok h
    rw [hs] at hs'
    cases hs'
    rw [hh] at hh'
    cases hh'
    rw [hr] at hr'
    cases hr'
    obtain ⟨_, _, hrd, hrds⟩ := hpar hp
    exact ⟨hrds, hrd⟩
  · intro w self O I rO rI m1 m2 hs hd hO hOp hOc hI hIp hIc hne hm1 hm2
    obtain ⟨w1, w2, w3, w4, h1, h2, h3, h4, d1, d2, d3, d4, _, _, _, r4, g3, g3', g4, hlog⟩ :=
      nested_parallel_run w self O I rO rI m1 m2 hs hd hO hOp hOc hI hIp hIc hne hm1 hm2
    refine ⟨w1, w2, w3, w4, h1, h2, h3, h4, d1, d2, d3, d4, r4, g3, g3', g4, ?_⟩
    rw [hlog, List.drop_left]
    rfl

/-- C8, on location 0 of `demo_world` with the parallel regions at 1 (outer) and 3 (inner):
the depth after the four calls, and the scenario. -/
theorem rgn_defs_stack_tracks_parallel_witness :
    run demo_world demo_nested_parallel
        = Result.ok (Result.get demo_world (run demo_world demo_nested_parallel))
    ∧ depth ((Result.get demo_world (run demo_world demo_nested_parallel)).locs 0).rgn_defs_stack
        = depth (demo_world.locs 0).rgn_defs_stack
          + par_count demo_world.type_of (opens 0 [] demo_nested_parallel)
    ∧ ∃ w1 w2 w3 w4,
        trace_event_enter demo_world 0 1 (mem_ok 200) = Result.ok w1
        ∧ trace_event_enter w1 0 3 (mem_ok 201) = Result.ok w2
        ∧ trace_event_leave w2 0 = Result.ok w3
        ∧ trace_event_leave w3 0 = Result.ok w4
        ∧ (w1.locs 0).rgn_defs_stack = some { head := [100], size := 1 }
        ∧ (w4.locs 0).rgn_defs_stack = some { head := [], size := 0 }
        ∧ (w4.locs 0).rgn_defs = 100
        ∧ w3.region_at 3 = none
        ∧ w4.region_at 1 = none := by
  have hrun : run demo_world demo_nested_parallel
      = Result.ok (Result.get demo_world (run demo_world demo_nested_parallel)) := rfl
  refine ⟨hrun, ?_, ?_⟩
  · exact (rgn_defs_stack_tracks_parallel.1 demo_world _ 0 demo_nested_parallel
      { head := [], size := 0 } { head := [], size := 0 } rfl rfl rfl (by decide) (by decide)
      hrun).1
  · obtain ⟨w1, w2, w3, w4, h1, h2, h3, h4, d1, _, _, d4, r4, g3, _, g4, _⟩ :=
      rgn_defs_stack_tracks_parallel.2.2.2 demo_world 0 1 3
        (new_region 10 trace_region_parallel 101) (new_region 12 trace_region_parallel 103)
        (mem_ok 200) (mem_ok 201) rfl rfl rfl rfl rfl rfl rfl rfl (by decide)
        ⟨rfl, rfl⟩ ⟨rfl, rfl⟩
    exact ⟨w1, w2, w3, w4, h1, h2, h3, h4, d1, d4, r4, g3, g4⟩

/-! ## The counters of a parallel region -/

theorem dec_uint_pos {n : Nat} (h1 : 0 < n) (h2 : n < UINT_MOD) : dec_uint n = n - 1 := by
  unfold dec_uint UINT_MOD at *
  omega

theorem dec_uint_zero_iff {n : Nat} (h2 : n < UINT_MOD) : dec_uint n = 0 ↔ n = 1 := by
  unfold dec_uint UINT_MOD at *
  omega

/-- Once the region is freed no further enter or matched leave of it returns. -/
theorem dead_end {p : Nat} {w w2 : World} {ops : List Op} (hd : w.region_at p = none)
    (hops : ∀ op ∈ ops, Op.on_region p op = true ∧ Op.node_ok op = true)
    (hm : matched [] ops = true) (hrun : run w ops = Result.ok w2) : ops = [] := by
  cases ops with
  | nil => rfl
  | cons op ops =>
    obtain ⟨w1, hstep, _⟩ := run_cons_ok hrun
    cases op with
    | enter l q m =>
      have hq : q = p := by
        simpa [Op.on_region] using (hops _ (List.mem_cons_self _ _)).1
      subst hq
      simp [step, trace_event_enter, hd] at hstep
    | leave l =>
      simp [matched] at hm

theorem run_nil_ok {w w2 : World} (h : run w [] = Result.ok w2) : w2 = w := by
  simp only [run, Result.ok.injEq] at h
  exact h.symm

theorem stacks_hold_enter {w w1 : World} {p l : Nat} {inside : List Nat} {mem : enter_mem}
    (hm : mem.rgn_node = true)
    (hfl : ∀ l', l' ≠ l → w1.locs l' = w.locs l')
    (hst : (w1.locs l).rgn_stack = (stack_push (w.locs l).rgn_stack p mem.rgn_node).2)
    (h : stacks_hold w p inside) : stacks_hold w1 p (l :: inside) := by
  intro l' st' hs'
  by_cases hl : l' = l
  · subst hl
    rw [hst, hm] at hs'
    cases hs0 : (w.locs l').rgn_stack with
    | none => simp [hs0, stack_push] at hs'
    | some st0 =>
      obtain ⟨base, hb⟩ := h l' st0 hs0
      simp only [hs0, stack_push, if_true, Option.some.injEq] at hs'
      subst hs'
      exact ⟨base, by simp [hb, List.replicate_succ]⟩
  · rw [hfl l' hl] at hs'
    obtain ⟨base, hb⟩ := h l' st' hs'
    exact ⟨base, by rw [hb, List.count_cons_of_ne hl]⟩

theorem stacks_hold_leave {w w1 : World} {p l : Nat} {inside : List Nat} {st : stack_t}
    {rest : List data_item_t} {sz : Nat}
    (hin : l ∈ inside)
    (hfl : ∀ l', l' ≠ l → w1.locs l' = w.locs l')
    (hs : (w.locs l).rgn_stack = some st) (hh : st.head = p :: rest)
    (hst : (w1.locs l).rgn_stack = some { head := rest, size := sz })
    (h : stacks_hold w p inside) : stacks_hold w1 p (inside.erase l) := by
  intro l' st' hs'
  by_cases hl : l' = l
  · subst hl
    rw [hst] at hs'
    cases hs'
    obtain ⟨base, hb⟩ := h l' st hs
    have hc : 0 < inside.count l' := List.count_pos_iff.mpr hin
    obtain ⟨n, hn⟩ : ∃ n, inside.count l' = n + 1 := ⟨inside.count l' - 1, by omega⟩
    rw [hn, List.replicate_succ, hh] at hb
    simp only [List.cons_append, List.cons.injEq, true_and] at hb
    refine ⟨base, ?_⟩
    rw [List.count_erase_self, hn]
    simpa using hb
  · rw [hfl l' hl] at hs'
    obtain ⟨base, hb⟩ := h l' st' hs'
    exact ⟨base, by rw [hb, List.count_erase_of_ne hl]⟩

theorem stacks_hold_top {w : World} {p q l : Nat} {inside : List Nat} {st : stack_t}
    {rest : List data_item_t} (hin : l ∈ inside) (hs : (w.locs l).rgn_stack = some st)
    (hh : st.head = q :: rest) (h : stacks_hold w p inside) : q = p := by
  obtain ⟨base, hb⟩ := h l st hs
  have hc : 0 < inside.count l := List.count_pos_iff.mpr hin
  obtain ⟨n, hn⟩ : ∃ n, inside.count l = n + 1 := ⟨inside.count l - 1, by omega⟩
  rw [hn, List.replicate_succ, hh] at hb
  simp only [List.cons_append, List.cons.injEq] at hb
  exact hb.1

theorem count_enter_block (ref l q : Nat) :
    List.countP (Eff.is_enter_of ref) [Eff.lock q, Eff.Enter l ref, Eff.unlock q] = 1 := by
  simp [List.countP_cons, Eff.is_enter_of]

theorem count_enter_block_leave (ref l q : Nat) (tl : List Eff)
    (h : ∀ e ∈ tl, ∃ p r, e = Eff.destroy p r) :
    List.countP (Eff.is_enter_of ref) ([Eff.lock q, Eff.Leave l ref, Eff.unlock q] ++ tl)
      = 0 := by
  rw [List.countP_eq_zero]
  intro e he
  simp only [List.cons_append, List.nil_append, List.mem_cons] at he
  rcases he with rfl | rfl | rfl | he
  · simp [Eff.is_enter_of]
  · simp [Eff.is_enter_of]
  · simp [Eff.is_enter_of]
  · obtain ⟨p, r, rfl⟩ := h e he
    simp [Eff.is_enter_of]

theorem count_leave_block (ref l q : Nat) :
    List.countP (Eff.is_leave_of ref) [Eff.lock q, Eff.Enter l ref, Eff.unlock q] = 0 := by
  simp [List.countP_cons, Eff.is_leave_of]

theorem count_leave_block_leave (ref l q : Nat) :
    List.countP (Eff.is_leave_of ref) [Eff.lock q, Eff.Leave l ref, Eff.unlock q] = 1 := by
  simp [List.countP_cons, Eff.is_leave_of]

theorem destroyed_append (a b : List Eff) : destroyed (a ++ b) = destroyed a ++ destroyed b := by
  simp [destroyed, List.filterMap_append]

theorem destroyed_enter_block (ref l q : Nat) :
    destroyed [Eff.lock q, Eff.Enter l ref, Eff.unlock q] = [] := by
  simp [destroyed, Eff.destroyed_region]

theorem destroyed_leave_block (ref l q : Nat) :
    destroyed [Eff.lock q, Eff.Leave l ref, Eff.unlock q] = [] := by
  simp [destroyed, Eff.destroyed_region]

/-- The counters of the parallel region at `p`, the records with its ref and its
destruction along a run of enters and matched leaves of it that returns. -/
theorem run_counts (p : Nat) :
    ∀ (ops : List Op) (w w2 : World) (inside : List Nat) (r : trace_region_def_t),
      w.region_at p = some r → r.type = trace_region_parallel →
      r.ref_count = inside.length →
      inside.length + enters ops < UINT_MOD →
      r.enter_count + enters ops < UINT_MOD →
      stacks_hold w p inside →
      (∀ op ∈ ops, Op.on_region p op = true ∧ Op.node_ok op = true) →
      matched inside ops = true →
      run w ops = Result.ok w2 →
      ∃ new, w2.log = w.log ++ new
        ∧ leaves ops ≤ inside.length + enters ops
        ∧ new.countP (Eff.is_enter_of r.ref) = enters ops
        ∧ new.countP (Eff.is_leave_of r.ref) = leaves ops
        ∧ (∀ r2, w2.region_at p = some r2 →
            r2 = { r with
                   ref_count := inside.length + enters ops - leaves ops
                   enter_count := r.enter_count + enters ops }
            ∧ destroyed new = []
            ∧ (ops ≠ [] → leaves ops < inside.length + enters ops))
        ∧ (w2.region_at p = none →
            inside.length + enters ops = leaves ops
            ∧ destroyed new
                = [(p, { r with ref_count := 0, enter_count := r.enter_count + enters ops })]) := by
  intro ops
  induction ops with
  | nil =>
    intro w w2 inside r hr _ hrc _ _ _ _ _ hrun
    have := run_nil_ok hrun
    subst this
    refine ⟨[], by simp, by simp [leaves], by simp [enters], by simp [leaves], ?_, ?_⟩
    · intro r2 h2
      rw [hr] at h2
      cases h2
      refine ⟨?_, rfl, fun h => absurd rfl h⟩
      cases r
      simp only [enters, leaves] at *
      simp [hrc]
    · intro h2
      rw [hr] at h2
      cases h2
  | cons op ops ih =>
    intro w w2 inside r hr hp hrc hb1 hb2 hsh hops hm hrun
    obtain ⟨w1, hstep, hrest⟩ := run_cons_ok hrun
    have hops1 : ∀ op ∈ ops, Op.on_region p op = true ∧ Op.node_ok op = true :=
      fun op h => hops op (List.mem_cons_of_mem _ h)
    cases op with
    | enter l q m =>
      have hq : q = p := by
        simpa [Op.on_region] using (hops _ (List.mem_cons_self _ _)).1
      subst hq
      have hnode : m.rgn_node = true := by
        simpa [Op.node_ok] using (hops _ (List.mem_cons_self _ _)).2
      have hE : enters (Op.enter l q m :: ops) = enters ops + 1 := rfl
      have hL : leaves (Op.enter l q m :: ops) = leaves ops := rfl
      rw [hE] at hb1 hb2
      obtain ⟨w1', h1', hfl, hst, _, hreg, hlog, _, _⟩ := enter_par_spec w l q m r hr hp
      have : w1' = w1 := by
        have := h1'.symm.trans hstep
        simpa using this
      subst this
      have e1 : (r.ref_count + 1) % UINT_MOD = inside.length + 1 := by
        rw [hrc]; exact Nat.mod_eq_of_lt (by omega)
      have e2 : (r.enter_count + 1) % UINT_MOD = r.enter_count + 1 :=
        Nat.mod_eq_of_lt (by omega)
      rw [e1, e2] at hreg
      have hm1 : matched (l :: inside) ops = true := hm
      obtain ⟨new, hnew, hle, hce, hcl, halive, hdead⟩ :=
        ih w1' w2 (l :: inside) _ hreg hp rfl
          (by rw [List.length_cons]; omega) (by show r.enter_count + 1 + enters ops < _; omega)
          (stacks_hold_enter hnode hfl hst hsh) hops1 hm1 hrest
      rw [List.length_cons] at hle halive hdead
      dsimp only at hce hcl halive hdead
      refine ⟨[Eff.lock q, Eff.Enter l r.ref, Eff.unlock q] ++ new, ?_, ?_, ?_, ?_, ?_, ?_⟩
      · rw [hnew, hlog, List.append_assoc]
      · rw [hE, hL]; omega
      · rw [hE, List.countP_append, hce, count_enter_block]; omega
      · rw [hL, List.countP_append, hcl, count_leave_block]; omega
      · intro r2 h2
        obtain ⟨e, hd, hpos'⟩ := halive r2 h2
        refine ⟨?_, ?_, ?_⟩
        · rw [e, hE, hL]
          have a1 : inside.length + 1 + enters ops - leaves ops
              = inside.length + (enters ops + 1) - leaves ops := by omega
          have a2 : r.enter_count + 1 + enters ops = r.enter_count + (enters ops + 1) := by
            omega
          rw [a1, a2]
        · rw [destroyed_append, destroyed_enter_block, hd]; rfl
        · intro _
          rw [hE, hL]
          by_cases ho : ops = []
          · subst ho
            show 0 < _
            omega
          · have := hpos' ho
            omega
      · intro h2
        obtain ⟨e, hd⟩ := hdead h2
        refine ⟨?_, ?_⟩
        · rw [hE, hL]; omega
        · rw [destroyed_append, destroyed_enter_block, hd, hE]
          have a2 : r.enter_count + 1 + enters ops = r.enter_count + (enters ops + 1) := by
            omega
          rw [a2]; rfl
    | leave l =>
      simp only [matched, Bool.and_eq_true, decide_eq_true_eq] at hm
      obtain ⟨hin, hm1⟩ := hm
      have hE : enters (Op.leave l :: ops) = enters ops := rfl
      have hL : leaves (Op.leave l :: ops) = leaves ops + 1 := rfl
      rw [hE] at hb1 hb2
      have hpos : 0 < inside.length := List.length_pos_of_mem hin
      obtain ⟨st, q, rest, r', hs, _, hh, hr', _, hfl, hst, _, _, _, hpar⟩ := leave_ok hstep
      have hq : q = p := stacks_hold_top hin hs hh hsh
      subst hq
      rw [hr] at hr'
      cases hr'
      obtain ⟨hreg, hlog, _, _⟩ := hpar hp
      have h0 := region_at_ne_zero hr
      rw [← region_at_eq h0] at hreg
      have hsh1 := stacks_hold_leave hin hfl hs hh hst hsh
      have hlt : r.ref_count < UINT_MOD := by omega
      have hlen : (inside.erase l).length = inside.length - 1 :=
        List.length_erase_of_mem hin
      by_cases hz : dec_uint r.ref_count = 0
      · simp only [hz, if_true] at hreg hlog
        have hone : inside.length = 1 := by
          have := (dec_uint_zero_iff hlt).mp hz
          omega
        have hnil : inside.erase l = [] := by
          apply List.length_eq_zero.mp
          rw [hlen, hone]
        rw [hnil] at hm1
        have hops0 := dead_end hreg hops1 hm1 hrest
        subst hops0
        have := run_nil_ok hrest
        subst this
        refine ⟨[Eff.lock q, Eff.Leave l r.ref, Eff.unlock q]
          ++ [Eff.destroy q { r with ref_count := 0 }],
          by rw [hlog, List.append_assoc], ?_, ?_, ?_, ?_, ?_⟩
        · rw [hE, hL, hone]; rfl
        · rw [hE]
          exact count_enter_block_leave _ _ _ _ (by
            intro e he
            simp only [List.mem_singleton] at he
            exact ⟨_, _, he⟩)
        · rw [hL, List.countP_append, count_leave_block_leave]
          simp [Eff.is_leave_of, leaves]
        · intro r2 h2
          rw [hreg] at h2
          cases h2
        · intro _
          refine ⟨by rw [hE, hL, hone]; rfl, ?_⟩
          rw [destroyed_append, destroyed_leave_block, hE]
          simp [destroyed, Eff.destroyed_region, enters]
      · simp only [hz, if_false, List.append_nil] at hreg hlog
        have hdec : dec_uint r.ref_count = inside.length - 1 := by
          rw [dec_uint_pos (by omega) hlt, hrc]
        rw [hdec] at hreg
        obtain ⟨new, hnew, hle, hce, hcl, halive, hdead⟩ :=
          ih w1 w2 (inside.erase l) _ hreg hp hlen.symm (by rw [hlen]; omega)
            hb2 hsh1 hops1 hm1 hrest
        rw [hlen] at hle halive hdead
        dsimp only at hce hcl halive hdead
        refine ⟨[Eff.lock q, Eff.Leave l r.ref, Eff.unlock q] ++ new, ?_, ?_, ?_, ?_, ?_, ?_⟩
        · rw [hnew, hlog, List.append_assoc]
        · rw [hE, hL]; omega
        · rw [hE, List.countP_append, hce]
          have := count_enter_block_leave r.ref l q [] (by simp)
          rw [List.append_nil] at this
          rw [this]; omega
        · rw [hL, List.countP_append, hcl, count_leave_block_leave]; omega
        · intro r2 h2
          obtain ⟨e, hd, hpos'⟩ := halive r2 h2
          refine ⟨?_, ?_, ?_⟩
          · rw [e, hE, hL]
            have a1 : inside.length - 1 + enters ops - leaves ops
                = inside.length + enters ops - (leaves ops + 1) := by omega
            rw [a1]
          · rw [destroyed_append, destroyed_leave_block, hd]; rfl
          · intro _
            rw [hE, hL]
            have hne1 : inside.length ≠ 1 := by
              intro h1'
              apply hz
              rw [hdec, h1']
            by_cases ho : ops = []
            · subst ho
              show 0 + 1 < inside.length + 0
              omega
            · have := hpos' ho
              omega
        · intro h2
          obtain ⟨e, hd⟩ := hdead h2
          refine ⟨?_, ?_⟩
          · rw [hE, hL]; omega
          · rw [destroyed_append, destroyed_leave_block, hd, hE]; rfl

theorem enters_append (a b : List Op) : enters (a ++ b) = enters a + enters b := by
  induction a with
  | nil => simp [enters]
  | cons op a ih =>
    cases op with
    | enter l q m =>
      show enters (a ++ b) + 1 = enters a + 1 + enters b
      omega
    | leave l => exact ih

theorem leaves_append (a b : List Op) : leaves (a ++ b) = leaves a + leaves b := by
  induction a with
  | nil => simp [leaves]
  | cons op a ih =>
    cases op with
    | enter l q m => exact ih
    | leave l =>
      show leaves (a ++ b) + 1 = leaves a + 1 + leaves b
      omega

theorem matched_init (a b : List Op) :
    ∀ inside, matched inside (a ++ b) = true → matched inside a = true := by
  induction a with
  | nil => intro _ _; rfl
  | cons op a ih =>
    intro inside h
    cases op with
    | enter l q m => exact ih _ h
    | leave l =>
      simp only [List.cons_append, matched, Bool.and_eq_true, decide_eq_true_eq] at h ⊢
      exact ⟨h.1, ih _ h.2⟩

theorem stacks_hold_nil (w : World) (p : Nat) : stacks_hold w p [] := by
  intro l st _
  exact ⟨st.head, by simp⟩

/-- C2. For a parallel region created with `ref_count = enter_count = 0`, along every
sequence of enters of it and of leaves that each match an earlier enter by the same
location, with fewer than `2 ^ 32` enters (the counters are `unsigned int`), the calls
returning and the pushes getting their nodes: as long as the region is live, `ref_count` is
the number of enters minus the number of leaves and `enter_count` the number of enters, so
`enter_count` never decreases along the sequence; the Enter and Leave records with the
region's ref are as many as the enters and the leaves; and when `ref_count` is back to zero
(the region is then destroyed by that leave, or nothing has happened yet) the number of
enters, the number of leaves and `enter_count` are equal. -/
theorem parallel_region_counters (w w2 : World) (p : Nat) (r : trace_region_def_t)
    (ops : List Op)
    (hr : w.region_at p = some r) (hp : r.type = trace_region_parallel)
    (hrc : r.ref_count = 0) (hec : r.enter_count = 0)
    (hops : ∀ op ∈ ops, Op.on_region p op = true ∧ Op.node_ok op = true)
    (hm : matched [] ops = true)
    (hb : enters ops < UINT_MOD)
    (hrun : run w ops = Result.ok w2) :
    leaves ops ≤ enters ops
    ∧ (w2.log.drop w.log.length).countP (Eff.is_enter_of r.ref) = enters ops
    ∧ (w2.log.drop w.log.length).countP (Eff.is_leave_of r.ref) = leaves ops
    ∧ (∀ r2, w2.region_at p = some r2 →
        r2.ref_count = enters ops - leaves ops ∧ r2.enter_count = enters ops
        ∧ (r2.ref_count = 0 → enters ops = leaves ops))
    ∧ (w2.region_at p = none →
        leaves ops = enters ops
        ∧ destroyed (w2.log.drop w.log.length)
            = [(p, { r with ref_count := 0, enter_count := enters ops })])
    ∧ (∀ ops1 ops2 w1 r1, ops = ops1 ++ ops2 → run w ops1 = Result.ok w1 →
        w1.region_at p = some r1 →
        r1.enter_count = enters ops1
        ∧ (∀ r2, w2.region_at p = some r2 → r1.enter_count ≤ r2.enter_count)
        ∧ r1.enter_count ≤ enters ops) := by
  obtain ⟨new, hnew, hle, hce, hcl, halive, hdead⟩ :=
    run_counts p ops w w2 [] r hr hp hrc (by simpa using hb) (by rw [hec]; simpa using hb)
      (stacks_hold_nil w p) hops hm hrun
  simp only [List.length_nil, Nat.zero_add, hec] at hle halive hdead
  have hdrop : w2.log.drop w.log.length = new := by rw [hnew, List.drop_left]
  rw [hdrop]
  refine ⟨hle, hce, hcl, ?_, fun h => ⟨(hdead h).1.symm, (hdead h).2⟩, ?_⟩
  · intro r2 h2
    obtain ⟨e, _⟩ := halive r2 h2
    rw [e]
    exact ⟨rfl, rfl, fun h => by dsimp only at h; omega⟩
  · intro ops1 ops2 w1 r1 hsplit hrun1 h1
    have hE := enters_append ops1 ops2
    rw [← hsplit] at hE
    have hops1 : ∀ op ∈ ops1, Op.on_region p op = true ∧ Op.node_ok op = true :=
      fun op h => hops op (by rw [hsplit]; exact List.mem_append_left _ h)
    obtain ⟨_, _, _, _, _, halive1, _⟩ :=
      run_counts p ops1 w w1 [] r hr hp hrc (by simp; omega) (by rw [hec]; omega)
        (stacks_hold_nil w p) hops1 (matched_init ops1 ops2 [] (by rw [← hsplit]; exact hm))
        hrun1
    obtain ⟨e1, _⟩ := halive1 r1 h1
    rw [hec] at e1
    refine ⟨by rw [e1]; simp, ?_, by rw [e1]; dsimp only; omega⟩
    intro r2 h2
    obtain ⟨e2, _⟩ := halive r2 h2
    rw [e1, e2]
    dsimp only
    omega

/-- C2, at `demo_team` on the parallel region at 1 of `demo_world`: two enters, two leaves,
the region destroyed with `enter_count = 2`. -/
theorem parallel_region_counters_witness :
    run demo_world demo_team = Result.ok (Result.get demo_world (run demo_world demo_team))
    ∧ enters demo_team < UINT_MOD
    ∧ leaves demo_team = enters demo_team
    ∧ destroyed ((Result.get demo_world (run demo_world demo_team)).log.drop
          demo_world.log.length)
        = [(1, { new_region 10 trace_region_parallel 101 with
                 ref_count := 0, enter_count := enters demo_team })] := by
  have hrun : run demo_world demo_team
      = Result.ok (Result.get demo_world (run demo_world demo_team)) := rfl
  have hb : enters demo_team < UINT_MOD := by decide
  have h := parallel_region_counters demo_world _ 1 (new_region 10 trace_region_parallel 101)
    demo_team rfl rfl rfl rfl (by decide) rfl hb hrun
  exact ⟨hrun, hb, (h.2.2.2.2.1 rfl).1, (h.2.2.2.2.1 rfl).2⟩

/-! ## The destruction of a parallel region -/

theorem stacks_wf_enter {w w1 : World} {p l : Nat} {inside : List Nat} {mem : enter_mem}
    {n : Nat} (hm : mem.rgn_node = true)
    (hfl : ∀ l', l' ≠ l → w1.locs l' = w.locs l')
    (hst : (w1.locs l).rgn_stack = (stack_push (w.locs l).rgn_stack p mem.rgn_node).2)
    (h : stacks_wf w p inside (n + 1)) : stacks_wf w1 p (l :: inside) n := by
  intro l'
  obtain ⟨st, base, hs, hh, hsz, hb⟩ := h l'
  by_cases hl : l' = l
  · subst hl
    rw [hs, hm] at hst
    simp only [stack_push, if_true] at hst
    refine ⟨_, base, hst, ?_, ?_, ?_⟩
    · simp [hh, List.replicate_succ]
    · simp only [List.length_cons, hsz]
      exact Nat.mod_eq_of_lt (by omega)
    · simp only [List.length_cons]; omega
  · refine ⟨st, base, by rw [hfl l' hl]; exact hs, ?_, hsz, by omega⟩
    rw [hh, List.count_cons_of_ne hl]

theorem stacks_wf_top {w : World} {p l : Nat} {inside : List Nat} {n : Nat}
    (hin : l ∈ inside) (h : stacks_wf w p inside n) :
    ∃ st rest, (w.locs l).rgn_stack = some st ∧ st.head = p :: rest ∧ st.size ≠ 0 := by
  obtain ⟨st, base, hs, hh, hsz, _⟩ := h l
  have hc : 0 < inside.count l := List.count_pos_iff.mpr hin
  obtain ⟨k, hk⟩ : ∃ k, inside.count l = k + 1 := ⟨inside.count l - 1, by omega⟩
  rw [hk, List.replicate_succ] at hh
  refine ⟨st, List.replicate k p ++ base, hs, by simpa using hh, ?_⟩
  rw [hsz, hh]
  simp

theorem stacks_wf_leave {w w1 : World} {p l : Nat} {inside : List Nat} {st : stack_t}
    {rest : List data_item_t} {n : Nat}
    (hin : l ∈ inside)
    (hfl : ∀ l', l' ≠ l → w1.locs l' = w.locs l')
    (hs : (w.locs l).rgn_stack = some st) (hh : st.head = p :: rest)
    (hst : (w1.locs l).rgn_stack
      = some { head := rest, size := (st.size + SIZE_MOD - 1) % SIZE_MOD })
    (h : stacks_wf w p inside n) : stacks_wf w1 p (inside.erase l) n := by
  intro l'
  obtain ⟨st', base, hs', hh', hsz, hb⟩ := h l'
  by_cases hl : l' = l
  · subst hl
    rw [hs] at hs'
    cases hs'
    have hc : 0 < inside.count l' := List.count_pos_iff.mpr hin
    obtain ⟨k, hk⟩ : ∃ k, inside.count l' = k + 1 := ⟨inside.count l' - 1, by omega⟩
    rw [hk, List.replicate_succ, hh] at hh'
    simp only [List.cons_append, List.cons.injEq, true_and] at hh'
    have hlen : st.head.length = rest.length + 1 := by rw [hh]; simp
    refine ⟨_, base, hst, ?_, ?_, ?_⟩
    · rw [List.count_erase_self, hk]; simpa using hh'
    · show (st.size + SIZE_MOD - 1) % SIZE_MOD = rest.length
      rw [hsz, hlen]
      unfold SIZE_MOD at *
      omega
    · show rest.length + n < SIZE_MOD
      omega
  · refine ⟨st', base, by rw [hfl l' hl]; exact hs', ?_, hsz, hb⟩
    rw [hh', List.count_erase_of_ne hl]

/-- A sequence of enters and matched leaves of a live parallel region returns when someone
is inside the region until its last call. -/
theorem run_returns (p : Nat) :
    ∀ (ops : List Op) (w : World) (inside : List Nat) (r : trace_region_def_t),
      w.region_at p = some r → r.type = trace_region_parallel →
      r.ref_count = inside.length →
      inside.length + enters ops < UINT_MOD →
      stacks_wf w p inside (enters ops) →
      (∀ op ∈ ops, Op.on_region p op = true ∧ Op.node_ok op = true) →
      matched inside ops = true →
      (∀ ops1 ops2, ops = ops1 ++ ops2 → ops1 ≠ [] → ops2 ≠ [] →
        leaves ops1 < inside.length + enters ops1) →
      ∃ w2, run w ops = Result.ok w2 := by
  intro ops
  induction ops with
  | nil => intro w _ _ _ _ _ _ _ _ _ _; exact ⟨w, rfl⟩
  | cons op ops ih =>
    intro w inside r hr hp hrc hb hwf hops hm hin
    have hops1 : ∀ op ∈ ops, Op.on_region p op = true ∧ Op.node_ok op = true :=
      fun op h => hops op (List.mem_cons_of_mem _ h)
    cases op with
    | enter l q m =>
      have hq : q = p := by
        simpa [Op.on_region] using (hops _ (List.mem_cons_self _ _)).1
      subst hq
      have hnode : m.rgn_node = true := by
        simpa [Op.node_ok] using (hops _ (List.mem_cons_self _ _)).2
      have hE : enters (Op.enter l q m :: ops) = enters ops + 1 := rfl
      rw [hE] at hb hwf
      obtain ⟨w1, h1, hfl, hst, _, hreg, _, _, _⟩ := enter_par_spec w l q m r hr hp
      have e1 : (r.ref_count + 1) % UINT_MOD = inside.length + 1 := by
        rw [hrc]; exact Nat.mod_eq_of_lt (by omega)
      rw [e1] at hreg
      obtain ⟨w2, h2⟩ := ih w1 (l :: inside) _ hreg hp rfl
        (by rw [List.length_cons]; omega) (stacks_wf_enter hnode hfl hst hwf) hops1 hm
        (by
          intro a b hab ha hb'
          have := hin (Op.enter l q m :: a) b (by rw [hab]; rfl) (by simp) hb'
          have hEa : enters (Op.enter l q m :: a) = enters a + 1 := rfl
          have hLa : leaves (Op.enter l q m :: a) = leaves a := rfl
          rw [hEa, hLa] at this
          rw [List.length_cons]; omega)
      exact ⟨w2, by simp only [run, step, h1]; exact h2⟩
    | leave l =>
      simp only [matched, Bool.and_eq_true, decide_eq_true_eq] at hm
      obtain ⟨hmem, hm1⟩ := hm
      have hE : enters (Op.leave l :: ops) = enters ops := rfl
      rw [hE] at hb hwf
      obtain ⟨st, rest, hs, hh, hz⟩ := stacks_wf_top hmem hwf
      obtain ⟨w1, h1, hfl, hst, _, hreg, _, _, _⟩ := leave_par_spec w l st p rest r hs hz hh hr hp
      cases hops' : ops with
      | nil => exact ⟨w1, by simp only [run, step, h1]⟩
      | cons op' ops' =>
        have hpos : 0 < inside.length := List.length_pos_of_mem hmem
        have htwo := hin [Op.leave l] ops (by simp) (by simp) (by rw [hops']; simp)
        have hL1 : leaves [Op.leave l] = 1 := rfl
        have hE1 : enters [Op.leave l] = 0 := rfl
        rw [hL1, hE1] at htwo
        have hlt : r.ref_count < UINT_MOD := by omega
        have hz' : dec_uint r.ref_count ≠ 0 := by
          intro h
          have := (dec_uint_zero_iff hlt).mp h
          omega
        simp only [hz', if_false] at hreg
        have hlen : (inside.erase l).length = inside.length - 1 :=
          List.length_erase_of_mem hmem
        have hdec : dec_uint r.ref_count = (inside.erase l).length := by
          rw [dec_uint_pos (by omega) hlt, hrc, hlen]
        rw [hdec] at hreg
        obtain ⟨w2, h2⟩ := ih w1 (inside.erase l) _ hreg hp rfl
          (by rw [hlen]; omega) (stacks_wf_leave hmem hfl hs hh hst hwf) hops1 hm1
          (by
            intro a b hab ha hb'
            have := hin (Op.leave l :: a) b (by rw [hab]; rfl) (by simp) hb'
            have hEa : enters (Op.leave l :: a) = enters a := rfl
            have hLa : leaves (Op.leave l :: a) = leaves a + 1 := rfl
            rw [hEa, hLa] at this
            rw [hlen]; omega)
        rw [← hops']
        exact ⟨w2, by simp only [run, step, h1]; exact h2⟩

theorem stacks_wf_start {w : World} {p n : Nat}
    (h : ∀ l, ∃ st, (w.locs l).rgn_stack = some st ∧ st.size = st.head.length
      ∧ st.head.length + n < SIZE_MOD) : stacks_wf w p [] n := by
  intro l
  obtain ⟨st, hs, hsz, hb⟩ := h l
  exact ⟨st, st.head, hs, by simp, hsz, hb⟩

/-- C3. `trace_event_leave` on a live parallel region returns, and it destroys the region
(frees it, after one call of `trace_destroy_parallel_region`) if and only if the `ref_count`
it has just decremented is zero.  Consequently, for a region created with zero counters and
every non-empty sequence of enters of it and of leaves that each match an earlier enter by
the same location, in which someone is inside the region from the first enter until the
last leave and everybody has left at the end (fewer than `2 ^ 32` enters, region stacks well
formed, pushes getting their nodes): every call returns, the last call is a leave, the
region is live after every proper prefix with no destruction so far, and the last call
destroys it, so it is destroyed exactly once and no call of the sequence touches it after
that. -/
theorem parallel_region_destroyed_once :
    (∀ (w : World) (self : Nat) (st : stack_t) (p : Nat) (rest : List data_item_t)
        (r : trace_region_def_t),
        (w.locs self).rgn_stack = some st → st.size ≠ 0 → st.head = p :: rest →
        w.region_at p = some r → r.type = trace_region_parallel →
        ∃ w1, trace_event_leave w self = Result.ok w1
          ∧ (w1.region_at p = none ↔ dec_uint r.ref_count = 0)
          ∧ (destroyed (w1.log.drop w.log.length) ≠ [] ↔ dec_uint r.ref_count = 0)
          ∧ (dec_uint r.ref_count = 0 →
              destroyed (w1.log.drop w.log.length) = [(p, { r with ref_count := 0 })])
          ∧ (dec_uint r.ref_count ≠ 0 →
              w1.region_at p = some { r with ref_count := dec_uint r.ref_count }))
    ∧ (∀ (w : World) (p : Nat) (r : trace_region_def_t) (ops : List Op),
        w.region_at p = some r → r.type = trace_region_parallel →
        r.ref_count = 0 → r.enter_count = 0 →
        (∀ l, ∃ st, (w.locs l).rgn_stack = some st ∧ st.size = st.head.length
          ∧ st.head.length + enters ops < SIZE_MOD) →
        (∀ op ∈ ops, Op.on_region p op = true ∧ Op.node_ok op = true) →
        matched [] ops = true →
        enters ops < UINT_MOD →
        ops ≠ [] → leaves ops = enters ops →
        (∀ ops1 ∈ ops.inits, ops1 ≠ [] → ops1 ≠ ops → leaves ops1 < enters ops1) →
        ∃ w2, run w ops = Result.ok w2
          ∧ w2.region_at p = none
          ∧ destroyed (w2.log.drop w.log.length)
              = [(p, { r with ref_count := 0, enter_count := enters ops })]
          ∧ (∃ l, ops.getLast? = some (Op.leave l))
          ∧ (∀ ops1 ∈ ops.inits, ops1 ≠ ops → ∀ w1, run w ops1 = Result.ok w1 →
              w1.region_at p ≠ none ∧ destroyed (w1.log.drop w.log.length) = [])) := by
  constructor
  · intro w self st p rest r hs hz hh hr hp
    obtain ⟨w1, h1, _, _, _, hreg, hlog, _, _⟩ := leave_par_spec w self st p rest r hs hz hh hr hp
    have hdrop : w1.log.drop w.log.length
        = [Eff.lock p, Eff.Leave self r.ref, Eff.unlock p]
          ++ (if dec_uint r.ref_count = 0
              then [Eff.destroy p { r with ref_count := dec_uint r.ref_count }]
              else []) := by
      rw [hlog, List.append_assoc, List.drop_left]
    refine ⟨w1, h1, ?_, ?_, ?_, ?_⟩
    · rw [hreg]
      by_cases hz' : dec_uint r.ref_count = 0 <;> simp [hz']
    · rw [hdrop, destroyed_append, destroyed_leave_block]
      by_cases hz' : dec_uint r.ref_count = 0 <;> simp [hz', destroyed, Eff.destroyed_region]
    · intro hz'
      rw [hdrop, destroyed_append, destroyed_leave_block]
      simp [hz', destroyed, Eff.destroyed_region]
    · intro hz'
      rw [hreg]
      simp [hz']
  · intro w p r ops hr hp hrc hec hst hops hm hb hne hall hin0
    have hin : ∀ ops1 ops2, ops = ops1 ++ ops2 → ops1 ≠ [] → ops2 ≠ [] →
        leaves ops1 < enters ops1 := by
      intro ops1 ops2 h h1 h2
      refine hin0 ops1 ((List.mem_inits _ _).mpr ⟨ops2, h.symm⟩) h1 ?_
      intro he
      rw [he] at h
      exact h2 (List.self_eq_append_right.mp h)
    obtain ⟨w2, hrun⟩ := run_returns p ops w [] r hr hp hrc (by simpa using hb)
      (stacks_wf_start hst) hops hm (by simpa using hin)
    obtain ⟨new, hnew, hle, _, _, halive, hdead⟩ :=
      run_counts p ops w w2 [] r hr hp hrc (by simpa using hb) (by rw [hec]; simpa using hb)
        (stacks_hold_nil w p) hops hm hrun
    simp only [List.length_nil, Nat.zero_add, hec] at halive hdead
    have hdrop : w2.log.drop w.log.length = new := by rw [hnew, List.drop_left]
    have hEpos : 0 < enters ops := by
      cases ops with
      | nil => exact absurd rfl hne
      | cons op ops' =>
        cases op with
        | enter l q m => show 0 < enters ops' + 1; omega
        | leave l => simp [matched] at hm
    have hprefix : ∀ ops1 ops2 w1, ops = ops1 ++ ops2 → ops2 ≠ [] →
        run w ops1 = Result.ok w1 →
        w1.region_at p ≠ none ∧ destroyed (w1.log.drop w.log.length) = [] := by
      intro ops1 ops2 w1 hsplit h2 hrun1
      have hE := enters_append ops1 ops2
      rw [← hsplit] at hE
      obtain ⟨new1, hnew1, _, _, _, halive1, hdead1⟩ :=
        run_counts p ops1 w w1 [] r hr hp hrc (by simp; omega) (by rw [hec]; omega)
          (stacks_hold_nil w p)
          (fun op h => hops op (by rw [hsplit]; exact List.mem_append_left _ h))
          (matched_init ops1 ops2 [] (by rw [← hsplit]; exact hm)) hrun1
      simp only [List.length_nil, Nat.zero_add] at hdead1
      have hal : w1.region_at p ≠ none := by
        intro hd
        have e := (hdead1 hd).1
        by_cases h1 : ops1 = []
        · subst h1
          have := run_nil_ok hrun1
          subst this
          rw [hr] at hd
          cases hd
        · have := hin ops1 ops2 hsplit h1 h2
          omega
      refine ⟨hal, ?_⟩
      cases hreg1 : w1.region_at p with
      | none => exact absurd hreg1 hal
      | some r1 =>
        rw [hnew1, List.drop_left]
        exact (halive1 r1 hreg1).2.1
    have hdeadw2 : w2.region_at p = none := by
      cases hreg2 : w2.region_at p with
      | none => rfl
      | some r2 =>
        have := (halive r2 hreg2).2.2 hne
        omega
    refine ⟨w2, hrun, hdeadw2, ?_, ?_, ?_⟩
    rotate_left 2
    · intro ops1 hmem hne1 w1 hrun1
      obtain ⟨ops2, h⟩ := (List.mem_inits _ _).mp hmem
      refine hprefix ops1 ops2 w1 h.symm ?_ hrun1
      intro h2
      rw [h2, List.append_nil] at h
      exact hne1 h
    · rw [hdrop]
      exact (hdead hdeadw2).2
    · rcases List.eq_nil_or_concat ops with h | ⟨init, last, h⟩
      · exact absurd h hne
      · rw [List.concat_eq_append] at h
        cases last with
        | leave l => exact ⟨l, by rw [h]; simp⟩
        | enter l q m =>
          exfalso
          have hEi := enters_append init [Op.enter l q m]
          have hLi := leaves_append init [Op.enter l q m]
          rw [← h] at hEi hLi
          have h1 : enters [Op.enter l q m] = 1 := rfl
          have h2 : leaves [Op.enter l q m] = 0 := rfl
          rw [h1] at hEi
          rw [h2] at hLi
          by_cases hi : init = []
          · subst hi
            simp [enters, leaves] at hEi hLi
            omega
          · have := hin init [Op.enter l q m] h hi (by simp)
            omega

/-- C3, at `demo_team` on the parallel region at 1 of `demo_world`: the run returns, the
region is destroyed once, by the last call. -/
theorem parallel_region_destroyed_once_witness :
    ∃ w2, run demo_world demo_team = Result.ok w2
      ∧ w2.region_at 1 = none
      ∧ destroyed (w2.log.drop demo_world.log.length)
          = [(1, { new_region 10 trace_region_parallel 101 with
                   ref_count := 0, enter_count := enters demo_team })]
      ∧ (∃ l, demo_team.getLast? = some (Op.leave l))
      ∧ (∀ ops1 ∈ demo_team.inits, ops1 ≠ demo_team →
          ∀ w1, run demo_world ops1 = Result.ok w1 →
            w1.region_at 1 ≠ none ∧ destroyed (w1.log.drop demo_world.log.length) = []) :=
  parallel_region_destroyed_once.2 demo_world 1 (new_region 10 trace_region_parallel 101)
    demo_team rfl rfl rfl rfl
    (fun _ => ⟨{ head := [], size := 0 }, rfl, rfl, by decide⟩)
    (by decide) rfl (by decide) (by decide) rfl (by decide)

/-! ## The callbacks -/

/-- C4. `trace_event_leave` on a location whose region stack is empty (`stack_is_empty`
holds: the stack is `NULL` or its size is 0) aborts, and the state at the abort is the state
at the call: no record has been written, the location's `events`, region stack, `rgn_defs`
and `rgn_defs_stack` and every region are as they were. -/
theorem leave_empty_aborts (w : World) (self : Nat)
    (h : stack_is_empty (w.locs self).rgn_stack = true) :
    trace_event_leave w self = Result.abort w := by
  unfold trace_event_leave
  simp [h]

/-- C4, at location 0 of `demo_world`, whose region stack is as `stack_create` made it. -/
theorem leave_empty_aborts_witness :
    stack_is_empty (demo_world.locs 0).rgn_stack = true
    ∧ trace_event_leave demo_world 0 = Result.abort demo_world :=
  ⟨rfl, leave_empty_aborts demo_world 0 rfl⟩

/-- C6. One parallel region run by a master and one worker, from the start of the tool (in
either order of the two implicit-task-end callbacks): every callback returns; the master
writes its Enter in parallel-begin and its Leave in parallel-end and nothing in its
implicit-task-begin and implicit-task-end; the worker writes its Enter in its
implicit-task-begin and its Leave in its implicit-task-end; these are the only Enter and
Leave records, all with the region's ref 0; and the region is destroyed exactly once, with
`ref_count = 0` and `enter_count = 2`. -/
theorem one_region_two_threads :
    (play tool_start one_region_master_first).returned = true
    ∧ enter_leave_by tool_start one_region_master_first
        = [[], [Eff.Enter 1 0], [], [], [Eff.Enter 2 0], [], [Eff.Leave 2 0], [Eff.Leave 1 0]]
    ∧ destroyed (log_after tool_start one_region_master_first) = [(5, one_region_final)]
    ∧ (Result.get tool_start (play tool_start one_region_master_first)).w.region_at 5 = none
    ∧ (play tool_start one_region_worker_first).returned = true
    ∧ enter_leave_by tool_start one_region_worker_first
        = [[], [Eff.Enter 1 0], [], [], [Eff.Enter 2 0], [Eff.Leave 2 0], [], [Eff.Leave 1 0]]
    ∧ destroyed (log_after tool_start one_region_worker_first) = [(5, one_region_final)]
    ∧ (Result.get tool_start (play tool_start one_region_worker_first)).w.region_at 5 = none := by
  refine ⟨?_, ?_, ?_, ?_, ?_, ?_, ?_, ?_⟩ <;> rfl

/-- C5, counterexample. In `mismatch_tool` parallel-end is to leave the parallel region
at address 5 (ref 0) while the top of the region stack is the workshare region at address 7
(ref 9): the callback returns, and it has written a Leave record for the popped region,
with ref 9. -/
theorem parallel_end_pops_unexpected :
    (mismatch_tool.parallels 1).map (fun d => d.region) = some 5
    ∧ (mismatch_tool.w.region_at 5).map (fun r => (r.ref, r.type))
        = some (0, trace_region_parallel)
    ∧ (mismatch_tool.w.locs 1).rgn_stack = some { head := [7, 5], size := 2 }
    ∧ (mismatch_tool.w.region_at 7).map (fun r => (r.ref, r.type))
        = some (9, trace_region_workshare)
    ∧ (on_ompt_callback_parallel_end mismatch_tool 0 (some 1)).returned = true
    ∧ (on_ompt_callback_parallel_end mismatch_tool 0 (some 1)).aborted = false
    ∧ (Result.get mismatch_tool (on_ompt_callback_parallel_end mismatch_tool 0 (some 1))).w.log
        = mismatch_tool.w.log ++ [Eff.Leave 1 9] := by
  refine ⟨?_, ?_, ?_, ?_, ?_, ?_, ?_⟩ <;> rfl

/-- Parallel-end pops whatever region is on top of the region stack. -/
theorem parallel_end_pops (t : Tool) (thr par : Nat) (td : thread_data_t)
    (pd : parallel_data_t) (st : stack_t) (p : Nat) (rest : List data_item_t)
    (r : trace_region_def_t)
    (htd : t.threads thr = some td) (hpd : t.parallels par = some pd)
    (hs : (t.w.locs td.location).rgn_stack = some st) (hz : st.size ≠ 0)
    (hh : st.head = p :: rest) (hr : t.w.region_at p = some r)
    (hu : r.type ≠ trace_region_unhandled) :
    ∃ t1, on_ompt_callback_parallel_end t thr (some par) = Result.ok t1
      ∧ t1.w.endpoints td.location
          = t.w.endpoints td.location ++ [Eff.Leave td.location r.ref]
      ∧ (t1.w.locs td.location).rgn_stack
          = some { head := rest, size := (st.size + SIZE_MOD - 1) % SIZE_MOD } := by
  obtain ⟨w1, hw1⟩ := leave_returns t.w td.location st p rest r hs hz hh hr hu
  obtain ⟨st', p', rest', hs', hh', hend⟩ := leave_endpoints hw1 td.location
  obtain ⟨st'', p'', rest'', r'', hs'', _, hh'', _, _, _, hst, _⟩ := leave_ok hw1
  rw [hs] at hs' hs''
  cases hs'
  cases hs''
  rw [hh] at hh' hh''
  cases hh'
  cases hh''
  refine ⟨{ t with
      w := w1
      threads := Function.update t.threads thr (some { td with is_master_thread := false }) },
    ?_, ?_, ?_⟩
  · simp only [on_ompt_callback_parallel_end, htd, Option.bind, hpd, trace_event, hw1]
  · simp only [hend, if_true, World.ref_of, hr, Option.map_some', Option.getD_some]
  · exact hst

/-- When `trace_event_leave` aborts, the region stack was empty or the popped region has a
type that is not handled. -/
theorem leave_abort {w w1 : World} {self : Nat}
    (h : trace_event_leave w self = Result.abort w1) :
    stack_is_empty (w.locs self).rgn_stack = true
    ∨ ∃ st p rest r, (w.locs self).rgn_stack = some st ∧ st.head = p :: rest
        ∧ w.region_at p = some r ∧ r.type = trace_region_unhandled := by
  by_cases he : stack_is_empty (w.locs self).rgn_stack = true
  · exact Or.inl he
  · right
    unfold trace_event_leave at h
    simp only [he, Bool.false_eq_true, if_false] at h
    cases hs : (w.locs self).rgn_stack with
    | none => simp [hs, stack_is_empty] at he
    | some st =>
      cases hh : st.head with
      | nil =>
        simp [hs, stack_pop_some_nil hh, World.region_at, World.set_loc] at h
      | cons p rest =>
        simp only [hs, stack_pop_some_cons hh, Option.map_some', Option.getD_some,
          region_at_set_loc] at h
        cases hr : w.region_at p with
        | none => simp [hr] at h
        | some r =>
          simp only [hr] at h
          by_cases hu : r.type = trace_region_unhandled
          · exact ⟨st, p, rest, r, rfl, hh, hr, hu⟩
          · simp [hu] at h

/-- C5, amended. `trace_event_leave` is given no expected region and parallel-end passes
none: whatever region `parallel_data->region` is, when the region stack of the thread's
location has a node (and a non-zero size) and its top is a live region of a handled type,
parallel-end returns, pops that region and writes one Leave record, carrying the popped
region's ref; and parallel-end aborts only when that region stack is empty or the region
on its top has a type that is not handled. -/
theorem parallel_end_leaves_top :
    (∀ (t : Tool) (thr par : Nat) (td : thread_data_t) (pd : parallel_data_t)
        (st : stack_t) (p : Nat) (rest : List data_item_t) (r : trace_region_def_t),
        t.threads thr = some td → t.parallels par = some pd →
        (t.w.locs td.location).rgn_stack = some st → st.size ≠ 0 →
        st.head = p :: rest → t.w.region_at p = some r →
        r.type ≠ trace_region_unhandled →
        ∃ t1, on_ompt_callback_parallel_end t thr (some par) = Result.ok t1
          ∧ t1.w.endpoints td.location
              = t.w.endpoints td.location ++ [Eff.Leave td.location r.ref]
          ∧ (t1.w.locs td.location).rgn_stack
              = some { head := rest, size := (st.size + SIZE_MOD - 1) % SIZE_MOD })
    ∧ (∀ (t t1 : Tool) (thr : Nat) (par : Option Nat),
        on_ompt_callback_parallel_end t thr par = Result.abort t1 →
        ∃ td, t.threads thr = some td
          ∧ (stack_is_empty (t.w.locs td.location).rgn_stack = true
              ∨ ∃ st p rest r, (t.w.locs td.location).rgn_stack = some st
                  ∧ st.head = p :: rest ∧ t.w.region_at p = some r
                  ∧ r.type = trace_region_unhandled)) := by
  refine ⟨parallel_end_pops, ?_⟩
  intro t t1 thr par h
  unfold on_ompt_callback_parallel_end at h
  cases htd : t.threads thr with
  | none => simp [htd] at h
  | some td =>
    simp only [htd] at h
    cases hpd : par.bind t.parallels with
    | none => simp [hpd] at h
    | some pd =>
      simp only [hpd, trace_event] at h
      cases hl : trace_event_leave t.w td.location with
      | ok w1 => simp [hl] at h
      | abort w1 => exact ⟨td, rfl, leave_abort hl⟩
      | fault => simp [hl] at h

/-- C5, amended, at `mismatch_tool`: parallel-end pops the workshare region at 7. -/
theorem parallel_end_leaves_top_witness :
    ∃ t1, on_ompt_callback_parallel_end mismatch_tool 0 (some 1) = Result.ok t1
      ∧ t1.w.endpoints 1 = mismatch_tool.w.endpoints 1 ++ [Eff.Leave 1 9]
      ∧ (t1.w.locs 1).rgn_stack
          = some { head := [5], size := (2 + SIZE_MOD - 1) % SIZE_MOD } :=
  parallel_end_leaves_top.1 mismatch_tool 0 1 mismatch_thread mismatch_parallel
    { head := [7, 5], size := 2 } 7 [5] (new_region 9 trace_region_workshare 0)
    rfl rfl rfl (by decide) rfl rfl (by decide)

/-- C7. A thread that is the master of an outer and, nested in it, of an inner parallel
region: the callbacks up to the outer implicit-task-end return; the Leave of the outer
region (ref 0) is written by the outer implicit-task-end, because the inner parallel-end
has reset `is_master_thread`; the region stack is then empty, and the outer parallel-end
calls `trace_event_leave` on it and aborts. -/
theorem nested_masters_abort :
    (play tool_start nested_masters_start).returned = true
    ∧ enter_leave_by tool_start nested_masters
        = [[], [Eff.Enter 1 0], [], [Eff.Enter 1 1], [], [], [Eff.Leave 1 1],
           [Eff.Leave 1 0], []]
    ∧ stack_is_empty
        ((Result.get tool_start (play tool_start nested_masters_start)).w.locs 1).rgn_stack
        = true
    ∧ (play tool_start nested_masters).aborted = true := by
  refine ⟨?_, ?_, ?_, ?_⟩ <;> rfl

/-! ## The sources of identifiers -/

theorem count_take_le {α : Type} [DecidableEq α] (k : α) (ks : List α) (i j : Nat)
    (h : i ≤ j) : (ks.take i).count k ≤ (ks.take j).count k :=
  (List.take_sublist_take_left ks h).count_le k

theorem count_take_succ {α : Type} [DecidableEq α] (k : α) :
    ∀ (ks : List α) (i : Nat), ks[i]? = some k →
      (ks.take (i + 1)).count k = (ks.take i).count k + 1 := by
  intro ks
  induction ks with
  | nil => intro i h; simp at h
  | cons a ks ih =>
    intro i h
    cases i with
    | zero =>
      simp only [List.getElem?_cons_zero, Option.some.injEq] at h
      subst h
      simp
    | succ i =>
      simp only [List.getElem?_cons_succ] at h
      have := ih i h
      simp only [List.take_succ_cons, List.count_cons]
      omega

theorem count_take_lt {α : Type} [DecidableEq α] (k : α) (ks : List α) (i j : Nat)
    (h : i < j) (hi : ks[i]? = some k) : (ks.take i).count k < (ks.take j).count k := by
  have h1 := count_take_succ k ks i hi
  have h2 := count_take_le k ks (i + 1) j h
  omega

theorem count_take_lt_count {α : Type} [DecidableEq α] (k : α) (ks : List α) (j : Nat)
    (hj : ks[j]? = some k) : (ks.take j).count k < ks.count k := by
  have h1 := count_take_succ k ks j hj
  have h2 : (ks.take (j + 1)).count k ≤ ks.count k := (List.take_sublist (j + 1) ks).count_le k
  omega

/-- In a run of fetch-and-add calls on counters modulo `M`, the call at position `i`, for
the kind `k`, returns the start of `k` plus the number of earlier calls for `k`. -/
theorem draw_nth {α : Type} [DecidableEq α] (M : Nat) (hM : 0 < M)
    (f : (α → Nat) → α → Nat × (α → Nat))
    (hf : ∀ c k, f c k = (c k, Function.update c k ((c k + 1) % M))) (k : α) :
    ∀ (ks : List α) (c : α → Nat) (i : Nat), (∀ a, c a < M) → ks[i]? = some k →
      (draw f c ks).1[i]? = some ((c k + (ks.take i).count k) % M) := by
  intro ks
  induction ks with
  | nil => intro c i _ h; simp at h
  | cons a ks ih =>
    intro c i hc h
    cases i with
    | zero =>
      simp only [List.getElem?_cons_zero, Option.some.injEq] at h
      subst h
      simp [draw, hf, Nat.mod_eq_of_lt (hc a)]
    | succ i =>
      simp only [List.getElem?_cons_succ] at h
      have hc1 : ∀ b, (f c a).2 b < M := by
        intro b
        rw [hf]
        by_cases hb : b = a
        · subst hb; simp only [Function.update_same]; exact Nat.mod_lt _ hM
        · simp only [Function.update_noteq hb]; exact hc b
      have := ih (f c a).2 i hc1 h
      simp only [draw, List.getElem?_cons_succ, this, List.take_succ_cons, List.count_cons,
        Option.some.injEq]
      rw [hf]
      by_cases hk : a = k
      · subst hk
        simp only [Function.update_same, beq_self_eq_true, if_true, Nat.mod_add_mod]
        congr 1
        omega
      · have hk1 : ¬ k = a := fun e => hk e.symm
        simp [Function.update_noteq hk1, hk]

/-- Two calls for one kind return different values, as long as the kind is drawn at most
`M` times. -/
theorem draw_ne {α : Type} [DecidableEq α] (M : Nat) (hM : 0 < M)
    (f : (α → Nat) → α → Nat × (α → Nat))
    (hf : ∀ c k, f c k = (c k, Function.update c k ((c k + 1) % M))) (k : α)
    (ks : List α) (c : α → Nat) (i j : Nat) (hc : ∀ a, c a < M) (hij : i < j)
    (hi : ks[i]? = some k) (hj : ks[j]? = some k) (hn : ks.count k ≤ M) :
    (draw f c ks).1[i]? ≠ (draw f c ks).1[j]? := by
  rw [draw_nth M hM f hf k ks c i hc hi, draw_nth M hM f hf k ks c j hc hj]
  have h1 := count_take_lt k ks i j hij hi
  have h2 := count_take_lt_count k ks j hj
  intro he
  simp only [Option.some.injEq] at he
  have h3 : ((c k + (ks.take j).count k) - (c k + (ks.take i).count k)) % M = 0 :=
    Nat.sub_mod_eq_zero_of_mod_eq he.symm
  have h4 : (c k + (ks.take j).count k) - (c k + (ks.take i).count k)
      = (ks.take j).count k - (ks.take i).count k := by omega
  rw [h4, Nat.mod_eq_of_lt (by omega)] at h3
  omega

theorem id_start_lt (a : unique_id_type_t) : id_start a < SIZE_MOD := by
  cases a <;> simp [id_start, SIZE_MOD]

/-- C11: the counters of `get_unique_id` start at 0 for threads (and timestamps) and at 1
for parallel regions and tasks; in every run of calls from the start, the call at position
`i`, for the kind `k`, returns the start of `k` plus the number of earlier calls for `k`
(this number is the `K` of "the K-th call for the kind"), modulo `2 ^ 64`; of two calls for
one kind the later returns the greater value, as long as the counter has not wrapped; and a
call returns the counter of its kind, adds one to it and leaves the counters of the other
kinds unchanged. -/
theorem get_unique_id_kth (ks : List unique_id_type_t) (i j : Nat) (k : unique_id_type_t) :
    (id_start unique_id_type_t.id_thread = 0 ∧ id_start unique_id_type_t.id_parallel = 1
      ∧ id_start unique_id_type_t.id_task = 1 ∧ id_start unique_id_type_t.id_timestamp = 0)
    ∧ (ks[i]? = some k →
        (draw get_unique_id id_start ks).1[i]?
          = some ((id_start k + (ks.take i).count k) % SIZE_MOD))
    ∧ (i < j → ks[i]? = some k → ks[j]? = some k → id_start k + ks.count k ≤ SIZE_MOD →
        ∃ a b, (draw get_unique_id id_start ks).1[i]? = some a
          ∧ (draw get_unique_id id_start ks).1[j]? = some b ∧ a < b)
    ∧ (∀ ids : unique_id_type_t → Nat,
        (get_unique_id ids k).1 = ids k
        ∧ (get_unique_id ids k).2 k = (ids k + 1) % SIZE_MOD
        ∧ ∀ k2, k2 ≠ k → (get_unique_id ids k).2 k2 = ids k2) := by
  have hM : 0 < SIZE_MOD := by simp [SIZE_MOD]
  have hn := draw_nth SIZE_MOD hM get_unique_id (fun _ _ => rfl) k ks id_start
  refine ⟨⟨rfl, rfl, rfl, rfl⟩, fun hi => hn i id_start_lt hi, ?_, ?_⟩
  · intro hij hi hj hb
    have h1 := count_take_lt k ks i j hij hi
    have h2 := count_take_lt_count k ks j hj
    refine ⟨_, _, hn i id_start_lt hi, hn j id_start_lt hj, ?_⟩
    rw [Nat.mod_eq_of_lt (by omega), Nat.mod_eq_of_lt (by omega)]
    omega
  · intro ids
    refine ⟨rfl, by simp [get_unique_id], ?_⟩
    intro k2 h2
    simp [get_unique_id, Function.update_noteq h2]

theorem get_unique_id_kth_witness :
    (draw get_unique_id id_start
        [unique_id_type_t.id_task, unique_id_type_t.id_thread, unique_id_type_t.id_task]).1[2]?
      = some ((id_start unique_id_type_t.id_task + 1) % SIZE_MOD)
    ∧ ∃ a b,
      (draw get_unique_id id_start
        [unique_id_type_t.id_task, unique_id_type_t.id_thread, unique_id_type_t.id_task]).1[0]?
        = some a
      ∧ (draw get_unique_id id_start
        [unique_id_type_t.id_task, unique_id_type_t.id_thread, unique_id_type_t.id_task]).1[2]?
        = some b
      ∧ a < b :=
  ⟨(get_unique_id_kth
      [unique_id_type_t.id_task, unique_id_type_t.id_thread, unique_id_type_t.id_task]
      2 2 unique_id_type_t.id_task).2.1 rfl,
   (get_unique_id_kth
      [unique_id_type_t.id_task, unique_id_type_t.id_thread, unique_id_type_t.id_task]
      0 2 unique_id_type_t.id_task).2.2.1 (by decide) rfl rfl (by simp [id_start, SIZE_MOD])⟩

/-- C12, counterexample: `get_unique_uint32_ref` keeps a 32-bit counter per type of ref.  In
the run of `2 ^ 32 + 1` calls for region refs from the start of the program, the first call
and the last call both return 0. -/
theorem uint32_ref_repeats :
    (draw get_unique_uint32_ref ref_start
        (List.replicate (UINT_MOD + 1) trace_ref_type_t.trace_region)).1[0]? = some 0
    ∧ (draw get_unique_uint32_ref ref_start
        (List.replicate (UINT_MOD + 1) trace_ref_type_t.trace_region)).1[UINT_MOD]? = some 0 := by
  have hU : 0 < UINT_MOD := by simp [UINT_MOD]
  have hn := draw_nth UINT_MOD hU get_unique_uint32_ref (fun _ _ => rfl)
    trace_ref_type_t.trace_region
    (List.replicate (UINT_MOD + 1) trace_ref_type_t.trace_region) ref_start
  constructor
  · have h0 := hn 0 (fun _ => hU) (by
      rw [List.getElem?_replicate]
      exact if_pos (Nat.succ_pos _))
    rw [h0]
    simp only [List.take_zero, List.count_nil, Nat.add_zero, ref_start, Nat.zero_mod]
  · have h1 := hn UINT_MOD (fun _ => hU) (by
      rw [List.getElem?_replicate]
      exact if_pos (Nat.lt_succ_self _))
    rw [h1, List.take_replicate, List.count_replicate_self,
      Nat.min_eq_left (Nat.le_succ _)]
    simp only [ref_start, Nat.zero_add, Nat.mod_self]

/-- C12, as amended: in a run from the start of the program, two distinct calls that draw an
identifier of one kind return different values, for `get_unique_id` (as long as the kind is
drawn at most `2 ^ 64` times), for `get_unique_uint64_ref` (at most `2 ^ 64` times) and for
`get_unique_uint32_ref` (at most `2 ^ 32` times); the counters of the refs start at 0, and a
call for one type of ref leaves the counters of the other types unchanged. -/
theorem unique_ids_differ (i j : Nat) (hij : i < j) :
    (∀ (ks : List unique_id_type_t) (k : unique_id_type_t),
      ks[i]? = some k → ks[j]? = some k → ks.count k ≤ SIZE_MOD →
      (draw get_unique_id id_start ks).1[i]? ≠ (draw get_unique_id id_start ks).1[j]?)
    ∧ (∀ (ks : List trace_ref_type_t) (k : trace_ref_type_t),
      ks[i]? = some k → ks[j]? = some k → ks.count k ≤ SIZE_MOD →
      (draw get_unique_uint64_ref ref_start ks).1[i]?
        ≠ (draw get_unique_uint64_ref ref_start ks).1[j]?)
    ∧ (∀ (ks : List trace_ref_type_t) (k : trace_ref_type_t),
      ks[i]? = some k → ks[j]? = some k → ks.count k ≤ UINT_MOD →
      (draw get_unique_uint32_ref ref_start ks).1[i]?
        ≠ (draw get_unique_uint32_ref ref_start ks).1[j]?)
    ∧ (∀ k : trace_ref_type_t, ref_start k = 0)
    ∧ (∀ (refs : trace_ref_type_t → Nat) (k k2 : trace_ref_type_t), k2 ≠ k →
        (get_unique_uint64_ref refs k).2 k2 = refs k2
        ∧ (get_unique_uint32_ref refs k).2 k2 = refs k2) := by
  have hM : 0 < SIZE_MOD := by simp [SIZE_MOD]
  have hU : 0 < UINT_MOD := by simp [UINT_MOD]
  refine ⟨?_, ?_, ?_, fun _ => rfl, ?_⟩
  · intro ks k hi hj hn
    exact draw_ne SIZE_MOD hM get_unique_id (fun _ _ => rfl) k ks id_start i j id_start_lt
      hij hi hj hn
  · intro ks k hi hj hn
    exact draw_ne SIZE_MOD hM get_unique_uint64_ref (fun _ _ => rfl) k ks ref_start i j
      (fun _ => hM) hij hi hj hn
  · intro ks k hi hj hn
    exact draw_ne UINT_MOD hU get_unique_uint32_ref (fun _ _ => rfl) k ks ref_start i j
      (fun _ => hU) hij hi hj hn
  · intro refs k k2 h2
    simp [get_unique_uint64_ref, get_unique_uint32_ref, Function.update_noteq h2]

theorem unique_ids_differ_witness :
    (draw get_unique_id id_start
        [unique_id_type_t.id_task, unique_id_type_t.id_parallel, unique_id_type_t.id_task]).1[0]?
      ≠ (draw get_unique_id id_start
        [unique_id_type_t.id_task, unique_id_type_t.id_parallel, unique_id_type_t.id_task]).1[2]?
    ∧ (draw get_unique_uint32_ref ref_start
        [trace_ref_type_t.trace_region, trace_ref_type_t.trace_string,
         trace_ref_type_t.trace_region]).1[0]?
      ≠ (draw get_unique_uint32_ref ref_start
        [trace_ref_type_t.trace_region, trace_ref_type_t.trace_string,
         trace_ref_type_t.trace_region]).1[2]? :=
  ⟨(unique_ids_differ 0 2 (by decide)).1
      [unique_id_type_t.id_task, unique_id_type_t.id_parallel, unique_id_type_t.id_task]
      unique_id_type_t.id_task rfl rfl (by simp [SIZE_MOD]),
   (unique_ids_differ 0 2 (by decide)).2.2.1
      [trace_ref_type_t.trace_region, trace_ref_type_t.trace_string,
       trace_ref_type_t.trace_region]
      trace_ref_type_t.trace_region rfl rfl (by simp [UINT_MOD])⟩

/-! ## The types of the nodes of the task graph -/

/-- C16: the macro `FLAG_NODE_TYPE_END(f)` is `f & 0x1000`, so the declaration
`node_scope_parallel_end = FLAG_NODE_TYPE_END(node_scope_parallel_begin)` gives
`node_scope_parallel_end` the value `5 & 0x1000 = 0`, not `5 | 0x1000`: the six scope-end
types have the values 0 to 5, none of them is its scope-begin type with the bit `0x1000`
set, and `FLAG_NODE_TYPE_END` is zero on every enumerator of `task_graph_node_type_t`, the
six scope-end types included. -/
theorem scope_end_types_lose_flag :
    node_scope_parallel_begin = 5
    ∧ node_scope_parallel_end = 0
    ∧ scope_pairs = [(5, 0), (6, 1), (7, 2), (8, 3), (9, 4), (10, 5)]
    ∧ (∀ p ∈ scope_pairs, p.2 ≠ p.1 ||| 0x1000)
    ∧ (∀ t ∈ all_node_types, FLAG_NODE_TYPE_END t = 0)
    ∧ (∀ p ∈ scope_pairs, FLAG_NODE_TYPE_END p.2 = 0) := by
  refine ⟨by decide, by decide, by decide, by decide, by decide, by decide⟩

/-- C17: `destroy_graph_node_data` of ompt-core-callbacks.c, the destructor handed to
`task_graph_destroy`, frees the data of a node exactly when `FLAG_NODE_TYPE_END` of the
node's type is not zero; with the values the enum has this is no node type at all: it frees
nothing at a scope-end node, and destroying a graph whose scope-begin and scope-end nodes
share the pointer `p` frees `p` zero times.  `destroy_graph_node_data` of otter.c frees the
shared pointer at the node of type `node_scope_parallel_begin` and frees nothing at the node
of type `node_scope_parallel_end`. -/
theorem end_node_data_not_freed (p : Nat) :
    (∀ ty : task_graph_node_type_t,
      ompt_core.destroy_graph_node_data p ty
        = if FLAG_NODE_TYPE_END ty ≠ 0 then [p] else [])
    ∧ (∀ ty ∈ all_node_types, ompt_core.destroy_graph_node_data p ty = [])
    ∧ ompt_core.destroy_graph_node_data p node_scope_parallel_end = []
    ∧ task_graph_destroy ompt_core.destroy_graph_node_data (scope_graph p) = []
    ∧ destroy_graph_node_data p node_scope_parallel_begin = [p]
    ∧ destroy_graph_node_data p node_scope_parallel_end = []
    ∧ task_graph_destroy destroy_graph_node_data (scope_graph p) = [p] := by
  have hb : FLAG_NODE_TYPE_END node_scope_parallel_begin = 0 := by decide
  have he : FLAG_NODE_TYPE_END node_scope_parallel_end = 0 := by decide
  have h5 : node_scope_parallel_begin = 5 := by decide
  have h0 : node_scope_parallel_end = 0 := by decide
  have h1 : node_task_initial = 1 := by decide
  have h2 : node_task_implicit = 2 := by decide
  have h3 : node_task_explicit = 3 := by decide
  have h4 : node_task_target = 4 := by decide
  refine ⟨fun _ => rfl, ?_, ?_, ?_, ?_, ?_, ?_⟩
  · intro ty hty
    have h : FLAG_NODE_TYPE_END ty = 0 := by
      revert ty
      decide
    simp [ompt_core.destroy_graph_node_data, h]
  · simp [ompt_core.destroy_graph_node_data, he]
  · simp [task_graph_destroy, scope_graph, ompt_core.destroy_graph_node_data, hb, he]
  · simp [destroy_graph_node_data, h1, h2, h3, h4, h5, parallel_destroy]
  · simp [destroy_graph_node_data, h1, h2, h3, h4, h5, h0]
  · simp [task_graph_destroy, scope_graph, destroy_graph_node_data, h1, h2, h3, h4, h5, h0,
      parallel_destroy]

/-! ## The edges added at task-create -/

theorem peek_top {st : stack_t} {x : data_item_t} {rest : List data_item_t}
    (hh : st.head = x :: rest) : (stack_peek (some st) (some 0)).2.getD 0 = x := by
  simp [stack_peek, hh]

/-- Task-create with a `NULL` encountering task, on a thread whose stack of contexts has a
live context on top: the call returns, the graph gets the node of the new task and no
edge. -/
theorem task_create_null (t : ompt_core.Tool) (thr new_task flags : Nat) (mem : Bool)
    (td : ompt_core.thread_data_t) (st : stack_t) (ctx : Nat) (rest : List data_item_t)
    (c : region_context_t)
    (hthr : t.threads thr = some td) (hst : td.region_context_stack = some st)
    (hhead : st.head = ctx :: rest) (hctx : t.context_at ctx = some c) :
    ∃ t1, ompt_core.on_ompt_callback_task_create t thr none new_task flags mem = Result.ok t1
      ∧ t1.graph.nodes
          = t.graph.nodes ++ [{ type := ompt_core.task_node_type flags, data := new_task }]
      ∧ t1.graph.edges = t.graph.edges := by
  have hc : ompt_core.Tool.context_at
      { t with
        ids := (get_unique_id t.ids unique_id_type_t.id_task).2
        tasks := Function.update t.tasks new_task
          (some { ompt_core.new_task_data (get_unique_id t.ids unique_id_type_t.id_task).1
                    flags 0 with
                  task_node_ref :=
                    (task_graph_add_node t.graph (ompt_core.task_node_type flags) new_task).1 })
        graph := (task_graph_add_node t.graph (ompt_core.task_node_type flags) new_task).2 }
      ctx = some c := hctx
  simp only [ompt_core.on_ompt_callback_task_create, hthr, hst, peek_top hhead, hc]
  exact ⟨_, rfl, rfl, rfl⟩

/-- Task-create with an encountering task, on a thread whose stack of contexts has a live
context on top: the call returns, the graph gets the node of the new task and one edge to
it, from the begin node of the context on top when the encountering task is implicit and
from the node of the encountering task when it is not. -/
theorem task_create_parent (t : ompt_core.Tool) (thr e new_task flags : Nat) (mem : Bool)
    (td : ompt_core.thread_data_t) (st : stack_t) (ctx : Nat) (rest : List data_item_t)
    (c : region_context_t) (p : ompt_core.task_data_t)
    (hthr : t.threads thr = some td) (hst : td.region_context_stack = some st)
    (hhead : st.head = ctx :: rest) (hctx : t.context_at ctx = some c)
    (hne : e ≠ new_task) (hp : t.tasks e = some p) :
    ∃ t1, ompt_core.on_ompt_callback_task_create t thr (some e) new_task flags mem
          = Result.ok t1
      ∧ t1.graph.nodes
          = t.graph.nodes ++ [{ type := ompt_core.task_node_type flags, data := new_task }]
      ∧ t1.graph.edges
          = t.graph.edges ++
              [(if p.type = ompt_task_implicit then c.context_begin_node
                else p.task_node_ref, t.graph.nodes.length + 1)]
      ∧ t1.tasks new_task
          = some { ompt_core.new_task_data (get_unique_id t.ids unique_id_type_t.id_task).1
                     flags 0 with task_node_ref := t.graph.nodes.length + 1 }
      ∧ (∀ s, s ≠ new_task → t1.tasks s = t.tasks s)
      ∧ t1.threads = t.threads
      ∧ t1.context_at ctx
          = some { c with
              context_task_graph_nodes :=
                (stack_push c.context_task_graph_nodes (t.graph.nodes.length + 1) mem).2 }
      ∧ (∀ x cx, t.context_at x = some cx → ∃ cx1, t1.context_at x = some cx1) := by
  have hc : ompt_core.Tool.context_at
      { t with
        ids := (get_unique_id t.ids unique_id_type_t.id_task).2
        tasks := Function.update t.tasks new_task
          (some { ompt_core.new_task_data (get_unique_id t.ids unique_id_type_t.id_task).1
                    flags 0 with
                  task_node_ref :=
                    (task_graph_add_node t.graph (ompt_core.task_node_type flags) new_task).1 })
        graph := (task_graph_add_node t.graph (ompt_core.task_node_type flags) new_task).2 }
      ctx = some c := hctx
  have h0 : ctx ≠ 0 := by
    intro h
    simp [ompt_core.Tool.context_at, h] at hctx
  simp only [ompt_core.on_ompt_callback_task_create, hthr, hst, peek_top hhead, hc,
    Function.update_noteq hne, hp]
  have hlive : ∀ (v : region_context_t) (x : Nat) (cx : region_context_t),
      t.context_at x = some cx →
      ∃ cx1, (if x = 0 then none else Function.update t.contexts ctx (some v) x) = some cx1 := by
    intro v x cx hx
    by_cases hx0 : x = 0
    · simp [ompt_core.Tool.context_at, hx0] at hx
    · by_cases hxc : x = ctx
      · subst hxc
        exact ⟨v, by simp [hx0]⟩
      · refine ⟨cx, ?_⟩
        simp only [ompt_core.Tool.context_at, hx0, if_false] at hx
        simp [hx0, Function.update_noteq hxc, hx]
  by_cases hi : p.type = ompt_task_implicit
  · simp only [hi, if_true]
    refine ⟨_, rfl, rfl, rfl, ?_, ?_, rfl, ?_, ?_⟩
    · simp [task_graph_add_node]
    · intro s hs
      simp [Function.update_noteq hs]
    · simp [ompt_core.Tool.context_at, h0, task_graph_add_node]
    · intro x cx hx
      exact hlive _ x cx hx
  · simp only [hi, if_false]
    refine ⟨_, rfl, rfl, rfl, ?_, ?_, rfl, ?_, ?_⟩
    · simp [task_graph_add_node]
    · intro s hs
      simp [Function.update_noteq hs]
    · simp [ompt_core.Tool.context_at, h0, task_graph_add_node]
    · intro x cx hx
      exact hlive _ x cx hx

/-- Parallel-begin that returns has stored, in the slot of the region, a record whose
context is the new context, and the begin node of that context is the node added for the
begin of the region. -/
theorem core_parallel_begin_ok {t t1 : ompt_core.Tool} {thr enc par ctx rgn q : Nat}
    {mem_nodes : Bool} {mem : enter_mem}
    (h : ompt_core.on_ompt_callback_parallel_begin t thr enc par ctx mem_nodes rgn q mem
          = Result.ok t1) :
    ∃ pd c, t1.parallels par = some pd ∧ pd.context = ctx ∧ t1.context_at ctx = some c
      ∧ c.type = context_parallel
      ∧ c.context_begin_node = pd.parallel_begin_node_ref
      ∧ pd.parallel_begin_node_ref = t.graph.nodes.length + 1
      ∧ t1.graph.nodes
          = t.graph.nodes ++ [{ type := node_scope_parallel_begin, data := par }]
      ∧ t1.threads = t.threads
      ∧ (∀ s, t1.tasks s = t.tasks s) := by
  unfold ompt_core.on_ompt_callback_parallel_begin at h
  cases hthr : t.threads thr with
  | none => simp [hthr] at h
  | some td =>
    simp only [hthr] at h
    by_cases h0 : ctx = 0
    · simp [h0] at h
    · simp only [h0, if_false] at h
      split at h
      · exact absurd h (by simp)
      · exact absurd h (by simp)
      · simp only [Result.ok.injEq] at h
        subst h
        refine ⟨{ id := (get_unique_id t.ids unique_id_type_t.id_parallel).1
                  parallel_begin_node_ref :=
                    (task_graph_add_node t.graph node_scope_parallel_begin par).1
                  parallel_end_node_ref := 0
                  encountering_task_data := Option.map (fun _ => enc) (t.tasks enc)
                  region := rgn
                  context := ctx },
                { type := context_parallel
                  context_data := some par
                  context_task_graph_nodes := stack_create mem_nodes
                  context_begin_node :=
                    (task_graph_add_node t.graph node_scope_parallel_begin par).1
                  context_end_node := 0 },
                by simp, rfl, by simp [ompt_core.Tool.context_at, h0], rfl, rfl, ?_, ?_,
                rfl, fun _ => rfl⟩
        · simp [task_graph_add_node]
        · simp [task_graph_add_node, task_graph_add_edge]

/-- Implicit-task-begin of an implicit task whose slot is empty, on a thread with a stack of
contexts: the call returns and has pushed the context of the parallel region; the graph and
the contexts are as before. -/
theorem core_implicit_begin_ok (t : ompt_core.Tool) (thr par task flags : Nat)
    (td : ompt_core.thread_data_t) (st : stack_t) (pd : ompt_core.parallel_data_t)
    (hthr : t.threads thr = some td) (hst : td.region_context_stack = some st)
    (htask : t.tasks task = none) (hfl : flags &&& TASK_TREE_TASK_TYPE_MASK = ompt_task_implicit)
    (hpar : t.parallels par = some pd) :
    ∃ t1, ompt_core.on_ompt_callback_implicit_task t thr ompt_scope_begin par task flags true
          = Result.ok t1
      ∧ t1.threads thr
          = some { td with
              region_context_stack :=
                some { head := pd.context :: st.head, size := (st.size + 1) % SIZE_MOD } }
      ∧ t1.tasks task
          = some (ompt_core.new_task_data (get_unique_id t.ids unique_id_type_t.id_task).1
                    flags 0)
      ∧ (∀ s, s ≠ task → t1.tasks s = t.tasks s)
      ∧ t1.contexts = t.contexts
      ∧ t1.graph = t.graph := by
  have hi : ¬ ompt_task_implicit = ompt_task_initial := by decide
  simp only [ompt_core.on_ompt_callback_implicit_task, hthr, htask, ompt_core.new_task_data,
    hfl, hi, if_false, if_true, hpar, hst, stack_push]
  refine ⟨_, rfl, by simp, by simp, ?_, rfl, rfl⟩
  intro s hs
  simp [Function.update_noteq hs]

/-- The chain parallel-begin, implicit-task-begin, task-create by the implicit task, on one
thread: the edge to the new task comes from the node added for the begin of the region. -/
theorem core_parallel_task_edge (t t1 : ompt_core.Tool)
    (thr enc par ctx rgn q task flags new_task flags2 : Nat) (mem_nodes mem2 : Bool)
    (mem : enter_mem) (td : ompt_core.thread_data_t) (st : stack_t)
    (h1 : ompt_core.on_ompt_callback_parallel_begin t thr enc par ctx mem_nodes rgn q mem
          = Result.ok t1)
    (hthr : t.threads thr = some td) (hst : td.region_context_stack = some st)
    (htask : t.tasks task = none)
    (hfl : flags &&& TASK_TREE_TASK_TYPE_MASK = ompt_task_implicit)
    (hne : task ≠ new_task) :
    ∃ t2 t3,
      ompt_core.on_ompt_callback_implicit_task t1 thr ompt_scope_begin par task flags true
          = Result.ok t2
      ∧ ompt_core.on_ompt_callback_task_create t2 thr (some task) new_task flags2 mem2
          = Result.ok t3
      ∧ t2.graph.nodes = t.graph.nodes ++ [{ type := node_scope_parallel_begin, data := par }]
      ∧ t3.graph.nodes
          = t2.graph.nodes ++ [{ type := ompt_core.task_node_type flags2, data := new_task }]
      ∧ t3.graph.edges
          = t2.graph.edges ++ [(t.graph.nodes.length + 1, t.graph.nodes.length + 2)] := by
  obtain ⟨pd, c, hpd, hpc, hc, _, hcb, hpb, hn, hth, hts⟩ := core_parallel_begin_ok h1
  have hthr1 : t1.threads thr = some td := by rw [hth]; exact hthr
  have htask1 : t1.tasks task = none := by rw [hts]; exact htask
  obtain ⟨t2, h2, h2thr, h2task, _, h2c, h2g⟩ :=
    core_implicit_begin_ok t1 thr par task flags td st pd hthr1 hst htask1 hfl hpd
  have hc2 : t2.context_at ctx = some c := by
    simp only [ompt_core.Tool.context_at, h2c]
    exact hc
  obtain ⟨t3, h3, h3n, h3e, _⟩ :=
    task_create_parent t2 thr task new_task flags2 mem2 _ _ ctx st.head c _ h2thr rfl
      (by rw [hpc]) hc2 hne h2task
  refine ⟨t2, t3, h2, h3, by rw [h2g, hn], h3n, ?_⟩
  rw [h3e, h2g, hn]
  simp [ompt_core.new_task_data, hfl, hcb, hpb]

/-- Implicit-task-begin of an initial task whose slot is empty: the call returns, adds a node
of type `node_task_initial` and stores its reference in the record of the task and in
`initial_task_graph_node_ref` of the thread. -/
theorem core_initial_begin_ok (t : ompt_core.Tool) (thr par task flags : Nat) (mem : Bool)
    (td : ompt_core.thread_data_t)
    (hthr : t.threads thr = some td) (htask : t.tasks task = none)
    (hfl : flags &&& TASK_TREE_TASK_TYPE_MASK = ompt_task_initial) :
    ∃ t1 d, ompt_core.on_ompt_callback_implicit_task t thr ompt_scope_begin par task flags mem
          = Result.ok t1
      ∧ t1.tasks task = some d
      ∧ d.type = ompt_task_initial
      ∧ d.task_node_ref = t.graph.nodes.length + 1
      ∧ t1.threads thr
          = some { td with initial_task_graph_node_ref := t.graph.nodes.length + 1 }
      ∧ t1.graph.nodes = t.graph.nodes ++ [{ type := node_task_initial, data := task }]
      ∧ t1.graph.edges = t.graph.edges := by
  simp only [ompt_core.on_ompt_callback_implicit_task, hthr, htask, ompt_core.new_task_data,
    hfl, if_true]
  exact ⟨_, ⟨(get_unique_id t.ids unique_id_type_t.id_task).1, ompt_task_initial,
      (task_graph_add_node t.graph node_task_initial task).1, 0⟩,
    rfl, by simp, rfl, rfl, by simp [task_graph_add_node], rfl, rfl⟩

/-- C13: task-create reads the context on top of the thread's stack of contexts
(`context->lock`, `context->context_task_graph_nodes`) before it looks at the encountering
task, and its branch for a `NULL` encountering task has no statement.  On a thread whose
stack of contexts is empty, as it is outside every parallel region, where the encountering
task is absent or is the initial task, the callback does not return: `context` is `NULL`.
So it is from the start of the tool for the task-create of the initial task, with a `NULL`
encountering task, after thread-begin, and in `ompt_core.before_parallel` for the task-create
of an explicit task by the initial task, whose node is the node 1: the new task gets no edge
from the node of the initial task.  On a thread with a live context on top of its stack,
task-create with a `NULL` encountering task returns having added the node of the new task
and no edge, and task-create with an encountering task returns having added the node and one
edge to it, from the node of the encountering task when that task is not implicit. -/
theorem task_create_initial_parent_no_edge :
    (∀ (t : ompt_core.Tool) (thr : Nat) (enc : Option Nat) (new_task flags : Nat) (mem : Bool)
        (td : ompt_core.thread_data_t) (st : stack_t),
        t.threads thr = some td → td.region_context_stack = some st → st.head = [] →
        ompt_core.on_ompt_callback_task_create t thr enc new_task flags mem = Result.fault)
    ∧ (∃ t1, ompt_core.on_ompt_callback_thread_begin ompt_core.tool_start 0 1 101 true
          = Result.ok t1
        ∧ ompt_core.on_ompt_callback_task_create t1 0 none 10 ompt_task_initial true
          = Result.fault)
    ∧ ((ompt_core.before_parallel.tasks 10).map (fun d => (d.type, d.task_node_ref))
          = some (ompt_task_initial, 1)
        ∧ ompt_core.on_ompt_callback_task_create ompt_core.before_parallel 0 (some 10) 12
            ompt_task_explicit true = Result.fault)
    ∧ (∀ (t : ompt_core.Tool) (thr new_task flags : Nat) (mem : Bool)
        (td : ompt_core.thread_data_t) (st : stack_t) (ctx : Nat) (rest : List data_item_t)
        (c : region_context_t),
        t.threads thr = some td → td.region_context_stack = some st →
        st.head = ctx :: rest → t.context_at ctx = some c →
        ∃ t1, ompt_core.on_ompt_callback_task_create t thr none new_task flags mem
              = Result.ok t1
          ∧ t1.graph.nodes
              = t.graph.nodes ++ [{ type := ompt_core.task_node_type flags, data := new_task }]
          ∧ t1.graph.edges = t.graph.edges)
    ∧ (∀ (t : ompt_core.Tool) (thr e new_task flags : Nat) (mem : Bool)
        (td : ompt_core.thread_data_t) (st : stack_t) (ctx : Nat) (rest : List data_item_t)
        (c : region_context_t) (p : ompt_core.task_data_t),
        t.threads thr = some td → td.region_context_stack = some st →
        st.head = ctx :: rest → t.context_at ctx = some c →
        e ≠ new_task → t.tasks e = some p →
        ∃ t1, ompt_core.on_ompt_callback_task_create t thr (some e) new_task flags mem
              = Result.ok t1
          ∧ t1.graph.nodes
              = t.graph.nodes ++ [{ type := ompt_core.task_node_type flags, data := new_task }]
          ∧ t1.graph.edges
              = t.graph.edges ++
                  [(if p.type = ompt_task_implicit then c.context_begin_node
                    else p.task_node_ref, t.graph.nodes.length + 1)]) := by
  refine ⟨?_, ⟨_, rfl, rfl⟩, ⟨rfl, rfl⟩, ?_, ?_⟩
  · intro t thr enc new_task flags mem td st hthr hst hh
    simp [ompt_core.on_ompt_callback_task_create, hthr, hst, stack_peek, hh,
      ompt_core.Tool.context_at]
  · intro t thr new_task flags mem td st ctx rest c hthr hst hhead hctx
    exact task_create_null t thr new_task flags mem td st ctx rest c hthr hst hhead hctx
  · intro t thr e new_task flags mem td st ctx rest c p hthr hst hhead hctx hne hp
    obtain ⟨t1, h1, hn, he, _⟩ :=
      task_create_parent t thr e new_task flags mem td st ctx rest c p hthr hst hhead
        hctx hne hp
    exact ⟨t1, h1, hn, he⟩

/-- C15: when the encountering task is an explicit or a target task, task-create (on a
thread whose stack of contexts has a live context on top) adds exactly one edge, to the node
of the new task, from the node of the encountering task.  So when an implicit task creates
the explicit task T1 and T1, on any thread of the team, creates T2, the edges added are the
edge from the begin node of the context (the scope-begin node of the parallel region) to T1
and the edge from T1 to T2; from the start of the tool, with one parallel region, the graph
ends with the nodes initial task, parallel begin, T1, T2 and the edges initial task to
parallel begin, parallel begin to T1, T1 to T2. -/
theorem explicit_parent_edge_from_parent :
    (∀ (t : ompt_core.Tool) (thr e new_task flags : Nat) (mem : Bool)
        (td : ompt_core.thread_data_t) (st : stack_t) (ctx : Nat) (rest : List data_item_t)
        (c : region_context_t) (p : ompt_core.task_data_t),
        t.threads thr = some td → td.region_context_stack = some st →
        st.head = ctx :: rest → t.context_at ctx = some c →
        e ≠ new_task → t.tasks e = some p →
        p.type = ompt_task_explicit ∨ p.type = ompt_task_target →
        ∃ t1, ompt_core.on_ompt_callback_task_create t thr (some e) new_task flags mem
              = Result.ok t1
          ∧ t1.graph.nodes
              = t.graph.nodes ++ [{ type := ompt_core.task_node_type flags, data := new_task }]
          ∧ t1.graph.edges
              = t.graph.edges ++ [(p.task_node_ref, t.graph.nodes.length + 1)])
    ∧ (∀ (t : ompt_core.Tool) (thr thr2 e T1 T2 flags1 flags2 : Nat) (mem1 mem2 : Bool)
        (td td2 : ompt_core.thread_data_t) (st st2 : stack_t) (ctx ctx2 : Nat)
        (rest rest2 : List data_item_t) (c c2 : region_context_t) (p : ompt_core.task_data_t),
        t.threads thr = some td → td.region_context_stack = some st →
        st.head = ctx :: rest → t.context_at ctx = some c →
        t.threads thr2 = some td2 → td2.region_context_stack = some st2 →
        st2.head = ctx2 :: rest2 → t.context_at ctx2 = some c2 →
        e ≠ T1 → T1 ≠ T2 → t.tasks e = some p → p.type = ompt_task_implicit →
        flags1 &&& TASK_TREE_TASK_TYPE_MASK = ompt_task_explicit →
        ∃ t1 t2,
          ompt_core.on_ompt_callback_task_create t thr (some e) T1 flags1 mem1 = Result.ok t1
          ∧ ompt_core.on_ompt_callback_task_create t1 thr2 (some T1) T2 flags2 mem2
              = Result.ok t2
          ∧ t2.graph.nodes
              = t.graph.nodes ++ [{ type := ompt_core.task_node_type flags1, data := T1 },
                                  { type := ompt_core.task_node_type flags2, data := T2 }]
          ∧ t2.graph.edges
              = t.graph.edges ++ [(c.context_begin_node, t.graph.nodes.length + 1),
                                  (t.graph.nodes.length + 1, t.graph.nodes.length + 2)])
    ∧ (∃ t2,
        ompt_core.play ompt_core.tool_start
            (ompt_core.into_parallel
              ++ [ompt_core.Callback.task_create 0 (some 11) 12 ompt_task_explicit true,
                  ompt_core.Callback.task_create 0 (some 12) 13 ompt_task_explicit true])
          = Result.ok t2
        ∧ t2.graph.nodes
            = [{ type := node_task_initial, data := 10 },
               { type := node_scope_parallel_begin, data := 1 },
               { type := node_task_explicit, data := 12 },
               { type := node_task_explicit, data := 13 }]
        ∧ t2.graph.edges = [(1, 2), (2, 3), (3, 4)]) := by
  refine ⟨?_, ?_, ⟨_, rfl, rfl, rfl⟩⟩
  · intro t thr e new_task flags mem td st ctx rest c p hthr hst hhead hctx hne hp hty
    obtain ⟨t1, h1, hn, he, _⟩ :=
      task_create_parent t thr e new_task flags mem td st ctx rest c p hthr hst hhead
        hctx hne hp
    refine ⟨t1, h1, hn, ?_⟩
    have hi : ¬ p.type = ompt_task_implicit := by
      rcases hty with h | h <;> rw [h] <;> decide
    rw [he]
    simp [hi]
  · intro t thr thr2 e T1 T2 flags1 flags2 mem1 mem2 td td2 st st2 ctx ctx2 rest rest2 c c2 p
      hthr hst hhead hctx hthr2 hst2 hhead2 hctx2 hne hne2 hp hi hfl
    obtain ⟨t1, h1, hn1, he1, hT1, _, hth1, _, hlive⟩ :=
      task_create_parent t thr e T1 flags1 mem1 td st ctx rest c p hthr hst hhead hctx hne hp
    obtain ⟨c2a, hc2a⟩ := hlive ctx2 c2 hctx2
    have hthr2a : t1.threads thr2 = some td2 := by rw [hth1]; exact hthr2
    obtain ⟨t2, h2, hn2, he2, _⟩ :=
      task_create_parent t1 thr2 T1 T2 flags2 mem2 td2 st2 ctx2 rest2 c2a _ hthr2a hst2 hhead2
        hc2a hne2 hT1
    refine ⟨t1, t2, h1, h2, ?_, ?_⟩
    · rw [hn2, hn1]
      simp
    · have hx : ¬ ompt_task_explicit = ompt_task_implicit := by decide
      rw [he2, he1, hn1]
      simp [hi, hfl, hx, ompt_core.new_task_data]

theorem explicit_parent_edge_from_parent_witness :
    (∃ t1, ompt_core.on_ompt_callback_task_create ompt_core.with_task 0 (some 12) 13
            ompt_task_explicit true = Result.ok t1
        ∧ t1.graph.edges = ompt_core.with_task.graph.edges ++ [(3, 4)])
    ∧ (∃ t1 t2,
        ompt_core.on_ompt_callback_task_create ompt_core.in_parallel 0 (some 11) 12
            ompt_task_explicit true = Result.ok t1
        ∧ ompt_core.on_ompt_callback_task_create t1 0 (some 12) 13 ompt_task_explicit true
            = Result.ok t2
        ∧ t2.graph.edges = ompt_core.in_parallel.graph.edges ++ [(2, 3), (3, 4)]) := by
  constructor
  · obtain ⟨t1, h1, _, he⟩ :=
      explicit_parent_edge_from_parent.1 ompt_core.with_task 0 12 13 ompt_task_explicit
        true _ _ 301 [] _ _ rfl rfl rfl rfl (by decide) rfl (Or.inl rfl)
    exact ⟨t1, h1, he⟩
  · obtain ⟨t1, t2, h1, h2, _, he⟩ :=
      explicit_parent_edge_from_parent.2.1 ompt_core.in_parallel 0 0 11 12 13
        ompt_task_explicit ompt_task_explicit true true _ _ _ _ 301 301 [] [] _ _ _
        rfl rfl rfl rfl rfl rfl rfl rfl (by decide) (by decide) rfl rfl rfl
    exact ⟨t1, t2, h1, h2, he⟩

/-! ## Workshare and synchronisation regions -/

/-- An enter of a live region that is neither parallel nor unhandled, on a location whose
region stack has room, followed by a leave on that location: both calls return, the Enter
and the Leave are written with the ref of the region, the leave pops the region the enter
pushed, and the region stack is as before the enter. -/
theorem enter_leave_plain (w : World) (self region : Nat) (mem : enter_mem)
    (r : trace_region_def_t) (st : stack_t)
    (hr : w.region_at region = some r) (hp : r.type ≠ trace_region_parallel)
    (hu : r.type ≠ trace_region_unhandled) (hs : (w.locs self).rgn_stack = some st)
    (hsz : st.size + 1 < SIZE_MOD) (hm : mem.rgn_node = true) :
    ∃ w1 w2, trace_event_enter w self region mem = Result.ok w1
      ∧ trace_event_leave w1 self = Result.ok w2
      ∧ w1.log = w.log ++ [Eff.Enter self r.ref]
      ∧ w2.log = w1.log ++ [Eff.Leave self r.ref]
      ∧ (w1.locs self).rgn_stack = some { head := region :: st.head, size := st.size + 1 }
      ∧ (w2.locs self).rgn_stack = some st
      ∧ w1.region_at region = some r
      ∧ w2.region_at region = some r := by
  obtain ⟨w1, h1⟩ := enter_returns w self region mem r hr hu
  obtain ⟨r1, hr1, _, _, hst1, _, _, hplain1, _⟩ := enter_ok h1
  rw [hr] at hr1
  simp only [Option.some.injEq] at hr1
  subst hr1
  obtain ⟨hreg1, hlog1, _, _⟩ := hplain1 hp
  have hst1a : (w1.locs self).rgn_stack
      = some { head := region :: st.head, size := st.size + 1 } := by
    rw [hst1, hs, hm]
    simp [stack_push, Nat.mod_eq_of_lt hsz]
  have hra : w1.region_at region = some r := by
    simp only [World.region_at, hreg1] at hr ⊢
    exact hr
  obtain ⟨w2, h2⟩ := leave_returns w1 self _ region st.head r hst1a (by simp) rfl hra hu
  obtain ⟨st2, p2, rest2, r2, hs2, _, hh2, hr2, _, _, hst2, _, _, hplain2, _⟩ := leave_ok h2
  rw [hst1a] at hs2
  simp only [Option.some.injEq] at hs2
  subst hs2
  simp only [List.cons.injEq] at hh2
  obtain ⟨hp2, hrest2⟩ := hh2
  subst hp2
  subst hrest2
  rw [hra] at hr2
  simp only [Option.some.injEq] at hr2
  subst hr2
  obtain ⟨hreg2, hlog2, _, _⟩ := hplain2 hp
  refine ⟨w1, w2, h1, h2, hlog1, hlog2, hst1a, ?_, hra, ?_⟩
  · rw [hst2]
    have hsize : (st.size + 1 + SIZE_MOD - 1) % SIZE_MOD = st.size := by
      have : st.size + 1 + SIZE_MOD - 1 = st.size + SIZE_MOD := by omega
      rw [this, Nat.add_mod_right, Nat.mod_eq_of_lt (by omega)]
    show some ({ head := st.head, size := (st.size + 1 + SIZE_MOD - 1) % SIZE_MOD } : stack_t)
      = some st
    rw [hsize]
  · simp only [World.region_at, hreg2] at hra ⊢
    exact hra

/-- C19: for every kind of synchronisation region, the sync-region callback with endpoint
begin, on a thread whose location has room on its region stack (the node of the push being
allocated), creates a synchronise region of that kind and records its Enter, and the
callback with endpoint end that follows records the Leave of that same region (the region
it pops is the one pushed, the event carries its ref) and leaves the region stack as it was;
the attribute lists written with the Enter and with the Leave both hold the attribute
`sync_type` with the string ref of the label of the kind. -/
theorem sync_region_enter_leave (t : Tool) (thr kind task rgn task2 rgn2 : Nat)
    (mem mem2 : enter_mem) (td : thread_data_t) (d : task_data_t) (st : stack_t)
    (refs : attr_refs_t) (cpu cpu2 : Int)
    (hthr : t.threads thr = some td) (htask : t.tasks task = some d)
    (hst : (t.w.locs td.location).rgn_stack = some st) (hsz : st.size + 1 < SIZE_MOD)
    (hrgn : rgn ≠ 0) (hmem : mem.rgn_node = true) :
    ∃ t1 t2 r,
      on_ompt_callback_sync_region t thr kind ompt_scope_begin task rgn mem = Result.ok t1
      ∧ on_ompt_callback_sync_region t1 thr kind ompt_scope_end task2 rgn2 mem2 = Result.ok t2
      ∧ t1.w.region_at rgn = some r
      ∧ r.type = trace_region_synchronise
      ∧ r.attr.sync_type = kind
      ∧ r.ref = t.refs trace_ref_type_t.trace_region
      ∧ t1.w.log = t.w.log ++ [Eff.Enter td.location r.ref]
      ∧ t2.w.log = t1.w.log ++ [Eff.Leave td.location r.ref]
      ∧ (t1.w.locs td.location).rgn_stack
          = some { head := rgn :: st.head, size := st.size + 1 }
      ∧ (t2.w.locs td.location).rgn_stack = some st
      ∧ t2.w.region_at rgn = some r
      ∧ (∃ l, enter_attributes refs cpu r = some l
          ∧ (attr_sync_type, attr_value_t.StringRef (refs.SYNC_TYPE_TO_STR_REF kind)) ∈ l)
      ∧ (∃ l, leave_attributes refs cpu2 r = some l
          ∧ (attr_sync_type, attr_value_t.StringRef (refs.SYNC_TYPE_TO_STR_REF kind)) ∈ l) := by
  have hW : (trace_new_sync_region t.w t.refs kind d.id rgn).1
      = t.w.set_region rgn
          (some { new_region (get_unique_uint32_ref t.refs trace_ref_type_t.trace_region).1
                    trace_region_synchronise 0 with
                  attr := { sync_type := kind, encountering_task_id := d.id } }) := by
    simp [trace_new_sync_region, hrgn]
  have hr : ((trace_new_sync_region t.w t.refs kind d.id rgn).1).region_at rgn
      = some { new_region (get_unique_uint32_ref t.refs trace_ref_type_t.trace_region).1
                 trace_region_synchronise 0 with
               attr := { sync_type := kind, encountering_task_id := d.id } } := by
    rw [hW]
    simp [World.region_at, World.set_region, hrgn]
  have hs : (((trace_new_sync_region t.w t.refs kind d.id rgn).1).locs td.location).rgn_stack
      = some st := by
    rw [hW]
    exact hst
  obtain ⟨w1, w2, h1, h2, hl1, hl2, hs1, hs2, hr1, hr2⟩ :=
    enter_leave_plain _ td.location rgn mem _ st hr (by simp [new_region])
      (by simp [new_region]) hs hsz hmem
  have hlog : ((trace_new_sync_region t.w t.refs kind d.id rgn).1).log = t.w.log := by
    rw [hW]
    rfl
  refine ⟨{ t with w := w1, refs := (trace_new_sync_region t.w t.refs kind d.id rgn).2 },
    { t with w := w2, refs := (trace_new_sync_region t.w t.refs kind d.id rgn).2 }, _,
    ?_, ?_, hr1, rfl, rfl, rfl, ?_, hl2, hs1, hs2, hr2, ?_, ?_⟩
  · simp only [on_ompt_callback_sync_region, hthr, htask, trace_event, h1, Tool.with_world]
  · simp only [on_ompt_callback_sync_region, hthr, trace_event, h2, Tool.with_world]
  · rw [hl1, hlog]
  · refine ⟨_, rfl, ?_⟩
    simp [trace_add_sync_attributes, OTF2_AttributeList_AddStringRef, new_region]
  · refine ⟨_, rfl, ?_⟩
    simp [trace_add_sync_attributes, OTF2_AttributeList_AddStringRef, new_region]

/-- The work callback at a begin endpoint and then at an end endpoint, for a kind of
construct that the callback records: the region created is a workshare region with the kind
and the count, its Enter and its Leave are written and the region stack is as before. -/
theorem work_pair_recorded (t : Tool) (thr wstype count rgn count2 rgn2 : Nat)
    (mem mem2 : enter_mem) (td : thread_data_t) (st : stack_t)
    (hk : wstype = ompt_work_loop ∨ wstype = ompt_work_sections
      ∨ wstype = ompt_work_single_executor ∨ wstype = ompt_work_single_other
      ∨ wstype = ompt_work_taskloop)
    (hthr : t.threads thr = some td)
    (hst : (t.w.locs td.location).rgn_stack = some st) (hsz : st.size + 1 < SIZE_MOD)
    (hrgn : rgn ≠ 0) (hmem : mem.rgn_node = true) :
    ∃ t1 t2 r,
      on_ompt_callback_work t thr wstype ompt_scope_begin count rgn mem = Result.ok t1
      ∧ on_ompt_callback_work t1 thr wstype ompt_scope_end count2 rgn2 mem2 = Result.ok t2
      ∧ t1.w.region_at rgn = some r
      ∧ r.type = trace_region_workshare
      ∧ r.attr.wshare_type = wstype
      ∧ r.attr.wshare_count = count
      ∧ r.ref = t.refs trace_ref_type_t.trace_region
      ∧ t1.w.log = t.w.log ++ [Eff.Enter td.location r.ref]
      ∧ t2.w.log = t1.w.log ++ [Eff.Leave td.location r.ref]
      ∧ (t1.w.locs td.location).rgn_stack
          = some { head := rgn :: st.head, size := st.size + 1 }
      ∧ (t2.w.locs td.location).rgn_stack = some st := by
  have hW : (trace_new_workshare_region t.w t.refs wstype count rgn).1
      = t.w.set_region rgn
          (some { new_region (get_unique_uint32_ref t.refs trace_ref_type_t.trace_region).1
                    trace_region_workshare 0 with
                  attr := { wshare_type := wstype, wshare_count := count } }) := by
    simp [trace_new_workshare_region, hrgn]
  have hr : ((trace_new_workshare_region t.w t.refs wstype count rgn).1).region_at rgn
      = some { new_region (get_unique_uint32_ref t.refs trace_ref_type_t.trace_region).1
                 trace_region_workshare 0 with
               attr := { wshare_type := wstype, wshare_count := count } } := by
    rw [hW]
    simp [World.region_at, World.set_region, hrgn]
  have hs : (((trace_new_workshare_region t.w t.refs wstype count rgn).1).locs
      td.location).rgn_stack = some st := by
    rw [hW]
    exact hst
  obtain ⟨w1, w2, h1, h2, hl1, hl2, hs1, hs2, hr1, _⟩ :=
    enter_leave_plain _ td.location rgn mem _ st hr (by simp [new_region])
      (by simp [new_region]) hs hsz hmem
  have hlog : ((trace_new_workshare_region t.w t.refs wstype count rgn).1).log = t.w.log := by
    rw [hW]
    rfl
  have hb : ompt_scope_begin ≠ ompt_scope_end := by decide
  have he : ompt_scope_end ≠ ompt_scope_begin := by decide
  by_cases hx : wstype = ompt_work_single_executor
  · refine ⟨{ t with
        w := w1
        refs := (trace_new_workshare_region t.w t.refs wstype count rgn).2
        threads := Function.update t.threads thr (some { td with is_single := true }) },
      { t with
        w := w2
        refs := (trace_new_workshare_region t.w t.refs wstype count rgn).2
        threads := Function.update (Function.update t.threads thr
          (some { td with is_single := true })) thr
            (some { td with is_single := false }) }, _,
      ?_, ?_, hr1, rfl, rfl, rfl, rfl, ?_, hl2, hs1, hs2⟩
    · simp only [on_ompt_callback_work, hthr, hx, true_and, if_true, or_true, true_or,
        trace_event, Tool.with_world, hb, and_false, if_false]
      rw [← hx, h1]
    · simp only [on_ompt_callback_work, Function.update_same, hx, true_and, he, and_false,
        if_false, or_true, true_or, if_true, trace_event, Tool.with_world, h2, and_self]
    · rw [hl1, hlog]
  · have hk' := hk
    simp only [hx, false_or] at hk'
    refine ⟨{ t with
        w := w1
        refs := (trace_new_workshare_region t.w t.refs wstype count rgn).2 },
      { t with
        w := w2
        refs := (trace_new_workshare_region t.w t.refs wstype count rgn).2 }, _,
      ?_, ?_, hr1, rfl, rfl, rfl, rfl, ?_, hl2, hs1, hs2⟩
    · simp only [on_ompt_callback_work, hthr, hx, false_and, if_false, false_or, hk',
        if_true, trace_event, Tool.with_world, h1]
    · simp only [on_ompt_callback_work, hthr, hx, false_and, if_false, false_or, hk',
        if_true, trace_event, Tool.with_world, h2]
    · rw [hl1, hlog]

theorem sync_region_enter_leave_witness :
    ∃ t1 t2 r,
      on_ompt_callback_sync_region in_region_tool 0 ompt_sync_region_barrier_implicit
          ompt_scope_begin 10 7 (mem_ok 0) = Result.ok t1
      ∧ on_ompt_callback_sync_region t1 0 ompt_sync_region_barrier_implicit ompt_scope_end
          10 0 (mem_ok 0) = Result.ok t2
      ∧ t1.w.region_at 7 = some r
      ∧ r.attr.sync_type = ompt_sync_region_barrier_implicit
      ∧ t2.w.log = in_region_tool.w.log ++ [Eff.Enter 1 r.ref] ++ [Eff.Leave 1 r.ref]
      ∧ (t2.w.locs 1).rgn_stack = (in_region_tool.w.locs 1).rgn_stack := by
  obtain ⟨t1, t2, r, h1, h2, hr, _, hk, _, hl1, hl2, _, hs2, _⟩ :=
    sync_region_enter_leave in_region_tool 0 ompt_sync_region_barrier_implicit 10 7 10 0
      (mem_ok 0) (mem_ok 0) _ _ { head := [5], size := 1 } demo_refs 0 0 rfl rfl rfl
      (by simp [SIZE_MOD]) (by decide) rfl
  exact ⟨t1, t2, r, h1, h2, hr, hk, by rw [hl2, hl1], hs2⟩

/-- C18: the work callback of otter.c tests the kind of the construct against loop,
sections, single_executor, single_other and taskloop, and not against distribute: for the
kind `ompt_work_distribute`, with every count and at both endpoints, it returns with the
tool unchanged, no region created and no Enter or Leave written.  For each of the five kinds
it tests, the callback with endpoint begin creates a workshare region with the kind and the
count and writes its Enter, the callback with endpoint end that follows writes the Leave of
that region, the region stack is as before the pair, and the attribute list of the Enter
holds the kind and the count. -/
theorem work_distribute_not_recorded :
    (∀ (t : Tool) (thr : Nat) (endpoint : ompt_scope_endpoint_t) (count rgn : Nat)
        (mem : enter_mem) (td : thread_data_t), t.threads thr = some td →
        on_ompt_callback_work t thr ompt_work_distribute endpoint count rgn mem = Result.ok t)
    ∧ (∃ t1,
        on_ompt_callback_work in_region_tool 0 ompt_work_distribute ompt_scope_begin 8 7
            (mem_ok 0) = Result.ok t1
        ∧ t1.w.log = in_region_tool.w.log
        ∧ t1.w.region_at 7 = none
        ∧ (t1.w.locs 1).rgn_stack = (in_region_tool.w.locs 1).rgn_stack)
    ∧ (∀ (t : Tool) (thr wstype count rgn count2 rgn2 : Nat) (mem mem2 : enter_mem)
        (td : thread_data_t) (st : stack_t) (refs : attr_refs_t) (cpu : Int),
        wstype = ompt_work_loop ∨ wstype = ompt_work_sections
          ∨ wstype = ompt_work_single_executor ∨ wstype = ompt_work_single_other
          ∨ wstype = ompt_work_taskloop →
        t.threads thr = some td →
        (t.w.locs td.location).rgn_stack = some st → st.size + 1 < SIZE_MOD →
        rgn ≠ 0 → mem.rgn_node = true →
        ∃ t1 t2 r,
          on_ompt_callback_work t thr wstype ompt_scope_begin count rgn mem = Result.ok t1
          ∧ on_ompt_callback_work t1 thr wstype ompt_scope_end count2 rgn2 mem2 = Result.ok t2
          ∧ t1.w.region_at rgn = some r
          ∧ r.type = trace_region_workshare
          ∧ r.attr.wshare_type = wstype
          ∧ r.attr.wshare_count = count
          ∧ t1.w.log = t.w.log ++ [Eff.Enter td.location r.ref]
          ∧ t2.w.log = t1.w.log ++ [Eff.Leave td.location r.ref]
          ∧ (t2.w.locs td.location).rgn_stack = some st
          ∧ (∃ l, enter_attributes refs cpu r = some l
              ∧ (attr_workshare_type,
                  attr_value_t.StringRef (refs.WORK_TYPE_TO_STR_REF wstype)) ∈ l
              ∧ (attr_workshare_count, attr_value_t.Uint64 (count % SIZE_MOD)) ∈ l)) := by
  have hd : ∀ (t : Tool) (thr : Nat) (endpoint : ompt_scope_endpoint_t) (count rgn : Nat)
      (mem : enter_mem) (td : thread_data_t), t.threads thr = some td →
      on_ompt_callback_work t thr ompt_work_distribute endpoint count rgn mem
        = Result.ok t := by
    intro t thr endpoint count rgn mem td hthr
    have h1 : ¬ ompt_work_distribute = ompt_work_single_executor := by decide
    have h2 : ¬ ompt_work_distribute = ompt_work_loop := by decide
    have h3 : ¬ ompt_work_distribute = ompt_work_sections := by decide
    have h4 : ¬ ompt_work_distribute = ompt_work_single_other := by decide
    have h5 : ¬ ompt_work_distribute = ompt_work_taskloop := by decide
    simp only [on_ompt_callback_work, hthr, h1, h2, h3, h4, h5, false_and, or_self, if_false]
  refine ⟨hd, ⟨_, hd in_region_tool 0 ompt_scope_begin 8 7 (mem_ok 0) _ rfl, rfl, rfl, rfl⟩,
    ?_⟩
  intro t thr wstype count rgn count2 rgn2 mem mem2 td st refs cpu hk hthr hst hsz hrgn hmem
  obtain ⟨t1, t2, r, h1, h2, hr, hty, hws, hc, _, hl1, hl2, _, hs2⟩ :=
    work_pair_recorded t thr wstype count rgn count2 rgn2 mem mem2 td st hk hthr hst hsz
      hrgn hmem
  refine ⟨t1, t2, r, h1, h2, hr, hty, hws, hc, hl1, hl2, hs2, ?_⟩
  obtain ⟨ref, ty, rp, rc, ec, q, attr⟩ := r
  simp only at hty hws hc
  subst hty
  refine ⟨_, rfl, ?_, ?_⟩
  · simp [trace_add_workshare_attributes, OTF2_AttributeList_AddStringRef,
      OTF2_AttributeList_AddUint64, hws]
  · simp [trace_add_workshare_attributes, OTF2_AttributeList_AddStringRef,
      OTF2_AttributeList_AddUint64, hc]

theorem work_distribute_not_recorded_witness :
    on_ompt_callback_work in_region_tool 0 ompt_work_distribute ompt_scope_end 8 0 (mem_ok 0)
      = Result.ok in_region_tool
    ∧ ∃ t1 t2 r,
      on_ompt_callback_work in_region_tool 0 ompt_work_loop ompt_scope_begin 8 7 (mem_ok 0)
          = Result.ok t1
      ∧ on_ompt_callback_work t1 0 ompt_work_loop ompt_scope_end 8 0 (mem_ok 0) = Result.ok t2
      ∧ t1.w.region_at 7 = some r
      ∧ r.attr.wshare_count = 8
      ∧ t2.w.log = in_region_tool.w.log ++ [Eff.Enter 1 r.ref] ++ [Eff.Leave 1 r.ref] := by
  refine ⟨work_distribute_not_recorded.1 in_region_tool 0 ompt_scope_end 8 0 (mem_ok 0) _ rfl,
    ?_⟩
  obtain ⟨t1, t2, r, h1, h2, hr, _, _, hc, hl1, hl2, _⟩ :=
    work_distribute_not_recorded.2.2 in_region_tool 0 ompt_work_loop 8 7 8 0 (mem_ok 0)
      (mem_ok 0) _ { head := [5], size := 1 } demo_refs 0 (Or.inl rfl) rfl rfl
      (by simp [SIZE_MOD]) (by decide) rfl
  exact ⟨t1, t2, r, h1, h2, hr, hc, by rw [hl2, hl1]⟩

/-! ## Parallel-end with a null parallel region -/

/-- C20, counterexample: the initial thread runs its implicit task inside a parallel region
and parallel-end is called with a `NULL` parallel argument, or with a slot whose `ptr` is
`NULL` (slot 9): the callback of otter.c returns, with the tool unchanged, and the callback
of ompt-core-callbacks.c returns too; neither aborts. -/
theorem parallel_end_null_returns :
    on_ompt_callback_parallel_end in_region_tool 0 none = Result.ok in_region_tool
    ∧ in_region_tool.parallels 9 = none
    ∧ on_ompt_callback_parallel_end in_region_tool 0 (some 9) = Result.ok in_region_tool
    ∧ Result.aborted (on_ompt_callback_parallel_end in_region_tool 0 none) = false
    ∧ Result.aborted (on_ompt_callback_parallel_end in_region_tool 0 (some 9)) = false
    ∧ Result.returned (ompt_core.on_ompt_callback_parallel_end ompt_core.in_parallel 0 none)
        = true
    ∧ Result.returned
        (ompt_core.on_ompt_callback_parallel_end ompt_core.in_parallel 0 (some 9)) = true :=
  ⟨rfl, rfl, rfl, rfl, rfl, rfl, rfl⟩

/-- C20, as amended: when the parallel-end callback receives a null parallel region (the
parallel argument is `NULL` or its `ptr` is `NULL`), the callback of otter.c returns and
leaves the tool as it was: no Leave event is recorded and `is_master_thread` is not reset.
The callback of ompt-core-callbacks.c, on a thread whose stack of contexts has a live
context on top, returns having popped that context and nothing else: no Leave event, no
node, no edge.  Neither callback aborts (the error is only logged). -/
theorem parallel_end_null_only_logged :
    (∀ (t : Tool) (thr : Nat) (parallel : Option Nat) (td : thread_data_t),
        t.threads thr = some td → parallel.bind t.parallels = none →
        on_ompt_callback_parallel_end t thr parallel = Result.ok t)
    ∧ (∀ (t : ompt_core.Tool) (thr : Nat) (parallel : Option Nat)
        (td : ompt_core.thread_data_t) (st : stack_t) (ctx : Nat) (rest : List data_item_t)
        (c : region_context_t),
        t.threads thr = some td → td.region_context_stack = some st →
        st.head = ctx :: rest → t.context_at ctx = some c →
        parallel.bind t.parallels = none →
        ∃ t1, ompt_core.on_ompt_callback_parallel_end t thr parallel = Result.ok t1
          ∧ t1.threads thr
              = some { td with
                  region_context_stack :=
                    some { head := rest, size := (st.size + SIZE_MOD - 1) % SIZE_MOD } }
          ∧ (∀ s, s ≠ thr → t1.threads s = t.threads s)
          ∧ t1.w = t.w ∧ t1.graph = t.graph ∧ t1.contexts = t.contexts
          ∧ t1.parallels = t.parallels ∧ t1.tasks = t.tasks) := by
  constructor
  · intro t thr parallel td hthr hp
    simp only [on_ompt_callback_parallel_end, hthr, hp]
  · intro t thr parallel td st ctx rest c hthr hst hhead hctx hp
    have hc : ompt_core.Tool.context_at
        { t with
          threads := Function.update t.threads thr
            (some { td with
              region_context_stack :=
                some { head := rest, size := (st.size + SIZE_MOD - 1) % SIZE_MOD } }) }
        ctx = some c := hctx
    cases parallel with
    | none =>
      simp only [ompt_core.on_ompt_callback_parallel_end, hthr, hst, stack_pop_some_cons hhead,
        Option.map_some', Option.getD_some, hc]
      refine ⟨_, rfl, by simp, ?_, rfl, rfl, rfl, rfl, rfl⟩
      intro s hs
      simp [Function.update_noteq hs]
    | some par =>
      have hp1 : t.parallels par = none := hp
      simp only [ompt_core.on_ompt_callback_parallel_end, hthr, hst, stack_pop_some_cons hhead,
        Option.map_some', Option.getD_some, hc, hp1]
      refine ⟨_, rfl, by simp, ?_, rfl, rfl, rfl, rfl, rfl⟩
      intro s hs
      simp [Function.update_noteq hs]

theorem parallel_end_null_only_logged_witness :
    on_ompt_callback_parallel_end in_region_tool 0 (some 9) = Result.ok in_region_tool
    ∧ ∃ t1, ompt_core.on_ompt_callback_parallel_end ompt_core.in_parallel 0 none = Result.ok t1
        ∧ t1.w = ompt_core.in_parallel.w ∧ t1.graph = ompt_core.in_parallel.graph := by
  refine ⟨parallel_end_null_only_logged.1 in_region_tool 0 (some 9) _ rfl rfl, ?_⟩
  obtain ⟨t1, h1, _, _, hw, hg, _⟩ :=
    parallel_end_null_only_logged.2 ompt_core.in_parallel 0 none _ _ 301 [] _ rfl rfl rfl rfl
      rfl
  exact ⟨t1, h1, hw, hg⟩

/-! ## The stack: its size, and its destruction -/

theorem stack_calls_append (s : Option stack_t) (a b : List stack_call) :
    stack_calls s (a ++ b) = stack_calls (stack_calls s a) b := by
  induction a generalizing s with
  | nil => rfl
  | cons c cs ih => exact ih _

/-- After any calls on a stack whose size field is the number of its nodes modulo `2 ^ 64`,
the size field is again the number of nodes modulo `2 ^ 64`, and the stack has at most one
node more per call. -/
theorem stack_calls_size (cs : List stack_call) :
    ∀ st : stack_t, st.size = st.head.length % SIZE_MOD →
      ∃ st1, stack_calls (some st) cs = some st1
        ∧ st1.size = st1.head.length % SIZE_MOD
        ∧ st1.head.length ≤ st.head.length + cs.length := by
  induction cs with
  | nil => intro st h; exact ⟨st, rfl, h, by simp⟩
  | cons c cs ih =>
    intro st h
    have hM : 0 < SIZE_MOD := by simp [SIZE_MOD]
    cases c with
    | push item mem =>
      cases mem with
      | false =>
        obtain ⟨st1, h1, h2, h3⟩ := ih st h
        exact ⟨st1, by simpa [stack_calls, stack_call.apply, stack_push] using h1, h2,
          by simp only [List.length_cons]; omega⟩
      | true =>
        obtain ⟨st1, h1, h2, h3⟩ :=
          ih { head := item :: st.head, size := (st.size + 1) % SIZE_MOD }
            (by simp only [List.length_cons, h, Nat.mod_add_mod])
        refine ⟨st1, by simpa [stack_calls, stack_call.apply, stack_push] using h1, h2, ?_⟩
        simp only [List.length_cons] at h3 ⊢
        omega
    | pop dest =>
      cases hh : st.head with
      | nil =>
        obtain ⟨st1, h1, h2, h3⟩ := ih st h
        refine ⟨st1, by simpa [stack_calls, stack_call.apply, stack_pop, hh] using h1, h2, ?_⟩
        simp only [hh, List.length_cons, List.length_nil] at h3 ⊢
        omega
      | cons x rest =>
        obtain ⟨st1, h1, h2, h3⟩ :=
          ih { head := rest, size := (st.size + SIZE_MOD - 1) % SIZE_MOD }
            (by
              simp only [h, hh, List.length_cons]
              have := Nat.mod_lt (rest.length + 1) hM
              have e : (rest.length + 1) % SIZE_MOD + SIZE_MOD - 1
                  = ((rest.length + 1) % SIZE_MOD + (SIZE_MOD - 1)) := by omega
              rw [e, Nat.mod_add_mod]
              have e2 : rest.length + 1 + (SIZE_MOD - 1) = rest.length + SIZE_MOD := by omega
              rw [e2, Nat.add_mod_right])
        refine ⟨st1, by simpa [stack_calls, stack_call.apply, stack_pop, hh] using h1, h2, ?_⟩
        simp only [hh, List.length_cons] at h3 ⊢
        omega
    | peek dest =>
      obtain ⟨st1, h1, h2, h3⟩ := ih st h
      exact ⟨st1, by simpa [stack_calls, stack_call.apply] using h1, h2,
        by simp only [List.length_cons]; omega⟩

/-- C30: a stack obtained from `stack_create` by calls of `stack_push`, `stack_pop` and
`stack_peek` (fewer than `2 ^ 64 - 1` of them, so that the number of nodes fits the `size_t`
field) has its size field equal to the number of nodes reached from its head; `stack_size`
returns that number and `stack_is_empty` is true exactly when the head is `NULL`.  On such a
stack a successful push raises the size by 1, a successful pop lowers it by 1, also with a
`NULL` destination (nothing is written then), and a failed push, a failed pop and
`stack_peek` leave the stack as it is. -/
theorem stack_size_counts_nodes (cs : List stack_call) (hn : cs.length + 1 < SIZE_MOD) :
    ∃ st, stack_calls (stack_create true) cs = some st
      ∧ st.size = st.head.length
      ∧ stack_size (some st) = st.head.length
      ∧ (stack_is_empty (some st) = true ↔ st.head = [])
      ∧ (∀ item,
          (stack_push (some st) item true).1 = true
          ∧ stack_size (stack_push (some st) item true).2 = stack_size (some st) + 1
          ∧ depth (stack_push (some st) item true).2 = depth (some st) + 1)
      ∧ (∀ dest, st.head ≠ [] →
          (stack_pop (some st) dest).1 = true
          ∧ stack_size (stack_pop (some st) dest).2.1 + 1 = stack_size (some st)
          ∧ depth (stack_pop (some st) dest).2.1 + 1 = depth (some st)
          ∧ (dest = none → (stack_pop (some st) dest).2.2 = none))
      ∧ (∀ dest, st.head = [] → stack_pop (some st) dest = (false, some st, dest))
      ∧ (∀ item, stack_push (some st) item false = (false, some st))
      ∧ (∀ dest, (stack_call.peek dest).apply (some st) = some st) := by
  obtain ⟨st, h1, h2, h3⟩ :=
    stack_calls_size cs { head := [], size := 0 } (by simp)
  simp only [List.length_nil, Nat.zero_add] at h3
  have hlt : st.head.length + 1 < SIZE_MOD := by omega
  have hsz : st.size = st.head.length := by
    rw [h2, Nat.mod_eq_of_lt (by omega)]
  refine ⟨st, h1, hsz, hsz, ?_, ?_, ?_, ?_, ?_, ?_⟩
  · simp only [stack_is_empty, hsz]
    constructor
    · intro h
      by_cases h0 : st.head.length = 0
      · exact List.length_eq_zero.mp h0
      · simp [h0] at h
    · intro h
      simp [h]
  · intro item
    refine ⟨rfl, ?_, ?_⟩
    · simp only [stack_push, stack_size, if_true, hsz]
      exact Nat.mod_eq_of_lt hlt
    · simp [stack_push, depth]
  · intro dest hne
    cases hh : st.head with
    | nil => exact absurd hh hne
    | cons x rest =>
      have hs1 : st.size = rest.length + 1 := by rw [hsz, hh]; rfl
      have hr : rest.length + 1 < SIZE_MOD := by
        have := hlt
        rw [hh] at this
        simp only [List.length_cons] at this
        omega
      refine ⟨by simp [stack_pop, hh], ?_, ?_, ?_⟩
      · simp only [stack_pop, hh, stack_size, hs1]
        have e : rest.length + 1 + SIZE_MOD - 1 = rest.length + SIZE_MOD := by omega
        rw [e, Nat.add_mod_right, Nat.mod_eq_of_lt (by omega)]
      · simp [stack_pop, hh, depth]
      · intro hd
        subst hd
        simp [stack_pop, hh]
  · intro dest hnil
    simp [stack_pop, hnil]
  · intro item
    rfl
  · intro dest
    rfl

theorem stack_size_counts_nodes_witness :
    ∃ st, stack_calls (stack_create true)
            [stack_call.push 7 true, stack_call.push 8 true, stack_call.peek (some 0),
             stack_call.pop none] = some st
      ∧ st.size = st.head.length
      ∧ (stack_is_empty (some st) = true ↔ st.head = []) := by
  obtain ⟨st, h1, h2, _, h4, _⟩ :=
    stack_size_counts_nodes
      [stack_call.push 7 true, stack_call.push 8 true, stack_call.peek (some 0),
       stack_call.pop none] (by simp [SIZE_MOD])
  exact ⟨st, h1, h2, h4⟩

/-- The loop of `stack_destroy` with more fuel than the stack has nodes: it is left by its
condition, with the stack empty, after one call per node, from the top down, when `items`
is set, and no call when it is not. -/
theorem stack_destroy_loop_spec (items destructor : Bool) :
    ∀ (l : List data_item_t) (st : stack_t) (fuel : Nat) (d : data_item_t),
      st.head = l → l.length < fuel →
      ∃ st1, stack_destroy_loop items destructor fuel (some st) d
          = ((if items then
                l.map (fun x =>
                  if destructor then destroy_call.destructor x else destroy_call.free x)
              else []), some st1, true)
        ∧ st1.head = [] := by
  intro l
  induction l with
  | nil =>
    intro st fuel d hh hf
    cases fuel with
    | zero => simp at hf
    | succ fuel =>
      refine ⟨st, ?_, hh⟩
      simp [stack_destroy_loop, stack_pop, hh]
  | cons x rest ih =>
    intro st fuel d hh hf
    cases fuel with
    | zero => simp at hf
    | succ fuel =>
      simp only [List.length_cons] at hf
      obtain ⟨st1, h1, h2⟩ :=
        ih { head := rest, size := (st.size + SIZE_MOD - 1) % SIZE_MOD } fuel x rfl (by omega)
      refine ⟨st1, ?_, h2⟩
      simp only [stack_destroy_loop, stack_pop, hh, if_true, Option.map_some',
        Option.getD_some, h1]
      cases items <;> simp

/-- C22: `stack_destroy` of a `NULL` stack returns at once.  For every stack, the loop of
`stack_destroy` is left by its condition after as many pops as the stack has nodes, whatever
number of iterations above that it is allowed, and `free(s)` is reached: the call
terminates.  With `items` set, one call is made on each item still on the stack, from the
top down: of the destructor when one is given, of `free` when the destructor is `NULL`;
with `items` not set no call is made on an item.  The warning is given exactly when the
size is not zero and `items` is not set, and what the call does otherwise is the same with
and without it. -/
theorem stack_destroy_calls :
    (∀ (items destructor : Bool) (fuel : Nat),
      stack_destroy none items destructor fuel
        = { warned := false, calls := [], left := none, freed := false })
    ∧ (∀ (st : stack_t) (items destructor : Bool) (fuel : Nat), st.head.length < fuel →
      (stack_destroy (some st) items destructor fuel).freed = true
      ∧ (stack_destroy (some st) items destructor fuel).calls
          = (if items then
               st.head.map (fun x =>
                 if destructor then destroy_call.destructor x else destroy_call.free x)
             else [])
      ∧ ((stack_destroy (some st) items destructor fuel).left).map (fun s => s.head) = some []
      ∧ ((stack_destroy (some st) items destructor fuel).warned = true
          ↔ st.size ≠ 0 ∧ items = false))
    ∧ (∀ (st : stack_t) (destructor : Bool) (fuel : Nat), st.head.length < fuel →
      (stack_destroy (some st) false destructor fuel).calls = []
      ∧ (stack_destroy (some st) false destructor fuel).freed = true) := by
  refine ⟨fun _ _ _ => rfl, ?_, ?_⟩
  · intro st items destructor fuel hf
    obtain ⟨st1, h1, h2⟩ := stack_destroy_loop_spec items destructor st.head st fuel 0 rfl hf
    simp only [stack_destroy, h1, Option.map_some', h2, true_and]
    simp
  · intro st destructor fuel hf
    obtain ⟨st1, h1, _⟩ := stack_destroy_loop_spec false destructor st.head st fuel 0 rfl hf
    simp [stack_destroy, h1]

theorem stack_destroy_calls_witness :
    (stack_destroy (some { head := [3, 2, 1], size := 3 }) true false 4).calls
      = [destroy_call.free 3, destroy_call.free 2, destroy_call.free 1]
    ∧ (stack_destroy (some { head := [3, 2, 1], size := 3 }) true false 4).freed = true
    ∧ (stack_destroy (some { head := [3, 2, 1], size := 3 }) false true 9).calls = [] := by
  have h := stack_destroy_calls.2.1 { head := [3, 2, 1], size := 3 } true false 4 (by decide)
  have h2 := stack_destroy_calls.2.2 { head := [3, 2, 1], size := 3 } true 9 (by decide)
  exact ⟨h.2.1, h.1, h2.1⟩

/-! ## The values of the node types, and the flags of a task -/

/-- C28: the values of `task_graph_node_type_t` are not pairwise distinct.  With
`FLAG_NODE_TYPE_END(f)` defined as `f & 0x1000`, `node_scope_parallel_end` is 0, the value
of `node_type_unknown`, and the five scope-end types after it are 1 to 5, the values of the
four task types and of `node_scope_parallel_begin`: a node type with one of the values 0 to
5 does not tell a scope-end node from a node of unknown type, a task node or the begin node
of a parallel region. -/
theorem node_types_collide :
    all_node_types
      = [0, 1, 2, 3, 4, 5, 6, 7, 8, 9, 10, 0, 1, 2, 3, 4, 5, 11, 12, 13, 14, 15, 16, 17]
    ∧ ¬ all_node_types.Nodup
    ∧ node_scope_parallel_end = node_type_unknown
    ∧ node_scope_sections_end = node_task_initial
    ∧ node_scope_single_end = node_task_implicit
    ∧ node_scope_loop_end = node_task_explicit
    ∧ node_scope_taskloop_end = node_task_target
    ∧ node_scope_sync_taskgroup_end = node_scope_parallel_begin := by
  refine ⟨by decide, by decide, by decide, by decide, by decide, by decide, by decide,
    by decide⟩

theorem and_high_bit_mod (n i : Nat) (hi : 8 ≤ i) : (n &&& 2 ^ i) % 2 ^ 8 = 0 := by
  apply Nat.eq_of_testBit_eq
  intro j
  simp only [Nat.testBit_mod_two_pow, Nat.testBit_and, Nat.testBit_two_pow, Nat.zero_testBit]
  by_cases hj : j < 8
  · have : ¬ i = j := by omega
    simp [this]
  · simp [hj]

/-- C27: `trace_add_task_attributes` hands each of `flags & ompt_task_undeferred`,
`flags & ompt_task_untied`, `flags & ompt_task_final`, `flags & ompt_task_mergeable` and
`flags & ompt_task_merged` to `OTF2_AttributeList_AddUint8`, which takes a `uint8_t`: the
value stored is the masked flag modulo `2 ^ 8`, and the five bits are bits 27 to 31, so each
of the five attributes is 0 for every task region, whatever its flags; for the region of an
untied, final explicit task the bits `0x10000000` and `0x20000000` are set in the flags and
the attributes `task_is_untied` and `task_is_final` are 0. -/
theorem task_flag_attributes_zero (refs : attr_refs_t) (rgn : trace_region_def_t) :
    (task_attribute refs rgn attr_task_is_undeferred
        = some (attr_value_t.Uint8 ((rgn.attr.task_flags &&& ompt_task_undeferred) % 2 ^ 8))
      ∧ task_attribute refs rgn attr_task_is_untied
        = some (attr_value_t.Uint8 ((rgn.attr.task_flags &&& ompt_task_untied) % 2 ^ 8))
      ∧ task_attribute refs rgn attr_task_is_final
        = some (attr_value_t.Uint8 ((rgn.attr.task_flags &&& ompt_task_final) % 2 ^ 8))
      ∧ task_attribute refs rgn attr_task_is_mergeable
        = some (attr_value_t.Uint8 ((rgn.attr.task_flags &&& ompt_task_mergeable) % 2 ^ 8))
      ∧ task_attribute refs rgn attr_task_is_merged
        = some (attr_value_t.Uint8 ((rgn.attr.task_flags &&& ompt_task_merged) % 2 ^ 8)))
    ∧ (task_attribute refs rgn attr_task_is_undeferred = some (attr_value_t.Uint8 0)
      ∧ task_attribute refs rgn attr_task_is_untied = some (attr_value_t.Uint8 0)
      ∧ task_attribute refs rgn attr_task_is_final = some (attr_value_t.Uint8 0)
      ∧ task_attribute refs rgn attr_task_is_mergeable = some (attr_value_t.Uint8 0)
      ∧ task_attribute refs rgn attr_task_is_merged = some (attr_value_t.Uint8 0))
    ∧ (untied_task_region.attr.task_flags &&& ompt_task_untied ≠ 0
      ∧ untied_task_region.attr.task_flags &&& ompt_task_final ≠ 0
      ∧ task_attribute refs untied_task_region attr_task_is_untied
          = some (attr_value_t.Uint8 0)
      ∧ task_attribute refs untied_task_region attr_task_is_final
          = some (attr_value_t.Uint8 0)) := by
  have h27 : ompt_task_undeferred = 2 ^ 27 := by decide
  have h28 : ompt_task_untied = 2 ^ 28 := by decide
  have h29 : ompt_task_final = 2 ^ 29 := by decide
  have h30 : ompt_task_mergeable = 2 ^ 30 := by decide
  have h31 : ompt_task_merged = 2 ^ 31 := by decide
  have e27 := and_high_bit_mod rgn.attr.task_flags 27 (by decide)
  have e28 := and_high_bit_mod rgn.attr.task_flags 28 (by decide)
  have e29 := and_high_bit_mod rgn.attr.task_flags 29 (by decide)
  have e30 := and_high_bit_mod rgn.attr.task_flags 30 (by decide)
  have e31 := and_high_bit_mod rgn.attr.task_flags 31 (by decide)
  have hv : task_attribute refs rgn attr_task_is_undeferred
        = some (attr_value_t.Uint8 ((rgn.attr.task_flags &&& ompt_task_undeferred) % 2 ^ 8))
      ∧ task_attribute refs rgn attr_task_is_untied
        = some (attr_value_t.Uint8 ((rgn.attr.task_flags &&& ompt_task_untied) % 2 ^ 8))
      ∧ task_attribute refs rgn attr_task_is_final
        = some (attr_value_t.Uint8 ((rgn.attr.task_flags &&& ompt_task_final) % 2 ^ 8))
      ∧ task_attribute refs rgn attr_task_is_mergeable
        = some (attr_value_t.Uint8 ((rgn.attr.task_flags &&& ompt_task_mergeable) % 2 ^ 8))
      ∧ task_attribute refs rgn attr_task_is_merged
        = some (attr_value_t.Uint8 ((rgn.attr.task_flags &&& ompt_task_merged) % 2 ^ 8)) := by
    refine ⟨rfl, rfl, rfl, rfl, rfl⟩
  obtain ⟨v1, v2, v3, v4, v5⟩ := hv
  refine ⟨⟨v1, v2, v3, v4, v5⟩, ⟨?_, ?_, ?_, ?_, ?_⟩, by decide, by decide, ?_, ?_⟩
  · rw [v1, h27, e27]
  · rw [v2, h28, e28]
  · rw [v3, h29, e29]
  · rw [v4, h30, e30]
  · rw [v5, h31, e31]
  · rfl
  · rfl

/-! ## One call of `trace_event_enter`, the mutex of a region, and the counter of events -/

/-- What a returning `trace_event_enter` appended to the log. -/
theorem enter_log {w w1 : World} {self region : Nat} {mem : enter_mem}
    (h : trace_event_enter w self region mem = Result.ok w1) :
    ∃ r, w.region_at region = some r ∧ r.type ≠ trace_region_unhandled
      ∧ w1.log = w.log ++ (if r.type = trace_region_parallel
          then [Eff.lock region, Eff.Enter self r.ref, Eff.unlock region]
          else [Eff.Enter self r.ref]) := by
  obtain ⟨r, hr, hu, _, _, _, _, hnp, hp⟩ := enter_ok h
  refine ⟨r, hr, hu, ?_⟩
  by_cases hpar : r.type = trace_region_parallel
  · simp only [if_pos hpar]; exact (hp hpar).2.1
  · simp only [if_neg hpar]; exact (hnp hpar).2.1

/-- What a returning `trace_event_leave` appended to the log. -/
theorem leave_log {w w1 : World} {self : Nat}
    (h : trace_event_leave w self = Result.ok w1) :
    ∃ st p rest r, (w.locs self).rgn_stack = some st ∧ st.head = p :: rest
      ∧ w.region_at p = some r ∧ r.type ≠ trace_region_unhandled
      ∧ w1.log = w.log ++ (if r.type = trace_region_parallel
          then [Eff.lock p, Eff.Leave self r.ref, Eff.unlock p]
              ++ (if dec_uint r.ref_count = 0
                  then [Eff.destroy p { r with ref_count := dec_uint r.ref_count }]
                  else [])
          else [Eff.Leave self r.ref]) := by
  obtain ⟨st, p, rest, r, hs, _, hh, hr, hu, _, _, _, _, hnp, hp⟩ := leave_ok h
  refine ⟨st, p, rest, r, hs, hh, hr, hu, ?_⟩
  by_cases hpar : r.type = trace_region_parallel
  · simp only [if_pos hpar]; rw [(hp hpar).2.1, List.append_assoc]
  · simp only [if_neg hpar]; exact (hnp hpar).2.1

/-- An aborting `trace_event_enter` wrote nothing to the log: the region it was given has a
type that is not handled, for which no mutex is taken. -/
theorem enter_abort_log {w w1 : World} {self region : Nat} {mem : enter_mem}
    (h : trace_event_enter w self region mem = Result.abort w1) : w1.log = w.log := by
  unfold trace_event_enter at h
  cases hr : w.region_at region with
  | none => simp [hr] at h
  | some r =>
    simp only [hr] at h
    by_cases hu : r.type = trace_region_unhandled
    · have hp : r.type ≠ trace_region_parallel := by rw [hu]; decide
      simp only [hu, if_true] at h
      have hp' : ¬ trace_region_unhandled = trace_region_parallel := by decide
      simp only [hp', if_false, Result.abort.injEq] at h
      rw [← h]
    · simp [hu] at h

/-- An aborting `trace_event_leave` wrote nothing to the log. -/
theorem leave_abort_log {w w1 : World} {self : Nat}
    (h : trace_event_leave w self = Result.abort w1) : w1.log = w.log := by
  unfold trace_event_leave at h
  by_cases he : stack_is_empty (w.locs self).rgn_stack = true
  · simp only [he, if_true, Result.abort.injEq] at h
    rw [← h]
  · simp only [he, Bool.false_eq_true, if_false] at h
    split at h
    · simp at h
    · rename_i r hr
      by_cases hu : r.type = trace_region_unhandled
      · simp only [hu, if_true] at h
        have hp' : ¬ trace_region_unhandled = trace_region_parallel := by decide
        simp only [hp', if_false, Result.abort.injEq] at h
        rw [← h]
        rfl
      · simp [hu] at h

/-- C24: for a location with a region stack and a live region of a handled kind,
`trace_event_enter` (its stack node allocated) returns, having written one event, the Enter
with the ref of the region, and having pushed the region: the region is the top of the
region stack, above the items that were there, and the stack is one deeper.  For a region
that is not parallel, `rgn_defs`, `rgn_defs_stack` and every region record (so the
`ref_count` and the `enter_count` of every parallel region) are as before. -/
theorem enter_event_and_push (w : World) (self region : Nat) (mem : enter_mem)
    (r : trace_region_def_t) (st : stack_t)
    (hr : w.region_at region = some r) (hu : r.type ≠ trace_region_unhandled)
    (hs : (w.locs self).rgn_stack = some st) (hm : mem.rgn_node = true) :
    ∃ w1 new, trace_event_enter w self region mem = Result.ok w1
      ∧ w1.log = w.log ++ new
      ∧ new.filter Eff.is_event = [Eff.Enter self r.ref]
      ∧ (w1.locs self).rgn_stack
          = some { head := region :: st.head, size := (st.size + 1) % SIZE_MOD }
      ∧ stack_peek (w1.locs self).rgn_stack (some 0) = (true, some region)
      ∧ depth (w1.locs self).rgn_stack = depth (w.locs self).rgn_stack + 1
      ∧ (r.type ≠ trace_region_parallel →
          (w1.locs self).rgn_defs = (w.locs self).rgn_defs
          ∧ (w1.locs self).rgn_defs_stack = (w.locs self).rgn_defs_stack
          ∧ w1.regions = w.regions
          ∧ ∀ p q, w.region_at p = some q → q.type = trace_region_parallel →
              ∃ q1, w1.region_at p = some q1 ∧ q1.ref_count = q.ref_count
                ∧ q1.enter_count = q.enter_count) := by
  obtain ⟨w1, h1⟩ := enter_returns w self region mem r hr hu
  obtain ⟨r1, hr1, _, hlog⟩ := enter_log h1
  obtain ⟨r2, hr2, _, _, hst, _, _, hnp, _⟩ := enter_ok h1
  rw [hr] at hr1 hr2
  cases hr1
  cases hr2
  have hst1 : (w1.locs self).rgn_stack
      = some { head := region :: st.head, size := (st.size + 1) % SIZE_MOD } := by
    rw [hst, hs, hm]; rfl
  refine ⟨w1, _, h1, hlog, ?_, hst1, ?_, ?_, ?_⟩
  · by_cases hpar : r.type = trace_region_parallel
    · rw [if_pos hpar]; rfl
    · rw [if_neg hpar]; rfl
  · rw [hst1]; rfl
  · rw [hst1, hs]; rfl
  · intro hpar
    obtain ⟨hreg, _, hd, hds⟩ := hnp hpar
    refine ⟨hd, hds, hreg, ?_⟩
    intro p q hq _
    refine ⟨q, ?_, rfl, rfl⟩
    simp only [World.region_at, hreg] at hq ⊢
    exact hq

/-- Location 0 of `demo_world` enters the workshare region at 2. -/
theorem enter_event_and_push_witness :
    ∃ w1 new, trace_event_enter demo_world 0 2 (mem_ok 0) = Result.ok w1
      ∧ w1.log = demo_world.log ++ new
      ∧ new.filter Eff.is_event = [Eff.Enter 0 11]
      ∧ (w1.locs 0).rgn_stack = some { head := 2 :: [], size := (0 + 1) % SIZE_MOD }
      ∧ stack_peek (w1.locs 0).rgn_stack (some 0) = (true, some 2)
      ∧ depth (w1.locs 0).rgn_stack = depth (demo_world.locs 0).rgn_stack + 1 := by
  obtain ⟨w1, new, h1, h2, h3, h4, h5, h6, _⟩ :=
    enter_event_and_push demo_world 0 2 (mem_ok 0) (new_region 11 trace_region_workshare 0)
      { head := [], size := 0 } rfl (by decide) rfl rfl
  exact ⟨w1, new, h1, h2, h3, h4, h5, h6⟩

/-- C26: a call of `trace_event_enter` or of `trace_event_leave` that returns has locked and
unlocked the mutex of a parallel region once each, the lock first, and in a leave the unlock
comes before the region is destroyed (which it is when `ref_count` reached zero); for a
region that is not parallel it has locked and unlocked nothing.  A call that reaches
`abort()` has locked nothing either. -/
theorem mutex_released_once :
    (∀ (w w1 : World) (self region : Nat) (mem : enter_mem),
      trace_event_enter w self region mem = Result.ok w1 →
      ∃ r new, w.region_at region = some r ∧ w1.log = w.log ++ new
        ∧ (r.type = trace_region_parallel →
            mutex_ops new = [Eff.lock region, Eff.unlock region])
        ∧ (r.type ≠ trace_region_parallel → mutex_ops new = []))
    ∧ (∀ (w w1 : World) (self : Nat),
      trace_event_leave w self = Result.ok w1 →
      ∃ st p rest r new, (w.locs self).rgn_stack = some st ∧ st.head = p :: rest
        ∧ w.region_at p = some r ∧ w1.log = w.log ++ new
        ∧ (r.type = trace_region_parallel →
            mutex_ops new = [Eff.lock p, Eff.unlock p]
            ∧ ∃ after, new = [Eff.lock p, Eff.Leave self r.ref, Eff.unlock p] ++ after
              ∧ after = (if dec_uint r.ref_count = 0
                  then [Eff.destroy p { r with ref_count := dec_uint r.ref_count }]
                  else []))
        ∧ (r.type ≠ trace_region_parallel → mutex_ops new = []))
    ∧ (∀ (w w1 : World) (self region : Nat) (mem : enter_mem),
      trace_event_enter w self region mem = Result.abort w1 → w1.log = w.log)
    ∧ (∀ (w w1 : World) (self : Nat),
      trace_event_leave w self = Result.abort w1 → w1.log = w.log) := by
  refine ⟨?_, ?_, ?_, ?_⟩
  · intro w w1 self region mem h
    obtain ⟨r, hr, _, hlog⟩ := enter_log h
    refine ⟨r, _, hr, hlog, ?_, ?_⟩
    · intro hp; rw [if_pos hp]; rfl
    · intro hp; rw [if_neg hp]; rfl
  · intro w w1 self h
    obtain ⟨st, p, rest, r, hs, hh, hr, _, hlog⟩ := leave_log h
    refine ⟨st, p, rest, r, _, hs, hh, hr, hlog, ?_, ?_⟩
    · intro hp
      rw [if_pos hp]
      refine ⟨?_, _, rfl, rfl⟩
      by_cases hz : dec_uint r.ref_count = 0
      · rw [if_pos hz]; rfl
      · rw [if_neg hz]; rfl
    · intro hp; rw [if_neg hp]; rfl
  · intro w w1 self region mem h
    exact enter_abort_log h
  · intro w w1 self h
    exact leave_abort_log h

/-- Location 0 of `demo_world` enters the parallel region at 1: one lock, one unlock. -/
theorem mutex_released_once_witness :
    ∃ r new, demo_world.region_at 1 = some r
      ∧ ((trace_event_enter demo_world 0 1 (mem_ok 200)).get demo_world).log
          = demo_world.log ++ new
      ∧ mutex_ops new = [Eff.lock 1, Eff.unlock 1] := by
  obtain ⟨r, new, hr, hlog, hp, _⟩ :=
    mutex_released_once.1 demo_world
      ((trace_event_enter demo_world 0 1 (mem_ok 200)).get demo_world) 0 1 (mem_ok 200) rfl
  have hr1 : r = new_region 10 trace_region_parallel 101 := by
    have h2 : demo_world.region_at 1 = some (new_region 10 trace_region_parallel 101) := rfl
    rw [hr] at h2
    exact Option.some.inj h2
  exact ⟨r, new, hr, hlog, hp (by rw [hr1]; rfl)⟩

theorem events_written_append (l : Nat) (a b : List Eff) :
    events_written l (a ++ b) = events_written l a + events_written l b := by
  simp [events_written, List.filter_append]

/-- What one returning call that writes an event did to the log and to the counters. -/
theorem event_call_counts {c : event_call} {w w1 : World} (h : c.apply w = Result.ok w1) :
    ∃ new, w1.log = w.log ++ new
      ∧ (new.filter Eff.is_event).length = 1
      ∧ events_written c.location new = 1
      ∧ (w1.locs c.location).events = ((w.locs c.location).events + 1) % SIZE_MOD
      ∧ ∀ l, l ≠ c.location →
          (w1.locs l).events = (w.locs l).events ∧ events_written l new = 0 := by
  cases c with
  | thread_begin self =>
    simp only [event_call.apply, Result.ok.injEq] at h
    subst h
    refine ⟨[Eff.ThreadBegin self], rfl, rfl, ?_, ?_, ?_⟩
    · simp [events_written, Eff.is_event_of, event_call.location]
    · simp [trace_event_thread_begin, World.set_loc, World.emit, event_call.location]
    · intro l hl
      simp only [event_call.location] at hl
      have hl' : ¬ self = l := fun e => hl e.symm
      simp [trace_event_thread_begin, World.set_loc, World.emit, events_written,
        Eff.is_event_of, Function.update_noteq hl, hl']
  | thread_end self =>
    simp only [event_call.apply, Result.ok.injEq] at h
    subst h
    refine ⟨[Eff.ThreadEnd self], rfl, rfl, ?_, ?_, ?_⟩
    · simp [events_written, Eff.is_event_of, event_call.location]
    · simp [trace_event_thread_end, World.set_loc, World.emit, event_call.location]
    · intro l hl
      simp only [event_call.location] at hl
      have hl' : ¬ self = l := fun e => hl e.symm
      simp [trace_event_thread_end, World.set_loc, World.emit, events_written,
        Eff.is_event_of, Function.update_noteq hl, hl']
  | enter self region mem =>
    simp only [event_call.apply] at h
    obtain ⟨r, _, _, hlog⟩ := enter_log h
    obtain ⟨_, _, _, hfl, _, hev, _⟩ := enter_ok h
    refine ⟨_, hlog, ?_, ?_, hev, ?_⟩
    · by_cases hp : r.type = trace_region_parallel
      · simp only [if_pos hp]; rfl
      · simp only [if_neg hp]; rfl
    · by_cases hp : r.type = trace_region_parallel
      · simp only [if_pos hp]; simp [events_written, Eff.is_event_of, event_call.location]
      · simp only [if_neg hp]; simp [events_written, Eff.is_event_of, event_call.location]
    · intro l hl
      simp only [event_call.location] at hl
      have hl' : ¬ self = l := fun e => hl e.symm
      refine ⟨by rw [hfl l hl], ?_⟩
      by_cases hp : r.type = trace_region_parallel
      · simp only [if_pos hp]; simp [events_written, Eff.is_event_of, hl']
      · simp only [if_neg hp]; simp [events_written, Eff.is_event_of, hl']
  | leave self =>
    simp only [event_call.apply] at h
    obtain ⟨_, p, _, r, _, _, _, _, hlog⟩ := leave_log h
    obtain ⟨_, _, _, _, _, _, _, _, _, hfl, _, hev, _⟩ := leave_ok h
    refine ⟨_, hlog, ?_, ?_, hev, ?_⟩
    · by_cases hp : r.type = trace_region_parallel
      · by_cases hz : dec_uint r.ref_count = 0
        · simp only [if_pos hp, if_pos hz]; rfl
        · simp only [if_pos hp, if_neg hz]; rfl
      · simp only [if_neg hp]; rfl
    · by_cases hp : r.type = trace_region_parallel
      · by_cases hz : dec_uint r.ref_count = 0
        · simp only [if_pos hp, if_pos hz]; simp [events_written, Eff.is_event_of, event_call.location]
        · simp only [if_pos hp, if_neg hz]; simp [events_written, Eff.is_event_of, event_call.location]
      · simp only [if_neg hp]; simp [events_written, Eff.is_event_of, event_call.location]
    · intro l hl
      simp only [event_call.location] at hl
      have hl' : ¬ self = l := fun e => hl e.symm
      refine ⟨by rw [hfl l hl], ?_⟩
      by_cases hp : r.type = trace_region_parallel
      · by_cases hz : dec_uint r.ref_count = 0
        · simp only [if_pos hp, if_pos hz]; simp [events_written, Eff.is_event_of, hl']
        · simp only [if_pos hp, if_neg hz]; simp [events_written, Eff.is_event_of, hl']
      · simp only [if_neg hp]; simp [events_written, Eff.is_event_of, hl']
  | task_create self created_task =>
    simp only [event_call.apply, trace_event_task_create] at h
    cases hr : w.region_at created_task with
    | none => simp [hr] at h
    | some r =>
      simp only [hr, Result.ok.injEq] at h
      subst h
      refine ⟨[Eff.TaskCreate self], rfl, rfl, ?_, ?_, ?_⟩
      · simp [events_written, Eff.is_event_of, event_call.location]
      · simp [World.set_loc, World.emit, event_call.location]
      · intro l hl
        simp only [event_call.location] at hl
        have hl' : ¬ self = l := fun e => hl e.symm
        simp [World.set_loc, World.emit, events_written,
          Eff.is_event_of, Function.update_noteq hl, hl']

/-- After a run of calls that all returned, the counter of a location that started with
room for one event per call has grown by the number of event records the location wrote. -/
theorem record_all_counts (cs : List event_call) :
    ∀ (w w2 : World) (l : Nat), record_all w cs = Result.ok w2 →
      (w.locs l).events + cs.length < SIZE_MOD →
      ∃ new, w2.log = w.log ++ new
        ∧ (w2.locs l).events = (w.locs l).events + events_written l new := by
  induction cs with
  | nil =>
    intro w w2 l h _
    simp only [record_all, Result.ok.injEq] at h
    subst h
    exact ⟨[], by simp, by simp [events_written]⟩
  | cons c cs ih =>
    intro w w2 l h hb
    simp only [record_all] at h
    cases hc : c.apply w with
    | fault => simp [hc] at h
    | abort x => simp [hc] at h
    | ok w1 =>
      simp only [hc] at h
      obtain ⟨new1, hlog1, _, hself, hev, hoth⟩ := event_call_counts hc
      simp only [List.length_cons] at hb
      have h1 : (w1.locs l).events = (w.locs l).events + events_written l new1 := by
        by_cases hl : l = c.location
        · subst hl
          rw [hev, hself]
          exact Nat.mod_eq_of_lt (by omega)
        · obtain ⟨ha, hb'⟩ := hoth l hl
          rw [ha, hb']; rfl
      have h1le : events_written l new1 ≤ 1 := by
        by_cases hl : l = c.location
        · subst hl; rw [hself]
        · rw [(hoth l hl).2]; omega
      obtain ⟨new2, hlog2, hev2⟩ := ih w1 w2 l h (by omega)
      refine ⟨new1 ++ new2, ?_, ?_⟩
      · rw [hlog2, hlog1, List.append_assoc]
      · rw [hev2, h1, events_written_append]; omega

/-- C25: each call of `trace_event_thread_begin`, `trace_event_thread_end`,
`trace_event_enter`, `trace_event_leave` and `trace_event_task_create` that returns has
written one event record, with the event writer of its location, and has increased the
field `events` of that location by one (modulo 2^64, the counter being 64 bits wide),
leaving the counters of the other locations as they were; and after a sequence of such calls
that all returned, the field `events` of a location is its value before the sequence plus the
number of event records the location wrote, when that value left room for one event per
call below 2^64. -/
theorem events_counts_records :
    (∀ (c : event_call) (w w1 : World), c.apply w = Result.ok w1 →
      ∃ new, w1.log = w.log ++ new
        ∧ (new.filter Eff.is_event).length = 1
        ∧ events_written c.location new = 1
        ∧ (w1.locs c.location).events = ((w.locs c.location).events + 1) % SIZE_MOD
        ∧ ∀ l, l ≠ c.location →
            (w1.locs l).events = (w.locs l).events ∧ events_written l new = 0)
    ∧ (∀ (cs : List event_call) (w w2 : World) (l : Nat),
      record_all w cs = Result.ok w2 → (w.locs l).events + cs.length < SIZE_MOD →
      ∃ new, w2.log = w.log ++ new
        ∧ (w2.locs l).events = (w.locs l).events + events_written l new) :=
  ⟨fun _ _ _ h => event_call_counts h, fun cs w w2 l h hb => record_all_counts cs w w2 l h hb⟩

/-- The five calls of `demo_events` on location 0 of `demo_world` return, and the counter of
the location, zero before, is the five records it wrote. -/
theorem events_counts_records_witness :
    (record_all demo_world demo_events).returned = true
    ∧ ∃ new, ((record_all demo_world demo_events).get demo_world).log = demo_world.log ++ new
        ∧ (((record_all demo_world demo_events).get demo_world).locs 0).events
            = (demo_world.locs 0).events + events_written 0 new
        ∧ (((record_all demo_world demo_events).get demo_world).locs 0).events = 5 :=
  ⟨rfl, by
    obtain ⟨new, h1, h2⟩ := events_counts_records.2 demo_events demo_world
      ((record_all demo_world demo_events).get demo_world) 0 rfl (by decide)
    exact ⟨new, h1, h2, rfl⟩⟩

/-! ## The task record of an implicit-task-begin -/

theorem with_world_ok {t t1 : Tool} {r : Result World} (h : t.with_world r = Result.ok t1) :
    t1.tasks = t.tasks ∧ t1.ids = t.ids := by
  cases r with
  | ok w => simp only [Tool.with_world, Result.ok.injEq] at h; subst h; exact ⟨rfl, rfl⟩
  | abort w => simp [Tool.with_world] at h
  | fault => simp [Tool.with_world] at h

/-- The slots of tasks and the counters after an implicit-task-begin of otter.c that
returned. -/
theorem implicit_begin_frame {t t1 : Tool} {thr parallel task ap idx flags : Nat}
    {mem : enter_mem}
    (h : on_ompt_callback_implicit_task t thr ompt_scope_endpoint_t.ompt_scope_begin parallel
          task ap idx flags mem = Result.ok t1) :
    (∀ d, t.tasks task = some d → t1.tasks = t.tasks ∧ t1.ids = t.ids)
    ∧ (t.tasks task = none →
        t1.tasks = Function.update t.tasks task
          (some (new_task_data (get_unique_id t.ids unique_id_type_t.id_task).1 flags))
        ∧ t1.ids = (get_unique_id t.ids unique_id_type_t.id_task).2) := by
  unfold on_ompt_callback_implicit_task at h
  cases hthr : t.threads thr with
  | none => simp [hthr] at h
  | some thread_data =>
    simp only [hthr] at h
    cases htask : t.tasks task with
    | some d =>
      simp only [htask] at h
      refine ⟨fun d' _ => ?_, fun hn => by simp at hn⟩
      split at h
      · simp only [Result.ok.injEq] at h; subst h; exact ⟨rfl, rfl⟩
      · split at h
        · split at h
          · simp at h
          · split at h
            · simp only [Result.ok.injEq] at h; subst h; exact ⟨rfl, rfl⟩
            · have hw := with_world_ok h
              exact hw
        · simp at h
    | none =>
      simp only [htask] at h
      refine ⟨fun d' hd => by simp at hd, fun _ => ?_⟩
      split at h
      · simp only [Result.ok.injEq] at h; subst h; exact ⟨rfl, rfl⟩
      · split at h
        · split at h
          · simp at h
          · split at h
            · simp only [Result.ok.injEq] at h; subst h; exact ⟨rfl, rfl⟩
            · have hw := with_world_ok h
              exact hw
        · simp at h

/-- The slots of tasks and the counters after an implicit-task-begin of
ompt-core-callbacks.c that returned. -/
theorem core_implicit_begin_frame {t t1 : ompt_core.Tool} {thr parallel task flags : Nat}
    {mem : Bool}
    (h : ompt_core.on_ompt_callback_implicit_task t thr ompt_scope_endpoint_t.ompt_scope_begin
          parallel task flags mem = Result.ok t1) :
    (∀ d, t.tasks task = some d →
        t1.ids = t.ids
        ∧ t1.tasks = (if d.type = ompt_task_initial
            then Function.update t.tasks task (some { d with
              task_node_ref := (task_graph_add_node t.graph node_task_initial task).1 })
            else t.tasks))
    ∧ (t.tasks task = none →
        t1.ids = (get_unique_id t.ids unique_id_type_t.id_task).2
        ∧ t1.tasks task = some
            (if (ompt_core.new_task_data (get_unique_id t.ids unique_id_type_t.id_task).1
                  flags 0).type = ompt_task_initial
             then { ompt_core.new_task_data (get_unique_id t.ids unique_id_type_t.id_task).1
                      flags 0 with
                    task_node_ref := (task_graph_add_node t.graph node_task_initial task).1 }
             else ompt_core.new_task_data (get_unique_id t.ids unique_id_type_t.id_task).1
                      flags 0)
        ∧ ∀ q, q ≠ task → t1.tasks q = t.tasks q) := by
  unfold ompt_core.on_ompt_callback_implicit_task at h
  cases hthr : t.threads thr with
  | none => simp [hthr] at h
  | some thread_data =>
    simp only [hthr] at h
    cases htask : t.tasks task with
    | some d =>
      simp only [htask] at h
      refine ⟨fun d' hd => ?_, fun hn => by simp at hn⟩
      cases hd
      by_cases hi : d.type = ompt_task_initial
      · simp only [hi, if_true, Result.ok.injEq] at h
        subst h
        exact ⟨rfl, by simp [hi]⟩
      · simp only [hi, if_false] at h
        split at h
        · split at h
          · simp at h
          · simp only [Result.ok.injEq] at h; subst h; exact ⟨rfl, by rw [if_neg hi]⟩
        · simp only [Result.ok.injEq] at h; subst h; exact ⟨rfl, by rw [if_neg hi]⟩
    | none =>
      simp only [htask] at h
      refine ⟨fun d' hd => by simp at hd, fun _ => ?_⟩
      by_cases hi : (ompt_core.new_task_data (get_unique_id t.ids unique_id_type_t.id_task).1
                  flags 0).type = ompt_task_initial
      · simp only [hi, if_true, Result.ok.injEq] at h
        subst h
        refine ⟨rfl, by simp [hi], ?_⟩
        intro q hq
        simp [Function.update_noteq hq]
      · simp only [hi, if_false] at h
        split at h
        · split at h
          · simp at h
          · simp only [Result.ok.injEq] at h; subst h
            refine ⟨rfl, by simp [hi], ?_⟩
            intro q hq
            simp [Function.update_noteq hq]
        · simp only [Result.ok.injEq] at h; subst h
          refine ⟨rfl, by simp [hi], ?_⟩
          intro q hq
          simp [Function.update_noteq hq]

/-- C21 (as stated, refuted): in ompt-core-callbacks.c an implicit-task-begin on a slot that
already holds the record of an initial task does not leave the record unchanged.  In
`ompt_core.before_parallel` the slot 10 holds the record of the initial task, whose
`task_node_ref` is the node 1; a second implicit-task-begin on the slot returns, draws no
id, and leaves in the slot a record whose `task_node_ref` is the node 2. -/
theorem implicit_begin_rewrites_initial_record :
    ∃ t2 d1 d2, ompt_core.before_parallel.tasks 10 = some d1
      ∧ ompt_core.on_ompt_callback_implicit_task ompt_core.before_parallel 0
          ompt_scope_endpoint_t.ompt_scope_begin 0 10 ompt_task_initial true = Result.ok t2
      ∧ t2.tasks 10 = some d2 ∧ d2 ≠ d1
      ∧ d1.task_node_ref = 1 ∧ d2.task_node_ref = 2
      ∧ t2.ids = ompt_core.before_parallel.ids :=
  ⟨_, _, _, rfl, rfl, rfl, by decide, rfl, rfl, rfl⟩

/-- C21 (amended): an implicit-task-begin that returns creates the task record only if the
slot holds none.  When the slot already holds task data, the callback draws no id (the
counters are as before) and keeps the record: in otter.c unchanged, in
ompt-core-callbacks.c unchanged but for the `task_node_ref` of the record of an initial
task, which becomes the reference of the node the callback adds.  When the slot is empty,
the callback draws one task id and stores one new record, with that id, in the slot.  The
records of the other slots are as before, and a second implicit-task-begin on the same slot
draws no id and keeps the id and the type of the record. -/
theorem implicit_begin_creates_if_absent :
    (∀ (t t1 : Tool) (thr parallel task ap idx flags : Nat) (mem : enter_mem),
      on_ompt_callback_implicit_task t thr ompt_scope_endpoint_t.ompt_scope_begin parallel task
        ap idx flags mem = Result.ok t1 →
      (∀ q, q ≠ task → t1.tasks q = t.tasks q)
      ∧ (∀ d, t.tasks task = some d → t1.tasks task = some d ∧ t1.ids = t.ids)
      ∧ (t.tasks task = none →
          t1.tasks task
            = some (new_task_data (get_unique_id t.ids unique_id_type_t.id_task).1 flags)
          ∧ t1.ids = (get_unique_id t.ids unique_id_type_t.id_task).2))
    ∧ (∀ (t t1 : ompt_core.Tool) (thr parallel task flags : Nat) (mem : Bool),
      ompt_core.on_ompt_callback_implicit_task t thr ompt_scope_endpoint_t.ompt_scope_begin
        parallel task flags mem = Result.ok t1 →
      (∀ q, q ≠ task → t1.tasks q = t.tasks q)
      ∧ (∀ d, t.tasks task = some d →
          t1.ids = t.ids
          ∧ (d.type ≠ ompt_task_initial → t1.tasks task = some d)
          ∧ (d.type = ompt_task_initial → t1.tasks task = some { d with
              task_node_ref := (task_graph_add_node t.graph node_task_initial task).1 }))
      ∧ (t.tasks task = none →
          t1.ids = (get_unique_id t.ids unique_id_type_t.id_task).2
          ∧ ∃ d1, t1.tasks task = some d1
            ∧ d1.id = (get_unique_id t.ids unique_id_type_t.id_task).1
            ∧ d1.type = flags &&& TASK_TREE_TASK_TYPE_MASK
            ∧ d1.enclosing_parallel_id = 0))
    ∧ (∀ (t t1 t2 : Tool) (thr parallel task ap idx flags thr2 parallel2 ap2 idx2 flags2 : Nat)
        (mem mem2 : enter_mem),
      on_ompt_callback_implicit_task t thr ompt_scope_endpoint_t.ompt_scope_begin parallel task
        ap idx flags mem = Result.ok t1 →
      on_ompt_callback_implicit_task t1 thr2 ompt_scope_endpoint_t.ompt_scope_begin parallel2
        task ap2 idx2 flags2 mem2 = Result.ok t2 →
      t2.ids = t1.ids ∧ t2.tasks = t1.tasks ∧ (t1.tasks task).isSome = true)
    ∧ (∀ (t t1 t2 : ompt_core.Tool) (thr parallel task flags thr2 parallel2 flags2 : Nat)
        (mem mem2 : Bool),
      ompt_core.on_ompt_callback_implicit_task t thr ompt_scope_endpoint_t.ompt_scope_begin
        parallel task flags mem = Result.ok t1 →
      ompt_core.on_ompt_callback_implicit_task t1 thr2 ompt_scope_endpoint_t.ompt_scope_begin
        parallel2 task flags2 mem2 = Result.ok t2 →
      t2.ids = t1.ids
      ∧ (∀ q, q ≠ task → t2.tasks q = t1.tasks q)
      ∧ ∃ d1 d2, t1.tasks task = some d1 ∧ t2.tasks task = some d2
          ∧ d2.id = d1.id ∧ d2.type = d1.type
          ∧ d2.enclosing_parallel_id = d1.enclosing_parallel_id) := by
  have hotter : ∀ (t t1 : Tool) (thr parallel task ap idx flags : Nat) (mem : enter_mem),
      on_ompt_callback_implicit_task t thr ompt_scope_endpoint_t.ompt_scope_begin parallel task
        ap idx flags mem = Result.ok t1 →
      (∀ q, q ≠ task → t1.tasks q = t.tasks q)
      ∧ (∀ d, t.tasks task = some d → t1.tasks task = some d ∧ t1.ids = t.ids)
      ∧ (t.tasks task = none →
          t1.tasks task
            = some (new_task_data (get_unique_id t.ids unique_id_type_t.id_task).1 flags)
          ∧ t1.ids = (get_unique_id t.ids unique_id_type_t.id_task).2) := by
    intro t t1 thr parallel task ap idx flags mem h
    obtain ⟨hs, hn⟩ := implicit_begin_frame h
    refine ⟨?_, ?_, ?_⟩
    · intro q hq
      cases htask : t.tasks task with
      | some d => rw [(hs d htask).1]
      | none => rw [(hn htask).1, Function.update_noteq hq]
    · intro d hd
      rw [(hs d hd).1]
      exact ⟨hd, (hs d hd).2⟩
    · intro hnone
      rw [(hn hnone).1]
      exact ⟨by simp, (hn hnone).2⟩
  have hcore : ∀ (t t1 : ompt_core.Tool) (thr parallel task flags : Nat) (mem : Bool),
      ompt_core.on_ompt_callback_implicit_task t thr ompt_scope_endpoint_t.ompt_scope_begin
        parallel task flags mem = Result.ok t1 →
      (∀ q, q ≠ task → t1.tasks q = t.tasks q)
      ∧ (∀ d, t.tasks task = some d →
          t1.ids = t.ids
          ∧ (d.type ≠ ompt_task_initial → t1.tasks task = some d)
          ∧ (d.type = ompt_task_initial → t1.tasks task = some { d with
              task_node_ref := (task_graph_add_node t.graph node_task_initial task).1 }))
      ∧ (t.tasks task = none →
          t1.ids = (get_unique_id t.ids unique_id_type_t.id_task).2
          ∧ ∃ d1, t1.tasks task = some d1
            ∧ d1.id = (get_unique_id t.ids unique_id_type_t.id_task).1
            ∧ d1.type = flags &&& TASK_TREE_TASK_TYPE_MASK
            ∧ d1.enclosing_parallel_id = 0) := by
    intro t t1 thr parallel task flags mem h
    obtain ⟨hs, hn⟩ := core_implicit_begin_frame h
    refine ⟨?_, ?_, ?_⟩
    · intro q hq
      cases htask : t.tasks task with
      | some d =>
        rw [(hs d htask).2]
        by_cases hi : d.type = ompt_task_initial
        · rw [if_pos hi, Function.update_noteq hq]
        · rw [if_neg hi]
      | none => exact (hn htask).2.2 q hq
    · intro d hd
      refine ⟨(hs d hd).1, ?_, ?_⟩
      · intro hi
        rw [(hs d hd).2, if_neg hi]
        exact hd
      · intro hi
        rw [(hs d hd).2, if_pos hi]
        simp
    · intro hnone
      refine ⟨(hn hnone).1, _, (hn hnone).2.1, ?_, ?_, ?_⟩
      · split <;> rfl
      · split <;> rfl
      · split <;> rfl
  refine ⟨hotter, hcore, ?_, ?_⟩
  · intro t t1 t2 thr parallel task ap idx flags thr2 parallel2 ap2 idx2 flags2 mem mem2 h1 h2
    have hsome : (t1.tasks task).isSome = true := by
      obtain ⟨_, hs, hn⟩ := hotter _ _ _ _ _ _ _ _ _ h1
      cases htask : t.tasks task with
      | some d => rw [(hs d htask).1]; rfl
      | none => rw [(hn htask).1]; rfl
    obtain ⟨d, hd⟩ := Option.isSome_iff_exists.mp hsome
    obtain ⟨hs2, _⟩ := implicit_begin_frame h2
    exact ⟨(hs2 d hd).2, (hs2 d hd).1, hsome⟩
  · intro t t1 t2 thr parallel task flags thr2 parallel2 flags2 mem mem2 h1 h2
    have hsome : ∃ d, t1.tasks task = some d := by
      obtain ⟨_, hs, hn⟩ := hcore _ _ _ _ _ _ _ h1
      cases htask : t.tasks task with
      | some d =>
        by_cases hi : d.type = ompt_task_initial
        · exact ⟨_, (hs d htask).2.2 hi⟩
        · exact ⟨_, (hs d htask).2.1 hi⟩
      | none =>
        obtain ⟨_, d1, hd1, _⟩ := hn htask
        exact ⟨d1, hd1⟩
    obtain ⟨d, hd⟩ := hsome
    obtain ⟨hfr, hs2, _⟩ := hcore _ _ _ _ _ _ _ h2
    refine ⟨(hs2 d hd).1, hfr, d, ?_⟩
    by_cases hi : d.type = ompt_task_initial
    · exact ⟨_, hd, (hs2 d hd).2.2 hi, rfl, rfl, rfl⟩
    · exact ⟨_, hd, (hs2 d hd).2.1 hi, rfl, rfl, rfl⟩

/-- The first implicit-task-begin of the initial thread, on the empty slot 10, draws one
task id and stores the record of the initial task with it; the second keeps the counters. -/
theorem implicit_begin_creates_if_absent_witness :
    (ompt_core.before_parallel.ids
        = (get_unique_id (Result.get ompt_core.tool_start
            (ompt_core.on_ompt_callback_thread_begin ompt_core.tool_start 0 1 101 true)).ids
            unique_id_type_t.id_task).2
      ∧ ∃ d1, ompt_core.before_parallel.tasks 10 = some d1
        ∧ d1.id = (get_unique_id (Result.get ompt_core.tool_start
            (ompt_core.on_ompt_callback_thread_begin ompt_core.tool_start 0 1 101 true)).ids
            unique_id_type_t.id_task).1
        ∧ d1.type = ompt_task_initial &&& TASK_TREE_TASK_TYPE_MASK
        ∧ d1.enclosing_parallel_id = 0)
    ∧ ((Result.get ompt_core.tool_start
          (ompt_core.on_ompt_callback_implicit_task ompt_core.before_parallel 0
            ompt_scope_endpoint_t.ompt_scope_begin 0 10 ompt_task_initial true)).ids
        = ompt_core.before_parallel.ids) :=
  ⟨(implicit_begin_creates_if_absent.2.1
      (Result.get ompt_core.tool_start
        (ompt_core.on_ompt_callback_thread_begin ompt_core.tool_start 0 1 101 true))
      ompt_core.before_parallel 0 0 10 ompt_task_initial true rfl).2.2 rfl,
   ((implicit_begin_creates_if_absent.2.1 ompt_core.before_parallel
      (Result.get ompt_core.tool_start
        (ompt_core.on_ompt_callback_implicit_task ompt_core.before_parallel 0
          ompt_scope_endpoint_t.ompt_scope_begin 0 10 ompt_task_initial true))
      0 0 10 ompt_task_initial true rfl).2.1 _ rfl).1⟩

/-! ## The edges of a parallel-end -/

theorem has_children_add_edge (g : task_graph_t) (x e n : Nat) :
    graph_node_has_children (task_graph_add_edge g x e) n
      = (graph_node_has_children g n || decide (x = n)) := by
  simp [graph_node_has_children, task_graph_add_edge, List.any_append]

/-- The loop of parallel-end over a stack whose size field is the number of its nodes, given
more fuel than the stack has nodes: it is left by its condition, with the stack empty, and
the edges it added, each once, are those to the end node from the nodes of the stack that
had no outgoing edge. -/
theorem join_terminal_nodes_spec (end_node : Nat) (xs : List Nat) :
    ∀ (g : task_graph_t) (st : stack_t), st.head = xs → st.size = xs.length →
      xs.length < SIZE_MOD →
      ∃ added,
        (∀ fuel, xs.length < fuel →
          ompt_core.join_terminal_nodes end_node fuel g (some st)
            = ({ g with edges := g.edges ++ added }, some { head := [], size := 0 }, true))
        ∧ added.Nodup
        ∧ ∀ e, e ∈ added ↔
            (e.2 = end_node ∧ e.1 ∈ xs ∧ graph_node_has_children g e.1 = false) := by
  induction xs with
  | nil =>
    intro g st hh hs _
    refine ⟨[], ?_, List.nodup_nil, ?_⟩
    · intro fuel hf
      obtain ⟨f, rfl⟩ : ∃ f, fuel = f + 1 := ⟨fuel - 1, by omega⟩
      have hst : st = { head := [], size := 0 } := by
        cases st
        simp only [List.length_nil] at hs
        simp only at hh
        subst hh
        subst hs
        rfl
      subst hst
      simp [ompt_core.join_terminal_nodes, stack_pop]
    · intro e
      simp
  | cons x xs ih =>
    intro g st hh hs hlt
    simp only [List.length_cons] at hs hlt
    have hsz : (st.size + SIZE_MOD - 1) % SIZE_MOD = xs.length := by
      rw [hs]
      have e : xs.length + 1 + SIZE_MOD - 1 = xs.length + SIZE_MOD := by omega
      rw [e, Nat.add_mod_right]
      exact Nat.mod_eq_of_lt (by omega)
    by_cases hc : graph_node_has_children g x = true
    · obtain ⟨added, h1, h2, h3⟩ :=
        ih g { head := xs, size := (st.size + SIZE_MOD - 1) % SIZE_MOD } rfl hsz (by omega)
      refine ⟨added, ?_, h2, ?_⟩
      · intro fuel hf
        simp only [List.length_cons] at hf
        obtain ⟨f, rfl⟩ : ∃ f, fuel = f + 1 := ⟨fuel - 1, by omega⟩
        simp only [ompt_core.join_terminal_nodes, stack_pop_some_cons hh, Option.map_some',
          Option.getD_some, hc, if_true]
        exact h1 f (by omega)
      · intro e
        rw [h3 e]
        constructor
        · rintro ⟨a, b, c⟩
          exact ⟨a, List.mem_cons_of_mem _ b, c⟩
        · rintro ⟨a, b, c⟩
          refine ⟨a, ?_, c⟩
          rcases List.mem_cons.mp b with hb | hb
          · rw [hb, hc] at c
            exact absurd c (by simp)
          · exact hb
    · have hc0 : graph_node_has_children g x = false := by simpa using hc
      obtain ⟨added, h1, h2, h3⟩ :=
        ih (task_graph_add_edge g x end_node)
          { head := xs, size := (st.size + SIZE_MOD - 1) % SIZE_MOD } rfl hsz (by omega)
      refine ⟨(x, end_node) :: added, ?_, ?_, ?_⟩
      · intro fuel hf
        simp only [List.length_cons] at hf
        obtain ⟨f, rfl⟩ : ∃ f, fuel = f + 1 := ⟨fuel - 1, by omega⟩
        simp only [ompt_core.join_terminal_nodes, stack_pop_some_cons hh, Option.map_some',
          Option.getD_some, hc0, if_true, Bool.false_eq_true, if_false]
        rw [h1 f (by omega)]
        simp [task_graph_add_edge]
      · refine List.nodup_cons.mpr ⟨?_, h2⟩
        intro hmem
        have := ((h3 _).mp hmem).2.2
        simp [has_children_add_edge] at this
      · intro e
        rw [List.mem_cons, h3 e, has_children_add_edge]
        constructor
        · rintro (he | ⟨a, b, c⟩)
          · subst he
            exact ⟨rfl, List.mem_cons_self _ _, hc0⟩
          · refine ⟨a, List.mem_cons_of_mem _ b, ?_⟩
            simp only [Bool.or_eq_false_iff] at c
            exact c.1
        · rintro ⟨a, b, c⟩
          by_cases hx : e.1 = x
          · left
            exact Prod.ext hx a
          · right
            refine ⟨a, ?_, ?_⟩
            · rcases List.mem_cons.mp b with hb | hb
              · exact absurd hb hx
              · exact hb
            · have hx' : ¬ x = e.1 := fun h => hx h.symm
              simp [c, hx']

/-- C23: at a parallel-end of ompt-core-callbacks.c, run by a thread whose stack of contexts
has on top a live context whose stack of nodes is as the stack functions keep it (its size
field the number of its nodes), for a slot that holds parallel data, and whose
`trace_event_leave` returns, the callback returns, having added one node, of type
`node_scope_parallel_end`, the end node of the context.  If the stack of nodes of the context
is empty, it has added one edge, from the begin node of the context to the end node.
Otherwise the edges it has added, each once, are those to the end node from the nodes on the
stack of the context that had no outgoing edge.  The loop over the stack is left by its
condition, whatever fuel above the number of nodes it is given, and the stack of nodes of the
context is empty afterwards. -/
theorem parallel_end_joins (t : ompt_core.Tool) (thr par : Nat)
    (td : ompt_core.thread_data_t) (st0 : stack_t) (ctx : Nat) (rest : List data_item_t)
    (c : region_context_t) (pd : ompt_core.parallel_data_t) (st : stack_t) (w1 : World)
    (hthr : t.threads thr = some td) (hstack : td.region_context_stack = some st0)
    (htop : st0.head = ctx :: rest) (hc : t.context_at ctx = some c)
    (hp : t.parallels par = some pd)
    (hleave : trace_event_leave t.w td.location = Result.ok w1)
    (hn : c.context_task_graph_nodes = some st) (hsz : st.size = st.head.length)
    (hlt : st.head.length < SIZE_MOD) :
    ∃ t1 added c1, ompt_core.on_ompt_callback_parallel_end t thr (some par) = Result.ok t1
      ∧ t1.graph.nodes = t.graph.nodes ++ [{ type := node_scope_parallel_end, data := par }]
      ∧ t1.graph.edges = t.graph.edges ++ added
      ∧ (st.head = [] → added = [(c.context_begin_node, t.graph.nodes.length + 1)])
      ∧ (st.head ≠ [] → added.Nodup ∧ ∀ e, e ∈ added ↔
          (e.2 = t.graph.nodes.length + 1 ∧ e.1 ∈ st.head
            ∧ graph_node_has_children t.graph e.1 = false))
      ∧ (st.head ≠ [] → ∀ fuel, st.head.length < fuel →
          ompt_core.join_terminal_nodes (t.graph.nodes.length + 1) fuel
            (task_graph_add_node t.graph node_scope_parallel_end par).2 (some st)
          = (t1.graph, some { head := [], size := 0 }, true))
      ∧ t1.context_at ctx = some c1
      ∧ c1.context_end_node = t.graph.nodes.length + 1
      ∧ c1.context_task_graph_nodes = some { head := [], size := 0 }
      ∧ stack_is_empty c1.context_task_graph_nodes = true := by
  have hctx0 : ctx ≠ 0 := by
    intro h0
    simp [ompt_core.Tool.context_at, h0] at hc
  have hc1 : ompt_core.Tool.context_at
      { t with
        threads := Function.update t.threads thr
          (some { td with
            region_context_stack :=
              some { head := rest, size := (st0.size + SIZE_MOD - 1) % SIZE_MOD } }) }
      ctx = some c := hc
  have hl1 : trace_event_leave
      ({ t with
        threads := Function.update t.threads thr
          (some { td with
            region_context_stack :=
              some { head := rest, size := (st0.size + SIZE_MOD - 1) % SIZE_MOD } }) }
        : ompt_core.Tool).w td.location = Result.ok w1 := hleave
  cases hh : st.head with
  | nil =>
    have hst : st = { head := [], size := 0 } := by
      cases st
      simp only at hh
      subst hh
      simp only [List.length_nil] at hsz
      subst hsz
      rfl
    subst hst
    have hz : stack_size c.context_task_graph_nodes = 0 := by rw [hn]; rfl
    simp only [ompt_core.on_ompt_callback_parallel_end, hthr, hstack,
      stack_pop_some_cons htop, Option.map_some', Option.getD_some, hc1, hp, hl1, hz, if_true]
    refine ⟨_, [(c.context_begin_node, t.graph.nodes.length + 1)],
      { c with context_end_node := t.graph.nodes.length + 1 }, rfl, rfl, rfl,
      fun _ => rfl, fun h => absurd rfl h, fun h => absurd rfl h, ?_, rfl, hn, ?_⟩
    · simp [ompt_core.Tool.context_at, hctx0, task_graph_add_node]
    · rw [hn]; rfl
  | cons x xs =>
    have hnz : ¬ stack_size c.context_task_graph_nodes = 0 := by
      rw [hn]
      simp only [stack_size, hsz, hh, List.length_cons]
      omega
    have hlen : nodes_of c.context_task_graph_nodes = st.head.length := by rw [hn]; rfl
    obtain ⟨added, hjall, hnd, hmem⟩ :=
      join_terminal_nodes_spec (t.graph.nodes.length + 1) st.head
        (task_graph_add_node t.graph node_scope_parallel_end par).2 st rfl hsz hlt
    have hj := hjall (st.head.length + 1) (by omega)
    have hj1 : ompt_core.join_terminal_nodes
        (task_graph_add_node t.graph node_scope_parallel_end par).1
        (nodes_of c.context_task_graph_nodes + 1)
        (task_graph_add_node t.graph node_scope_parallel_end par).2
        c.context_task_graph_nodes
        = ({ (task_graph_add_node t.graph node_scope_parallel_end par).2 with
              edges := (task_graph_add_node t.graph node_scope_parallel_end par).2.edges
                ++ added },
           some { head := [], size := 0 }, true) := by
      rw [hlen, hn]
      exact hj
    simp only [ompt_core.on_ompt_callback_parallel_end, hthr, hstack,
      stack_pop_some_cons htop, Option.map_some', Option.getD_some, hc1, hp, hl1, hnz, if_false,
      hj1]
    refine ⟨_, added,
      { c with
        context_end_node := t.graph.nodes.length + 1
        context_task_graph_nodes := some { head := [], size := 0 } },
      rfl, rfl, rfl, fun h => by simp at h, fun _ => ⟨hnd, ?_⟩,
      fun _ fuel hf => ?_, ?_, rfl, rfl, rfl⟩
    · intro e
      rw [← hh, hmem e]
      rfl
    · rw [hjall fuel (by rw [hh]; exact hf)]
    · simp [ompt_core.Tool.context_at, hctx0, task_graph_add_node]

/-- In `ompt_core.with_task` the implicit task of the parallel region of slot 1 has created
one task, whose node 3 has no outgoing edge: parallel-end adds the end node 4 and the edge
from 3 to 4. -/
theorem parallel_end_joins_witness :
    ∃ t1 added, ompt_core.on_ompt_callback_parallel_end ompt_core.with_task 0 (some 1)
        = Result.ok t1
      ∧ t1.graph.edges = ompt_core.with_task.graph.edges ++ added
      ∧ (∀ e, e ∈ added ↔ (e.2 = 4 ∧ e.1 ∈ [3]
          ∧ graph_node_has_children ompt_core.with_task.graph e.1 = false)) := by
  obtain ⟨t1, added, _, h1, _, h3, _, h5, _⟩ :=
    parallel_end_joins ompt_core.with_task 0 1 _ _ 301 [] _ _ { head := [3], size := 1 }
      (Result.get ompt_core.with_task.w
        (trace_event_leave ompt_core.with_task.w 1))
      rfl rfl rfl rfl rfl rfl rfl rfl (by decide)
  exact ⟨t1, added, h1, h3, (h5 (by simp)).2⟩

/-! ## The stack of contexts of a thread -/

theorem size_push_pop (n : Nat) (h : n < SIZE_MOD) :
    ((n + 1) % SIZE_MOD + SIZE_MOD - 1) % SIZE_MOD = n := by
  simp only [SIZE_MOD] at *
  omega

/-- The stack of contexts of the thread after a parallel-end that returned: the stack before,
popped once. -/
theorem core_parallel_end_stack {t t2 : ompt_core.Tool} {thr : Nat} {parallel : Option Nat}
    {td : ompt_core.thread_data_t}
    (hthr : t.threads thr = some td)
    (h : ompt_core.on_ompt_callback_parallel_end t thr parallel = Result.ok t2) :
    t2.threads thr = some { td with
      region_context_stack := (stack_pop td.region_context_stack (some 0)).2.1 } := by
  unfold ompt_core.on_ompt_callback_parallel_end at h
  simp only [hthr] at h
  split at h
  · simp at h
  · split at h
    · simp only [Result.ok.injEq] at h; subst h; simp
    · split at h
      · simp only [Result.ok.injEq] at h; subst h; simp
      · split at h
        · simp at h
        · simp at h
        · simp only [Result.ok.injEq] at h; subst h; simp

/-- C29: the stack of contexts of a thread is not balanced over a parallel region on a
worker.  An implicit-task-begin of an implicit task pushes the context of the parallel
region, and the implicit-task-end that follows returns with the tool as it is, the stack one
deeper than before the begin: so it is for the worker thread 1 that joins the region of
`ompt_core.in_parallel`, whose stack, empty before, holds the context 301 after its
implicit-task-end.  On the master, the parallel-end that returns pops the context its
implicit-task-begin pushed, and the stack is as before that begin.  A work begin and end of
kind single_executor, loop or taskloop push one context and pop it, and the stack is as
before; for any other kind the callback returns with the tool unchanged. -/
theorem worker_context_stack_not_popped :
    (∀ (t : ompt_core.Tool) (thr par task flags par2 task2 flags2 : Nat) (mem2 : Bool)
        (td : ompt_core.thread_data_t) (st : stack_t) (pd : ompt_core.parallel_data_t),
      t.threads thr = some td → td.region_context_stack = some st → t.tasks task = none →
      flags &&& TASK_TREE_TASK_TYPE_MASK = ompt_task_implicit → t.parallels par = some pd →
      ∃ t1 td1, ompt_core.on_ompt_callback_implicit_task t thr
            ompt_scope_endpoint_t.ompt_scope_begin par task flags true = Result.ok t1
        ∧ ompt_core.on_ompt_callback_implicit_task t1 thr
            ompt_scope_endpoint_t.ompt_scope_end par2 task2 flags2 mem2 = Result.ok t1
        ∧ t1.threads thr = some td1
        ∧ td1.region_context_stack
            = some { head := pd.context :: st.head, size := (st.size + 1) % SIZE_MOD }
        ∧ depth td1.region_context_stack = depth td.region_context_stack + 1)
    ∧ (∃ t1 t3 td0 td1,
        ompt_core.on_ompt_callback_thread_begin ompt_core.in_parallel 1 2 102 true
          = Result.ok t1
        ∧ t1.threads 1 = some td0
        ∧ td0.region_context_stack = some { head := [], size := 0 }
        ∧ ompt_core.play t1
            [ompt_core.Callback.implicit_task 1 ompt_scope_endpoint_t.ompt_scope_begin 1 21
               ompt_task_implicit true,
             ompt_core.Callback.implicit_task 1 ompt_scope_endpoint_t.ompt_scope_end 1 21
               ompt_task_implicit true]
          = Result.ok t3
        ∧ t3.threads 1 = some td1
        ∧ td1.region_context_stack = some { head := [301], size := 1 })
    ∧ (∀ (t t2 : ompt_core.Tool) (thr par task flags : Nat) (parallel : Option Nat)
        (td : ompt_core.thread_data_t) (st : stack_t) (pd : ompt_core.parallel_data_t),
      t.threads thr = some td → td.region_context_stack = some st → st.size < SIZE_MOD →
      t.tasks task = none →
      flags &&& TASK_TREE_TASK_TYPE_MASK = ompt_task_implicit → t.parallels par = some pd →
      ∃ t1 td1, ompt_core.on_ompt_callback_implicit_task t thr
            ompt_scope_endpoint_t.ompt_scope_begin par task flags true = Result.ok t1
        ∧ t1.threads thr = some td1
        ∧ stack_pop td1.region_context_stack (some 0) = (true, some st, some pd.context)
        ∧ (ompt_core.on_ompt_callback_parallel_end t1 thr parallel = Result.ok t2 →
            t2.threads thr = some td))
    ∧ (∀ (t : ompt_core.Tool) (thr wstype ctx ctx2 : Nat) (junk junk2 : region_context_t)
        (mem2 : Bool) (td : ompt_core.thread_data_t) (st : stack_t),
      t.threads thr = some td → td.region_context_stack = some st → st.size < SIZE_MOD →
      ctx ≠ 0 →
      wstype = ompt_work_single_executor ∨ wstype = ompt_work_loop
        ∨ wstype = ompt_work_taskloop →
      ∃ t1 t2 td1, ompt_core.on_ompt_callback_work t thr wstype
            ompt_scope_endpoint_t.ompt_scope_begin ctx junk true = Result.ok t1
        ∧ t1.threads thr = some td1
        ∧ td1.region_context_stack
            = some { head := ctx :: st.head, size := (st.size + 1) % SIZE_MOD }
        ∧ ompt_core.on_ompt_callback_work t1 thr wstype
            ompt_scope_endpoint_t.ompt_scope_end ctx2 junk2 mem2 = Result.ok t2
        ∧ t2.threads thr = some td)
    ∧ (∀ (t : ompt_core.Tool) (thr wstype ctx : Nat) (endpoint : ompt_scope_endpoint_t)
        (junk : region_context_t) (mem : Bool) (td : ompt_core.thread_data_t),
      t.threads thr = some td →
      ¬ (wstype = ompt_work_single_executor ∨ wstype = ompt_work_loop
        ∨ wstype = ompt_work_taskloop) →
      ompt_core.on_ompt_callback_work t thr wstype endpoint ctx junk mem = Result.ok t) := by
  refine ⟨?_, ?_, ?_, ?_, ?_⟩
  · intro t thr par task flags par2 task2 flags2 mem2 td st pd hthr hst htask hfl hpar
    obtain ⟨t1, h1, h2, _⟩ := core_implicit_begin_ok t thr par task flags td st pd hthr hst
      htask hfl hpar
    refine ⟨t1, _, h1, ?_, h2, rfl, ?_⟩
    · simp only [ompt_core.on_ompt_callback_implicit_task, h2]
    · rw [hst]; rfl
  · exact ⟨_, _, _, _, rfl, rfl, rfl, rfl, rfl, rfl⟩
  · intro t t2 thr par task flags parallel td st pd hthr hst hsz htask hfl hpar
    obtain ⟨t1, h1, h2, _⟩ := core_implicit_begin_ok t thr par task flags td st pd hthr hst
      htask hfl hpar
    have hpop : stack_pop
        (some { head := pd.context :: st.head, size := (st.size + 1) % SIZE_MOD } : Option stack_t)
        (some 0) = (true, some st, some pd.context) := by
      simp only [stack_pop, Option.map_some', size_push_pop st.size hsz]
    refine ⟨t1, _, h1, h2, hpop, ?_⟩
    intro hend
    rw [core_parallel_end_stack h2 hend]
    simp only [hpop]
    cases td
    simp only at hst
    subst hst
    rfl
  · intro t thr wstype ctx ctx2 junk junk2 mem2 td st hthr hst hsz hctx hk
    have hpop : stack_pop
        (some { head := ctx :: st.head, size := (st.size + 1) % SIZE_MOD } : Option stack_t)
        (some 0) = (true, some st, some ctx) := by
      simp only [stack_pop, Option.map_some', size_push_pop st.size hsz]
    have h1 : ∃ t1, ompt_core.on_ompt_callback_work t thr wstype
          ompt_scope_endpoint_t.ompt_scope_begin ctx junk true = Result.ok t1
        ∧ t1.threads thr = some { td with
            region_context_stack :=
              some { head := ctx :: st.head, size := (st.size + 1) % SIZE_MOD } } := by
      simp only [ompt_core.on_ompt_callback_work, hthr, hk, if_true, hctx, if_false, hst,
        stack_push]
      exact ⟨_, rfl, by simp⟩
    obtain ⟨t1, h1, ht1⟩ := h1
    have h2 : ∃ t2, ompt_core.on_ompt_callback_work t1 thr wstype
          ompt_scope_endpoint_t.ompt_scope_end ctx2 junk2 mem2 = Result.ok t2
        ∧ t2.threads thr = some td := by
      simp only [ompt_core.on_ompt_callback_work, ht1, hk, if_true, hpop]
      refine ⟨_, rfl, ?_⟩
      simp only [Function.update_same]
      cases td
      simp only at hst
      subst hst
      rfl
    obtain ⟨t2, h2, ht2⟩ := h2
    exact ⟨t1, t2, _, h1, ht1, rfl, h2, ht2⟩
  · intro t thr wstype ctx endpoint junk mem td hthr hk
    simp only [ompt_core.on_ompt_callback_work, hthr, hk, if_false]

/-! ## The source of the edge to a task created by an implicit task -/

end Otter
